import Mathlib

/-!
# Personal-Finance-Management-System backend: goals and reports

A shallow embedding of the Go backend (`src/backend/internal/...`) and
theorems about it.

Modelling conventions

* `float64` amounts are taken as the exact rationals (`ℚ`) they denote, and
  sums, differences and quotients of amounts are exact here, where the code
  rounds to the nearest `float64` and can overflow.  The theorems therefore
  state only what does not depend on rounding: values copied from a request
  or a row, comparisons of stored values, flags, labels and counts, and which
  divisor is zero.  The numeric results of the float arithmetic are outside
  this embedding.  A quotient with a zero divisor is a value of `F64`, which
  adds `+Inf`, `-Inf` and `NaN` to the rationals.
* `time.Time` is an instant: nanoseconds since the Unix epoch (`Int`,
  unbounded).  `time.Duration` is a number of nanoseconds saturated to the
  `int64` range, as `Time.Sub` does.
* The goals table of the database is a list of rows; the SQL of the goal
  repository is modelled on it.  The report queries are functions of the
  repository's caller-visible interface.
-/

namespace PFM

/-! ## Floating-point quotients -/

/-- A `float64` value as far as the handlers can produce one: a finite number
(an exact rational here), an infinity, or NaN. -/
inductive F64 where
  | finite (q : ℚ)
  | inf (negative : Bool)
  | nan
  deriving DecidableEq, Repr

/-- Go `a / b` on finite `float64` operands (a zero divisor is taken as `+0`).
For a nonzero divisor the quotient is exact here; the code rounds it and can
overflow. -/
def F64.div (a b : ℚ) : F64 :=
  if b = 0 then
    if a = 0 then F64.nan else F64.inf (decide (a < 0))
  else F64.finite (a / b)

/-- Go `x * k` for a finite positive constant `k` (exact here, rounded in the
code). -/
def F64.mulPos (x : F64) (k : ℚ) : F64 :=
  match x with
  | F64.finite q => F64.finite (q * k)
  | F64.inf n => F64.inf n
  | F64.nan => F64.nan

/-- Go `x >= k` for a finite `k`: false on NaN. -/
def F64.ge (x : F64) (k : ℚ) : Bool :=
  match x with
  | F64.finite q => decide (k ≤ q)
  | F64.inf n => !n
  | F64.nan => false

/-! ## Time -/

/-- An instant, in nanoseconds since 1970-01-01T00:00:00Z. -/
abbrev Time := Int

/-- A `time.Duration`, in nanoseconds. -/
abbrev Duration := Int

def Nanosecond : Duration := 1
def Second : Duration := 1000000000
def Hour : Duration := 3600 * Second

def maxDuration : Duration := 2 ^ 63 - 1
def minDuration : Duration := -(2 ^ 63)

/-- Go `t.Before(u)`. -/
def Time.Before (t u : Time) : Bool := decide (t < u)

/-- Go `t.Sub(u)`: the difference, saturated to the range of a Duration. -/
def Time.Sub (t u : Time) : Duration :=
  if t - u > maxDuration then maxDuration
  else if t - u < minDuration then minDuration
  else t - u

/-- Go `t.Add(d)`. -/
def Time.Add (t : Time) (d : Duration) : Time := t + d

def isLeap (year : Int) : Bool :=
  decide (year % 4 = 0) && (decide (year % 100 ≠ 0) || decide (year % 400 = 0))

/-- Number of days in the months before month `m` (1-based) of a non-leap year. -/
def daysBefore (m : Int) : Int :=
  match m with
  | 1 => 0 | 2 => 31 | 3 => 59 | 4 => 90 | 5 => 120 | 6 => 151
  | 7 => 181 | 8 => 212 | 9 => 243 | 10 => 273 | 11 => 304 | 12 => 334
  | _ => 365

/-- Go `daysIn(m, year)`. -/
def daysIn (m : Int) (year : Int) : Int :=
  if m = 2 ∧ isLeap year = true then 29
  else daysBefore (m + 1) - daysBefore m

/-- Days from 1970-01-01 to January 1st of `year` (proleptic Gregorian). -/
def daysSinceEpoch (year : Int) : Int :=
  let y := year - 1
  365 * (year - 1970) + (y / 4 - y / 100 + y / 400) - 477

/-- Go `time.Date(year, month, day, hour, min, sec, 0, time.UTC)`: the month
is normalised into the year, the remaining fields count linearly. -/
def Date (year month day hour min sec : Int) : Time :=
  let m0 := month - 1
  let y := year + m0 / 12
  let m := m0 % 12 + 1
  let d := daysSinceEpoch y + daysBefore m
    + (if isLeap y = true ∧ m ≥ 3 then 1 else 0) + (day - 1)
  (((d * 24 + hour) * 60 + min) * 60 + sec) * Second

/-- Civil (year, month, day) of a day number counted from 1970-01-01. -/
def civilFromDays (z0 : Int) : Int × Int × Int :=
  let z := z0 + 719468
  let era := z / 146097
  let doe := z % 146097
  let yoe := (doe - doe / 1460 + doe / 36524 - doe / 146096) / 365
  let doy := doe - (365 * yoe + yoe / 4 - yoe / 100)
  let mp := (5 * doy + 2) / 153
  let d := doy - (153 * mp + 2) / 5 + 1
  let m := if mp < 10 then mp + 3 else mp - 9
  let y := yoe + era * 400
  (if m ≤ 2 then y + 1 else y, m, d)

/-- A reading of `time.Now()`: the instant and the offset of the server's
local zone, in seconds east of UTC. -/
structure Clock where
  now : Time
  zoneOffset : Int
  deriving DecidableEq, Repr

/-- Go `time.Now().Year()`. -/
def Clock.Year (c : Clock) : Int :=
  (civilFromDays ((c.now / Second + c.zoneOffset) / 86400)).1

/-- Go `time.Now().Month()`. -/
def Clock.Month (c : Clock) : Int :=
  (civilFromDays ((c.now / Second + c.zoneOffset) / 86400)).2.1

def isDigit (c : Char) : Bool := decide ('0'.toNat ≤ c.toNat) && decide (c.toNat ≤ '9'.toNat)

def digitVal (c : Char) : Int := (c.toNat : Int) - 48

/-- Go `time.Parse("2006-01-02", s)`: four digits, `-`, two digits, `-`, two
digits and nothing else; the month must be 1..12 and the day must exist in
that month.  The result is midnight UTC of that day. -/
def parseDate (s : String) : Option Time :=
  match s.toList with
  | [y1, y2, y3, y4, '-', m1, m2, '-', d1, d2] =>
    if [y1, y2, y3, y4, m1, m2, d1, d2].all isDigit then
      let year := ((digitVal y1 * 10 + digitVal y2) * 10 + digitVal y3) * 10 + digitVal y4
      let month := digitVal m1 * 10 + digitVal m2
      let day := digitVal d1 * 10 + digitVal d2
      if month ≤ 0 ∨ 12 < month then none
      else if day < 1 ∨ day > daysIn month year then none
      else some (Date year month day 0 0 0)
    else none
  | _ => none

/-! ## Data model (`models/models.go`) -/

/-- Go `models.Goal`, a row of `public.goals`. -/
structure Goal where
  ID : String
  UserID : String
  Name : String
  Description : Option String
  TargetAmount : ℚ
  CurrentAmount : ℚ
  TargetDate : Option Time
  IsCompleted : Bool
  IsActive : Bool
  CreatedAt : Time
  UpdatedAt : Time
  deriving DecidableEq, Repr

/-- Go `models.Account`. -/
structure Account where
  ID : String
  UserID : String
  Name : String
  AccountType : String
  Balance : ℚ
  Description : Option String
  IsActive : Bool
  CreatedAt : Time
  UpdatedAt : Time
  deriving DecidableEq, Repr

/-- Go `models.Category`. -/
structure Category where
  ID : String
  UserID : String
  Name : String
  Description : Option String
  Color : String
  Icon : Option String
  IsActive : Bool
  CreatedAt : Time
  UpdatedAt : Time
  deriving DecidableEq, Repr

/-- Go `models.Transaction`; `TransactionType` is a string type with the
constants "income", "expense" and "transfer". -/
structure Transaction where
  ID : String
  UserID : String
  AccountID : String
  CategoryID : Option String
  Amount : ℚ
  TransactionType : String
  Description : Option String
  TransactionDate : Time
  Notes : Option String
  TransferID : Option String
  CreatedAt : Time
  UpdatedAt : Time
  Account : Option Account
  Category : Option Category
  deriving DecidableEq, Repr

/-- Go `models.Budget`. -/
structure Budget where
  ID : String
  UserID : String
  CategoryID : String
  Name : String
  Amount : ℚ
  Period : String
  StartDate : Time
  EndDate : Option Time
  Description : Option String
  IsActive : Bool
  CreatedAt : Time
  UpdatedAt : Time
  Category : Option Category
  deriving DecidableEq, Repr

/-- Go `models.MonthlySummaryItem`. -/
structure MonthlySummaryItem where
  CategoryID : String
  CategoryName : String
  TotalAmount : ℚ
  Count : Int
  deriving DecidableEq, Repr

/-- Go `models.MonthlySummary`. -/
structure MonthlySummary where
  UserID : String
  Month : Int
  Year : Int
  TotalIncome : ℚ
  TotalExpenses : ℚ
  NetAmount : ℚ
  Categories : List MonthlySummaryItem
  GeneratedAt : Time
  deriving DecidableEq, Repr

/-- Go `models.CashFlowItem`. -/
structure CashFlowItem where
  Date : Time
  Income : ℚ
  Expenses : ℚ
  NetFlow : ℚ
  deriving DecidableEq, Repr

/-- Go `models.CashFlow`. -/
structure CashFlow where
  UserID : String
  StartDate : Time
  EndDate : Time
  Items : List CashFlowItem
  TotalIncome : ℚ
  TotalExpense : ℚ
  NetCashFlow : ℚ
  GeneratedAt : Time
  deriving DecidableEq, Repr

/-! ## Goal repository (`repositories/postgres/postgres.go`) -/

/-- The database as the goal repository sees it.  `now` is the value of
`NOW()`.  The schema of `public.goals` is not part of the sources, so what it
fills in on INSERT (the id and the defaults of `is_completed` and
`is_active`) is a parameter.  `faults` decides, call by call, whether the
next statement fails for a reason outside the data (connection lost,
constraint violated, ...): `some msg` is the driver's error. -/
structure DB where
  goals : List Goal
  now : Time
  nextID : String
  defaultIsCompleted : Bool
  defaultIsActive : Bool
  faults : List (Option String)
  deriving DecidableEq, Repr

/-- Consume the verdict on the next statement. -/
def DB.fault (db : DB) : Option String × DB :=
  match db.faults with
  | [] => (none, db)
  | f :: rest => (f, { db with faults := rest })

/-- Text of pgx's `ErrNoRows`. -/
def errNoRows : String := "no rows in result set"

/-- Go `GetGoalByID`: `SELECT ... FROM public.goals WHERE id = $1`, first row. -/
def PostgresRepositories.GetGoalByID (id : String) (db : DB) : Except String Goal × DB :=
  match db.fault with
  | (some e, db1) => (Except.error ("failed to get goal by ID: " ++ e), db1)
  | (none, db1) =>
    match db1.goals.find? (fun g => g.ID == id) with
    | none => (Except.error ("failed to get goal by ID: " ++ errNoRows), db1)
    | some g => (Except.ok g, db1)

/-- Go `GetGoalsByUserID`: the user's rows with `is_active = true` (the order
of the result, `created_at DESC`, is left as the order of the table). -/
def PostgresRepositories.GetGoalsByUserID (userID : String) (db : DB) :
    Except String (List Goal) × DB :=
  match db.fault with
  | (some e, db1) => (Except.error ("failed to get goals: " ++ e), db1)
  | (none, db1) =>
    (Except.ok (db1.goals.filter (fun g => g.UserID == userID && g.IsActive)), db1)

/-- Go `CreateGoal`: INSERT of user_id, name, description, target_amount,
current_amount and target_date; the row's id, timestamps, is_completed and
is_active come back from the database. -/
def PostgresRepositories.CreateGoal (goal : Goal) (db : DB) : Except String Goal × DB :=
  match db.fault with
  | (some e, db1) => (Except.error ("failed to create goal: " ++ e), db1)
  | (none, db1) =>
    let row : Goal :=
      { goal with
        ID := db1.nextID
        CreatedAt := db1.now
        UpdatedAt := db1.now
        IsCompleted := db1.defaultIsCompleted
        IsActive := db1.defaultIsActive }
    (Except.ok row, { db1 with goals := db1.goals ++ [row] })

/-- The SET clause of `UpdateGoal` on a row matched by its WHERE clause. -/
def updateRow (goal : Goal) (now : Time) (g : Goal) : Goal :=
  if g.ID == goal.ID && g.UserID == goal.UserID then
    { g with
      Name := goal.Name
      Description := goal.Description
      TargetAmount := goal.TargetAmount
      CurrentAmount := goal.CurrentAmount
      TargetDate := goal.TargetDate
      IsCompleted := goal.IsCompleted
      UpdatedAt := now }
  else g

/-- Go `UpdateGoal`: `UPDATE public.goals SET name, description,
target_amount, current_amount, target_date, is_completed, updated_at = NOW()
WHERE id = $1 AND user_id = $8 RETURNING updated_at`. -/
def PostgresRepositories.UpdateGoal (goal : Goal) (db : DB) : Except String Goal × DB :=
  match db.fault with
  | (some e, db1) => (Except.error ("failed to update goal: " ++ e), db1)
  | (none, db1) =>
    if db1.goals.any (fun g => g.ID == goal.ID && g.UserID == goal.UserID) then
      (Except.ok { goal with UpdatedAt := db1.now },
        { db1 with goals := db1.goals.map (updateRow goal db1.now) })
    else (Except.error ("failed to update goal: " ++ errNoRows), db1)

/-- The SET clause of `DeleteGoal` on a row matched by its WHERE clause. -/
def deactivateRow (id : String) (now : Time) (g : Goal) : Goal :=
  if g.ID == id then { g with IsActive := false, UpdatedAt := now } else g

/-- Go `DeleteGoal`: `UPDATE public.goals SET is_active = false,
updated_at = NOW() WHERE id = $1`; an error when no row was affected. -/
def PostgresRepositories.DeleteGoal (id : String) (db : DB) : Except String Unit × DB :=
  match db.fault with
  | (some e, db1) => (Except.error ("failed to delete goal: " ++ e), db1)
  | (none, db1) =>
    if db1.goals.any (fun g => g.ID == id) then
      (Except.ok (), { db1 with goals := db1.goals.map (deactivateRow id db1.now) })
    else (Except.error "goal not found", db1)

/-! ## HTTP plumbing -/

/-- The progress report of a goal: the `gin.H` that `GetGoalProgress`
returns. -/
structure GoalProgress where
  goal_id : String
  name : String
  target_amount : ℚ
  current_amount : ℚ
  progress_percentage : F64
  remaining_amount : ℚ
  is_completed : Bool
  target_date : Option Time
  days_remaining : Option Int
  status : String
  deriving DecidableEq, Repr

/-- One entry of `budget_performance` in the answer of
`GetBudgetPerformance`. -/
structure BudgetPerformanceItem where
  budget_id : String
  budget_name : String
  category_id : String
  budgeted_amount : ℚ
  spent_amount : ℚ
  remaining : ℚ
  percentage_used : F64
  status : String
  is_over_budget : Bool
  period : String
  deriving DecidableEq, Repr

/-- The `overall_performance` of the answer of `GetBudgetPerformance`. -/
structure OverallPerformance where
  total_budgeted : ℚ
  total_spent : ℚ
  total_remaining : ℚ
  overall_percentage : F64
  budgets_count : Int
  over_budget_count : Int
  on_track_count : Int
  deriving DecidableEq, Repr

/-- The answer of `GetBudgetPerformance`. -/
structure BudgetPerformanceReport where
  user_id : String
  month : Int
  year : Int
  budget_performance : List BudgetPerformanceItem
  overall_performance : OverallPerformance
  generated_at : Time
  deriving DecidableEq, Repr

/-- Go `HealthResponse` (`handlers/health.go`). -/
structure HealthResponse where
  Status : String
  Timestamp : Time
  Service : String
  Version : String
  deriving DecidableEq, Repr

/-- JSON bodies of the handlers. -/
inductive Body where
  | error (msg : String) (details : Option String)
  | message (msg : String)
  | goals (gs : List Goal)
  | goal (g : Goal)
  | progress (p : GoalProgress)
  | monthlySummary (s : MonthlySummary)
  | cashFlow (cf : CashFlow)
  | budgetPerformance (r : BudgetPerformanceReport)
  | health (h : HealthResponse)
  deriving DecidableEq, Repr

/-- What a handler writes with `c.JSON(status, body)`. -/
structure Response where
  status : Nat
  body : Body
  deriving DecidableEq, Repr

def StatusOK : Nat := 200
def StatusCreated : Nat := 201
def StatusBadRequest : Nat := 400
def StatusUnauthorized : Nat := 401
def StatusForbidden : Nat := 403
def StatusNotFound : Nat := 404
def StatusInternalServerError : Nat := 500

/-! ## Goal handlers (`handlers/goals.go`)

`userID` is the value of `middleware.MustGetUserID(c)`, `goalID` the value of
`c.Param("id")`, and `body` the outcome of decoding the JSON body into the
request struct (`Except.error` carries the decoder's message). -/

/-- Go `CreateGoalRequest`; an absent `name` or `target_amount` decodes to the
zero value. -/
structure CreateGoalRequest where
  Name : String
  Description : Option String
  TargetAmount : ℚ
  TargetDate : Option String
  deriving DecidableEq, Repr

/-- Go `UpdateGoalRequest`: every field is a pointer. -/
structure UpdateGoalRequest where
  Name : Option String
  Description : Option String
  TargetAmount : Option ℚ
  CurrentAmount : Option ℚ
  TargetDate : Option String
  IsCompleted : Option Bool
  deriving DecidableEq, Repr

/-- Go `ProgressUpdateRequest` of `UpdateGoalProgress`. -/
structure ProgressUpdateRequest where
  Amount : Option ℚ
  SetAbsolute : Option Bool
  deriving DecidableEq, Repr

/-- Message of the validator for one violated tag. -/
def validationError (struct field tag : String) : String :=
  "Key: \x27" ++ struct ++ "." ++ field ++ "\x27 Error:Field validation for \x27" ++ field
    ++ "\x27 failed on the \x27" ++ tag ++ "\x27 tag"

/-- The `binding` tags of `CreateGoalRequest`: `name` is `required`,
`target_amount` is `required,gt=0`.  The list of violated tags. -/
def CreateGoalRequest.violations (req : CreateGoalRequest) : List String :=
  (if req.Name = "" then [validationError "CreateGoalRequest" "Name" "required"] else [])
  ++ (if req.TargetAmount = 0 then
        [validationError "CreateGoalRequest" "TargetAmount" "required"]
      else if req.TargetAmount ≤ 0 then
        [validationError "CreateGoalRequest" "TargetAmount" "gt"]
      else [])

/-- Go `c.ShouldBindJSON(&req)` for `CreateGoalRequest`: decoding, then the
binding tags. -/
def bindCreateGoal (body : Except String CreateGoalRequest) : Except String CreateGoalRequest :=
  match body with
  | Except.error e => Except.error e
  | Except.ok req =>
    if req.violations = [] then Except.ok req
    else Except.error (String.intercalate "\n" req.violations)

/-- Go `c.ShouldBindJSON(&req)` for `ProgressUpdateRequest`: `amount` is
`required` (a pointer: it must be present, zero is allowed). -/
def bindProgressUpdate (body : Except String ProgressUpdateRequest) :
    Except String (ℚ × Option Bool) :=
  match body with
  | Except.error e => Except.error e
  | Except.ok req =>
    match req.Amount with
    | none => Except.error (validationError "ProgressUpdateRequest" "Amount" "required")
    | some a => Except.ok (a, req.SetAbsolute)

def invalidBody (e : String) : Response :=
  { status := StatusBadRequest, body := Body.error "Invalid request body" (some e) }

def goalNotFound : Response :=
  { status := StatusNotFound, body := Body.error "Goal not found" none }

def accessDenied : Response :=
  { status := StatusForbidden, body := Body.error "Access denied" none }

def invalidTargetDate : Response :=
  { status := StatusBadRequest,
    body := Body.error "Invalid target_date format. Use YYYY-MM-DD" none }

/-- The zero value of `time.Time`: January 1, year 1, 00:00 UTC. -/
def zeroTime : Time := Date 1 1 1 0 0 0

/-- Go `GoalsHandler.GetGoals`. -/
def GoalsHandler.GetGoals (userID : String) (db : DB) : Response × DB :=
  match PostgresRepositories.GetGoalsByUserID userID db with
  | (Except.error e, db1) =>
    ({ status := StatusInternalServerError, body := Body.error "Failed to get goals" (some e) },
      db1)
  | (Except.ok goals, db1) => ({ status := StatusOK, body := Body.goals goals }, db1)

/-- Go `GoalsHandler.GetGoal`. -/
def GoalsHandler.GetGoal (userID goalID : String) (db : DB) : Response × DB :=
  match PostgresRepositories.GetGoalByID goalID db with
  | (Except.error _, db1) => (goalNotFound, db1)
  | (Except.ok goal, db1) =>
    if goal.UserID ≠ userID then (accessDenied, db1)
    else ({ status := StatusOK, body := Body.goal goal }, db1)

/-- Go `GoalsHandler.CreateGoal`. -/
def GoalsHandler.CreateGoal (userID : String) (body : Except String CreateGoalRequest)
    (db : DB) : Response × DB :=
  match bindCreateGoal body with
  | Except.error e => (invalidBody e, db)
  | Except.ok req =>
    let parsed : Except Unit (Option Time) :=
      match req.TargetDate with
      | none => Except.ok none
      | some s =>
        if s = "" then Except.ok none
        else
          match parseDate s with
          | none => Except.error ()
          | some t => Except.ok (some t)
    match parsed with
    | Except.error _ => (invalidTargetDate, db)
    | Except.ok targetDate =>
      let goal : Goal :=
        { ID := ""
          UserID := userID
          Name := req.Name
          Description := req.Description
          TargetAmount := req.TargetAmount
          CurrentAmount := 0
          TargetDate := targetDate
          IsCompleted := false
          IsActive := false
          CreatedAt := zeroTime
          UpdatedAt := zeroTime }
      match PostgresRepositories.CreateGoal goal db with
      | (Except.error e, db1) =>
        ({ status := StatusInternalServerError,
           body := Body.error "Failed to create goal" (some e) }, db1)
      | (Except.ok created, db1) => ({ status := StatusCreated, body := Body.goal created }, db1)

def badRequest (msg : String) : Response :=
  { status := StatusBadRequest, body := Body.error msg none }

/-- The `target_amount` step of `UpdateGoal` (goals.go lines 170-178). -/
def updateTargetAmount (req : UpdateGoalRequest) (goal : Goal) : Except Response Goal :=
  match req.TargetAmount with
  | none => Except.ok goal
  | some t =>
    if t ≤ 0 then Except.error (badRequest "Target amount must be greater than 0")
    else Except.ok { goal with TargetAmount := t }

/-- The `current_amount` step of `UpdateGoal` (goals.go lines 179-187). -/
def updateCurrentAmount (req : UpdateGoalRequest) (goal : Goal) : Except Response Goal :=
  match req.CurrentAmount with
  | none => Except.ok goal
  | some c =>
    if c < 0 then Except.error (badRequest "Current amount cannot be negative")
    else Except.ok { goal with CurrentAmount := c }

/-- The `target_date` step of `UpdateGoal` (goals.go lines 188-201). -/
def updateTargetDate (req : UpdateGoalRequest) (goal : Goal) : Except Response Goal :=
  match req.TargetDate with
  | none => Except.ok goal
  | some s =>
    if s = "" then Except.ok { goal with TargetDate := none }
    else
      match parseDate s with
      | none => Except.error invalidTargetDate
      | some t => Except.ok { goal with TargetDate := some t }

/-- The field updates of `UpdateGoal` (goals.go lines 163-204), in the order
of the source: the first failing check answers and stops. -/
def applyUpdateGoal (req : UpdateGoalRequest) (goal : Goal) : Except Response Goal :=
  let goal1 : Goal := match req.Name with
    | some n => { goal with Name := n }
    | none => goal
  let goal2 : Goal := match req.Description with
    | some d => { goal1 with Description := some d }
    | none => goal1
  match updateTargetAmount req goal2 with
  | Except.error r => Except.error r
  | Except.ok goal3 =>
    match updateCurrentAmount req goal3 with
    | Except.error r => Except.error r
    | Except.ok goal4 =>
      match updateTargetDate req goal4 with
      | Except.error r => Except.error r
      | Except.ok goal5 =>
        match req.IsCompleted with
        | some b => Except.ok { goal5 with IsCompleted := b }
        | none => Except.ok goal5

/-- Go `GoalsHandler.UpdateGoal`. -/
def GoalsHandler.UpdateGoal (userID goalID : String) (body : Except String UpdateGoalRequest)
    (db : DB) : Response × DB :=
  match body with
  | Except.error e => (invalidBody e, db)
  | Except.ok req =>
    match PostgresRepositories.GetGoalByID goalID db with
    | (Except.error _, db1) => (goalNotFound, db1)
    | (Except.ok goal, db1) =>
      if goal.UserID ≠ userID then (accessDenied, db1)
      else
        match applyUpdateGoal req goal with
        | Except.error r => (r, db1)
        | Except.ok goal1 =>
          match PostgresRepositories.UpdateGoal goal1 db1 with
          | (Except.error e, db2) =>
            ({ status := StatusInternalServerError,
               body := Body.error "Failed to update goal" (some e) }, db2)
          | (Except.ok goal2, db2) => ({ status := StatusOK, body := Body.goal goal2 }, db2)

/-- Go `GoalsHandler.DeleteGoal`. -/
def GoalsHandler.DeleteGoal (userID goalID : String) (db : DB) : Response × DB :=
  match PostgresRepositories.GetGoalByID goalID db with
  | (Except.error _, db1) => (goalNotFound, db1)
  | (Except.ok goal, db1) =>
    if goal.UserID ≠ userID then (accessDenied, db1)
    else
      match PostgresRepositories.DeleteGoal goalID db1 with
      | (Except.error e, db2) =>
        ({ status := StatusInternalServerError,
           body := Body.error "Failed to delete goal" (some e) }, db2)
      | (Except.ok _, db2) =>
        ({ status := StatusOK, body := Body.message "Goal deleted successfully" }, db2)

/-- The status label of `GetGoalProgress` (goals.go lines 297-311). -/
def progressStatus (isCompleted : Bool) (progressPercentage : F64) : String :=
  if isCompleted then "completed"
  else if progressPercentage.ge 100 then "target_reached"
  else if progressPercentage.ge 75 then "on_track"
  else if progressPercentage.ge 25 then "making_progress"
  else "just_started"

/-- The progress metrics of `GetGoalProgress` (goals.go lines 275-312);
`days` is `int(time.Until(*goal.TargetDate).Hours() / 24)`, the whole days
left, truncated toward zero.  The percentage, the remaining amount and the
days are computed exactly here, where the code computes them in `float64`;
the fields copied from the goal are as in the code. -/
def goalProgress (clock : Clock) (goal : Goal) : GoalProgress :=
  let progressPercentage := (F64.div goal.CurrentAmount goal.TargetAmount).mulPos 100
  let remaining := goal.TargetAmount - goal.CurrentAmount
  let daysRemaining : Option Int :=
    match goal.TargetDate with
    | none => none
    | some t =>
      let days := Int.tdiv (Time.Sub t clock.now) (24 * Hour)
      if days ≥ 0 then some days else none
  { goal_id := goal.ID
    name := goal.Name
    target_amount := goal.TargetAmount
    current_amount := goal.CurrentAmount
    progress_percentage := progressPercentage
    remaining_amount := remaining
    is_completed := goal.IsCompleted
    target_date := goal.TargetDate
    days_remaining := daysRemaining
    status := progressStatus goal.IsCompleted progressPercentage }

/-- Go `GoalsHandler.GetGoalProgress`. -/
def GoalsHandler.GetGoalProgress (clock : Clock) (userID goalID : String) (db : DB) :
    Response × DB :=
  match PostgresRepositories.GetGoalByID goalID db with
  | (Except.error _, db1) => (goalNotFound, db1)
  | (Except.ok goal, db1) =>
    if goal.UserID ≠ userID then (accessDenied, db1)
    else ({ status := StatusOK, body := Body.progress (goalProgress clock goal) }, db1)

/-- The new amount and flag of `UpdateGoalProgress` (goals.go lines 352-367).
The sum of the additive mode is exact here, where the code adds in
`float64`; the absolute mode, the clamp and the flag only assign and
compare. -/
def applyProgress (amount : ℚ) (setAbsolute : Option Bool) (goal : Goal) : Goal :=
  let goal1 : Goal :=
    if setAbsolute = some true then { goal with CurrentAmount := amount }
    else { goal with CurrentAmount := goal.CurrentAmount + amount }
  let goal2 : Goal :=
    if goal1.CurrentAmount < 0 then { goal1 with CurrentAmount := 0 } else goal1
  if goal2.CurrentAmount ≥ goal2.TargetAmount then { goal2 with IsCompleted := true }
  else goal2

/-- Go `GoalsHandler.UpdateGoalProgress`. -/
def GoalsHandler.UpdateGoalProgress (userID goalID : String)
    (body : Except String ProgressUpdateRequest) (db : DB) : Response × DB :=
  match bindProgressUpdate body with
  | Except.error e => (invalidBody e, db)
  | Except.ok (amount, setAbsolute) =>
    match PostgresRepositories.GetGoalByID goalID db with
    | (Except.error _, db1) => (goalNotFound, db1)
    | (Except.ok goal, db1) =>
      if goal.UserID ≠ userID then (accessDenied, db1)
      else
        match PostgresRepositories.UpdateGoal (applyProgress amount setAbsolute goal) db1 with
        | (Except.error e, db2) =>
          ({ status := StatusInternalServerError,
             body := Body.error "Failed to update goal progress" (some e) }, db2)
        | (Except.ok goal1, db2) => ({ status := StatusOK, body := Body.goal goal1 }, db2)

/-- The row the database holds under an id (what `GetGoalByID` would read). -/
def DB.stored (db : DB) (id : String) : Option Goal :=
  db.goals.find? (fun g => g.ID == id)

/-! ## Report handlers (`handlers/reports.go`)

The report queries of the repository (joins and aggregates over tables that
the handlers never write) are the environment of the handlers: a record of
functions from the arguments of a call to its result.  The transactions of a
date range are read once per budget by `GetBudgetPerformance`; the first
argument of that function is the number of the read within the request, so
that consecutive reads may differ.  A handler returns its answer together
with the repository calls it made, in order. -/

/-- The repository methods the report handlers call. -/
structure ReportsRepositories where
  GetMonthlySummary : String → Int → Int → Except String MonthlySummary
  GetCashFlow : String → Time → Time → Except String CashFlow
  GetBudgetsByUserID : String → Except String (List Budget)
  GetTransactionsByDateRange : Nat → String → Time → Time → Except String (List Transaction)

/-- A call on the repository, with its arguments. -/
inductive RepoCall where
  | GetMonthlySummary (userID : String) (month year : Int)
  | GetCashFlow (userID : String) (startDate endDate : Time)
  | GetBudgetsByUserID (userID : String)
  | GetTransactionsByDateRange (userID : String) (startDate endDate : Time)
  deriving DecidableEq, Repr

/-- The query string of a request: keys with their values, first match wins. -/
abbrev QueryParams := List (String × String)

/-- Go `c.Query(key)`: the value, or the empty string when the key is absent. -/
def Query (q : QueryParams) (key : String) : String :=
  match q.lookup key with
  | some v => v
  | none => ""

/-- Go `c.DefaultQuery(key, dflt)`: the value, or `dflt` when the key is absent. -/
def DefaultQuery (q : QueryParams) (key dflt : String) : String :=
  match q.lookup key with
  | some v => v
  | none => dflt

/-- Go `strconv.Itoa`. -/
def Itoa (n : Int) : String := toString n

/-- Go `strconv.Atoi` (64-bit `int`): an optional sign, then one or more
decimal digits and nothing else; a value outside the `int` range is an error. -/
def Atoi (s : String) : Option Int :=
  let cs := s.toList
  let signed : Bool × List Char :=
    match cs with
    | '+' :: rest => (false, rest)
    | '-' :: rest => (true, rest)
    | _ => (false, cs)
  let digits := signed.2
  if digits = [] ∨ digits.all isDigit = false then none
  else
    let n : Int := digits.foldl (fun acc c => acc * 10 + digitVal c) 0
    let v : Int := if signed.1 then -n else n
    if v < -(2 ^ 63) ∨ 2 ^ 63 - 1 < v then none else some v

def invalidMonth : Response :=
  badRequest "Invalid month parameter. Must be between 1 and 12"

def invalidYear : Response :=
  badRequest "Invalid year parameter. Must be between 1900 and 2100"

/-- The text of the month parameter: `c.DefaultQuery("month", ...)` with the
current month as default. -/
def monthStr (clock : Clock) (q : QueryParams) : String :=
  DefaultQuery q "month" (Itoa clock.Month)

/-- The text of the year parameter: `c.DefaultQuery("year", ...)` with the
current year as default. -/
def yearStr (clock : Clock) (q : QueryParams) : String :=
  DefaultQuery q "year" (Itoa clock.Year)

/-- The month and year parameters as `GetMonthlySummary` and
`GetBudgetPerformance` parse and check them (reports.go lines 29-47 and
222-240): the answer of the first failing check, or the pair. -/
def parseMonthYear (clock : Clock) (q : QueryParams) : Except Response (Int × Int) :=
  match Atoi (monthStr clock q) with
  | none => Except.error invalidMonth
  | some month =>
    if month < 1 ∨ month > 12 then Except.error invalidMonth
    else
      match Atoi (yearStr clock q) with
      | none => Except.error invalidYear
      | some year =>
        if year < 1900 ∨ year > 2100 then Except.error invalidYear
        else Except.ok (month, year)

/-- Go `ReportsHandler.GetMonthlySummary`. -/
def ReportsHandler.GetMonthlySummary (repo : ReportsRepositories) (clock : Clock)
    (userID : String) (q : QueryParams) : Response × List RepoCall :=
  match parseMonthYear clock q with
  | Except.error r => (r, [])
  | Except.ok (month, year) =>
    match repo.GetMonthlySummary userID month year with
    | Except.error e =>
      ({ status := StatusInternalServerError,
         body := Body.error "Failed to generate monthly summary" (some e) },
        [RepoCall.GetMonthlySummary userID month year])
    | Except.ok summary =>
      ({ status := StatusOK, body := Body.monthlySummary summary },
        [RepoCall.GetMonthlySummary userID month year])

/-- Go `t.AddDate(years, months, days)`: the civil date of `t` is shifted and
normalised by `Date`; the time of day is kept. -/
def Time.AddDate (t : Time) (years months days : Int) : Time :=
  let day := 86400 * Second
  let civil := civilFromDays (t / day)
  Date (civil.1 + years) (civil.2.1 + months) (civil.2.2 + days) 0 0 0 + t % day

/-- The range of `GetCashFlow` (reports.go lines 100-134): each bound is the
parsed parameter, or the bound of the current month when the parameter is
absent or empty. -/
def cashFlowRange (clock : Clock) (q : QueryParams) : Except Response (Time × Time) :=
  let startDateStr := Query q "start_date"
  let endDateStr := Query q "end_date"
  let defaultStart := Date clock.Year clock.Month 1 0 0 0
  let defaultEnd := ((defaultStart.AddDate 0 1 0).Add (-Second))
  let start : Except Response Time :=
    if startDateStr ≠ "" then
      match parseDate startDateStr with
      | none => Except.error (badRequest "Invalid start_date format. Use YYYY-MM-DD")
      | some t => Except.ok t
    else Except.ok defaultStart
  match start with
  | Except.error r => Except.error r
  | Except.ok startDate =>
    if endDateStr ≠ "" then
      match parseDate endDateStr with
      | none => Except.error (badRequest "Invalid end_date format. Use YYYY-MM-DD")
      | some endDate => Except.ok (startDate, endDate)
    else Except.ok (startDate, defaultEnd)

/-- Go `ReportsHandler.GetCashFlow`. -/
def ReportsHandler.GetCashFlow (repo : ReportsRepositories) (clock : Clock)
    (userID : String) (q : QueryParams) : Response × List RepoCall :=
  match cashFlowRange clock q with
  | Except.error r => (r, [])
  | Except.ok (startDate, endDate) =>
    if endDate.Before startDate then (badRequest "end_date must be after start_date", [])
    else if endDate.Sub startDate > 365 * 24 * Hour then
      (badRequest "Date range cannot exceed 365 days", [])
    else
      match repo.GetCashFlow userID startDate endDate with
      | Except.error e =>
        ({ status := StatusInternalServerError,
           body := Body.error "Failed to generate cash flow report" (some e) },
          [RepoCall.GetCashFlow userID startDate endDate])
      | Except.ok cashFlow =>
        ({ status := StatusOK, body := Body.cashFlow cashFlow },
          [RepoCall.GetCashFlow userID startDate endDate])

/-- The inner loop of `GetBudgetPerformance` (reports.go lines 273-279): the
amounts of the expense transactions of the budget's category, added up from
left to right (exactly here, in `float64` in the code). -/
def categorySpending (budget : Budget) (transactions : List Transaction) : ℚ :=
  transactions.foldl
    (fun acc transaction =>
      if transaction.CategoryID = some budget.CategoryID
          ∧ transaction.TransactionType = "expense" then
        acc + transaction.Amount
      else acc)
    0

/-- The status of a budget (reports.go lines 294-300). -/
def budgetStatus (isOverBudget : Bool) (percentageUsed : F64) : String :=
  if isOverBudget then "over_budget"
  else if percentageUsed.ge 80 then "at_risk"
  else "under_budget"

/-- The performance metrics of one budget with the given spending
(reports.go lines 281-313).  The difference and the quotient are exact here,
where the code computes them in `float64`; the comparison of the spending
with the amount is as in the code. -/
def budgetPerformanceItem (budget : Budget) (categorySpending : ℚ) : BudgetPerformanceItem :=
  let budgetAmount := budget.Amount
  let remaining := budgetAmount - categorySpending
  let percentageUsed := (F64.div categorySpending budgetAmount).mulPos 100
  let isOverBudget := decide (categorySpending > budgetAmount)
  { budget_id := budget.ID
    budget_name := budget.Name
    category_id := budget.CategoryID
    budgeted_amount := budgetAmount
    spent_amount := categorySpending
    remaining := remaining
    percentage_used := percentageUsed
    status := budgetStatus isOverBudget percentageUsed
    is_over_budget := isOverBudget
    period := budget.Period }

/-- The variables the budget loop of `GetBudgetPerformance` updates. -/
structure PerformanceAcc where
  budgetPerformance : List BudgetPerformanceItem
  totalBudgeted : ℚ
  totalSpent : ℚ
  overBudgetCount : Int
  deriving DecidableEq, Repr

/-- The loop over the budgets in `GetBudgetPerformance` (reports.go lines
262-314), from the `n`-th read of the transactions on: the answer of a failed
read, or the final values of the loop variables; and the calls made.  The two
totals are accumulated exactly here, in `float64` in the code; the entries
and the count are built as in the code. -/
def budgetLoop (repo : ReportsRepositories) (userID : String) (startDate endDate : Time) :
    Nat → List Budget → PerformanceAcc → Except Response PerformanceAcc × List RepoCall
  | _, [], acc => (Except.ok acc, [])
  | n, budget :: rest, acc =>
    match repo.GetTransactionsByDateRange n userID startDate endDate with
    | Except.error e =>
      (Except.error
        { status := StatusInternalServerError,
          body := Body.error "Failed to get transactions" (some e) },
        [RepoCall.GetTransactionsByDateRange userID startDate endDate])
    | Except.ok transactions =>
      let spending := categorySpending budget transactions
      let item := budgetPerformanceItem budget spending
      let acc1 : PerformanceAcc :=
        { budgetPerformance := acc.budgetPerformance ++ [item]
          totalBudgeted := acc.totalBudgeted + budget.Amount
          totalSpent := acc.totalSpent + spending
          overBudgetCount :=
            if item.is_over_budget then acc.overBudgetCount + 1 else acc.overBudgetCount }
      let next := budgetLoop repo userID startDate endDate (n + 1) rest acc1
      (next.1, RepoCall.GetTransactionsByDateRange userID startDate endDate :: next.2)

/-- The `overall_performance` of `GetBudgetPerformance` (reports.go lines
316-325). -/
def overallPerformance (budgets : List Budget) (acc : PerformanceAcc) : OverallPerformance :=
  { total_budgeted := acc.totalBudgeted
    total_spent := acc.totalSpent
    total_remaining := acc.totalBudgeted - acc.totalSpent
    overall_percentage := (F64.div acc.totalSpent acc.totalBudgeted).mulPos 100
    budgets_count := budgets.length
    over_budget_count := acc.overBudgetCount
    on_track_count := (budgets.length : Int) - acc.overBudgetCount }

/-- Go `ReportsHandler.GetBudgetPerformance`. -/
def ReportsHandler.GetBudgetPerformance (repo : ReportsRepositories) (clock : Clock)
    (userID : String) (q : QueryParams) : Response × List RepoCall :=
  match parseMonthYear clock q with
  | Except.error r => (r, [])
  | Except.ok (month, year) =>
    let startDate := Date year month 1 0 0 0
    let endDate := (startDate.AddDate 0 1 0).Add (-Second)
    match repo.GetBudgetsByUserID userID with
    | Except.error e =>
      ({ status := StatusInternalServerError,
         body := Body.error "Failed to get budgets" (some e) },
        [RepoCall.GetBudgetsByUserID userID])
    | Except.ok budgets =>
      let acc0 : PerformanceAcc :=
        { budgetPerformance := [], totalBudgeted := 0, totalSpent := 0, overBudgetCount := 0 }
      match budgetLoop repo userID startDate endDate 0 budgets acc0 with
      | (Except.error r, calls) => (r, RepoCall.GetBudgetsByUserID userID :: calls)
      | (Except.ok acc, calls) =>
        ({ status := StatusOK,
           body := Body.budgetPerformance
             { user_id := userID
               month := month
               year := year
               budget_performance := acc.budgetPerformance
               overall_performance := overallPerformance budgets acc
               generated_at := clock.now } },
          RepoCall.GetBudgetsByUserID userID :: calls)

/-- The text is an integer from `lo` to `hi`, as `strconv.Atoi` reads it. -/
def intIn (s : String) (lo hi : Int) : Bool :=
  match Atoi s with
  | some n => decide (lo ≤ n) && decide (n ≤ hi)
  | none => false

/-! ## Well-formed goals -/

/-- A goal is well-formed when its current amount is not negative and its
target amount is positive. -/
def Goal.wellFormed (g : Goal) : Prop := 0 ≤ g.CurrentAmount ∧ 0 < g.TargetAmount

instance (g : Goal) : Decidable g.wellFormed := by
  unfold Goal.wellFormed
  infer_instance

/-- Every row of the goals table is well-formed. -/
def DB.wellFormed (db : DB) : Prop := ∀ g ∈ db.goals, g.wellFormed

instance (db : DB) : Decidable db.wellFormed := by
  unfold DB.wellFormed
  infer_instance

/-! ## Sample data -/

/-- A goal of user "u1": 500 saved of 1000. -/
def sampleGoal : Goal :=
  { ID := "g1"
    UserID := "u1"
    Name := "Bike"
    Description := none
    TargetAmount := 1000
    CurrentAmount := 500
    TargetDate := none
    IsCompleted := false
    IsActive := true
    CreatedAt := 0
    UpdatedAt := 0 }

/-- A database holding `sampleGoal` only, with no failure ahead. -/
def sampleDB : DB :=
  { goals := [sampleGoal]
    now := 5
    nextID := "g2"
    defaultIsCompleted := false
    defaultIsActive := true
    faults := [] }

/-- A completed goal of user "u1": 1200 saved of 1000. -/
def completedGoal : Goal :=
  { sampleGoal with CurrentAmount := 1200, IsCompleted := true }

/-- A database holding `completedGoal` only. -/
def completedDB : DB := { sampleDB with goals := [completedGoal] }

/-- An `UpdateGoal` request that supplies `current_amount` = 1000 only. -/
def setCurrentTo1000 : UpdateGoalRequest :=
  { Name := none
    Description := none
    TargetAmount := none
    CurrentAmount := some 1000
    TargetDate := none
    IsCompleted := none }

/-- A repository whose report queries all fail. -/
def failingRepo : ReportsRepositories :=
  { GetMonthlySummary := fun _ _ _ => Except.error "down"
    GetCashFlow := fun _ _ _ => Except.error "down"
    GetBudgetsByUserID := fun _ => Except.error "down"
    GetTransactionsByDateRange := fun _ _ _ _ => Except.error "down" }

/-- A query: the cash flow from 2024-12-31 to 2024-01-01. -/
def reversedRange : QueryParams := [("start_date", "2024-12-31"), ("end_date", "2024-01-01")]

/-- A query: the cash flow from 2023-01-01 to 2024-01-01, 365 days. -/
def range365 : QueryParams := [("start_date", "2023-01-01"), ("end_date", "2024-01-01")]

/-- A query: the cash flow from 2023-01-01 to 2024-01-02, 366 days. -/
def range366 : QueryParams := [("start_date", "2023-01-01"), ("end_date", "2024-01-02")]

/-- A monthly budget of 100 for category "food". -/
def budget100 : Budget :=
  { ID := "b1"
    UserID := "u1"
    CategoryID := "food"
    Name := "Food"
    Amount := 100
    Period := "monthly"
    StartDate := 0
    EndDate := none
    Description := none
    IsActive := true
    CreatedAt := 0
    UpdatedAt := 0
    Category := none }

/-- A clock reading: 2024-01-01T00:00:00Z on a server in UTC. -/
def sampleClock : Clock := { now := 1704067200000000000, zoneOffset := 0 }

/-! ## Budget performance: what the entries add up -/

/-- The transaction counts for the budget: its category is present and is
the budget's category, and its type is "expense". -/
def countsFor (budget : Budget) (t : Transaction) : Bool :=
  decide (t.CategoryID = some budget.CategoryID) && decide (t.TransactionType = "expense")

/-- The budget performance report in a response, if it carries one. -/
def Response.report (resp : Response) : Option BudgetPerformanceReport :=
  match resp.body with
  | Body.budgetPerformance r => some r
  | _ => none

/-! ## Sample data for the reports -/

/-- An expense of 100 in category "food". -/
def foodExpense100 : Transaction :=
  { ID := "t1"
    UserID := "u1"
    AccountID := "a1"
    CategoryID := some "food"
    Amount := 100
    TransactionType := "expense"
    Description := none
    TransactionDate := 1704067200000000000
    Notes := none
    TransferID := none
    CreatedAt := 0
    UpdatedAt := 0
    Account := none
    Category := none }

/-- A repository with the budget of 100 for "food" and, on every read, one
expense of 100 in that category. -/
def spentRepo : ReportsRepositories :=
  { GetMonthlySummary := fun _ _ _ => Except.error "down"
    GetCashFlow := fun _ _ _ => Except.error "down"
    GetBudgetsByUserID := fun _ => Except.ok [budget100]
    GetTransactionsByDateRange := fun _ _ _ _ => Except.ok [foodExpense100] }

/-- A query: month 1 of 2024. -/
def january2024 : QueryParams := [("month", "1"), ("year", "2024")]

/-! ## Configuration (`config/config.go`) -/

/-- Go `config.Config`. -/
structure Config where
  Port : String
  GinMode : String
  Environment : String
  DatabaseURL : String
  SupabaseURL : String
  SupabaseAnonKey : String
  SupabaseServiceKey : String
  SupabaseJWTSecret : String
  JWTSecret : String
  JWTExpires : Duration
  CORSAllowedOrigins : List String
  deriving DecidableEq, Repr

/-! ## The gin context and its handler chain

A request is served by a chain of handlers that share one context.  The
context carries the request headers, the keys set with `c.Set`, the answers
written with `c.JSON`, and the index of the running handler; `c.Abort()` moves
the index past every handler.  The state of the server that a handler may
change is the authentication middleware (its cached key set). -/

/-- Go `UserClaims`, with the fields of the embedded `jwt.RegisteredClaims`. -/
structure UserClaims where
  Sub : String
  Email : String
  Phone : String
  AppMetadata : List (String × String)
  UserMetadata : List (String × String)
  Role : String
  AuthenticatedAt : Int
  ExpiresAt : Int
  SessionID : String
  IsAnonymous : Bool
  Issuer : String
  Subject : String
  Audience : List String
  NotBefore : Option Int
  IssuedAt : Option Int
  ID : String
  deriving DecidableEq, Repr

/-- A value of type `any`, as far as the middleware tells values apart: a
string, a pointer to user claims, or something else. -/
inductive Value where
  | str (s : String)
  | claims (c : UserClaims)
  | other (text : String)
  deriving DecidableEq, Repr

/-- The part of `gin.Context` that the middleware and the accessors use. -/
structure Context where
  Header : List (String × String)
  Keys : List (String × Value)
  index : Int
  written : List Response
  deriving DecidableEq, Repr

/-- Go `abortIndex` of gin: `math.MaxInt8 >> 1`. -/
def abortIndex : Int := 63

/-- Go `c.GetHeader(key)`: the first value of the header, or "". -/
def Context.GetHeader (c : Context) (key : String) : String :=
  match c.Header.lookup key with
  | some v => v
  | none => ""

/-- Go `c.Set(key, value)`. -/
def Context.Set (c : Context) (key : String) (value : Value) : Context :=
  { c with Keys := (key, value) :: c.Keys }

/-- Go `c.Get(key)`. -/
def Context.Get (c : Context) (key : String) : Option Value :=
  c.Keys.lookup key

/-- Go `c.JSON(code, obj)`. -/
def Context.JSON (c : Context) (code : Nat) (obj : Body) : Context :=
  { c with written := c.written ++ [{ status := code, body := obj }] }

/-- Go `c.Abort()`. -/
def Context.Abort (c : Context) : Context :=
  { c with index := abortIndex }

/-- Go `c.IsAborted()`. -/
def Context.IsAborted (c : Context) : Bool :=
  decide (c.index ≥ abortIndex)

/-- Go `JWK`. -/
structure JWK where
  Kty : String
  Use : String
  Kid : String
  X5t : String
  N : String
  E : String
  X5c : List String
  deriving DecidableEq, Repr

/-- Go `JWKS`. -/
structure JWKS where
  Keys : List JWK
  deriving DecidableEq, Repr

/-- Go `AuthMiddleware`: the configuration and the cached key set with the
time it was cached (the HTTP client belongs to the environment). -/
structure AuthMiddleware where
  cfg : Config
  jwksCache : Option JWKS
  cacheTime : Time
  deriving DecidableEq, Repr

/-- A gin handler.  Its first argument is what `c.Next()` does when the
handler calls it: it runs the handlers that follow. -/
abbrev HandlerFunc :=
  (AuthMiddleware × Context → AuthMiddleware × Context) →
    AuthMiddleware × Context → AuthMiddleware × Context

/-- The loop of gin's `c.Next()`, `for c.index < len(handlers)`, over the
handlers that have not run: the handler at the index runs and the index is
incremented; a handler that the index has passed (after `c.Abort()`, or after
an earlier handler ran it through `c.Next()`) is skipped.  `total` is the
length of the whole chain. -/
def runHandlers (total : Int) :
    List HandlerFunc → AuthMiddleware × Context → AuthMiddleware × Context
  | [], sc => sc
  | h :: rest, sc =>
    if sc.2.index = total - (rest.length + 1) then
      let sc1 := h
        (fun sc2 => runHandlers total rest (sc2.1, { sc2.2 with index := sc2.2.index + 1 }))
        sc
      runHandlers total rest (sc1.1, { sc1.2 with index := sc1.2.index + 1 })
    else runHandlers total rest sc

/-- gin serving a request: the index is reset and the chain is run from its
first handler. -/
def serve (chain : List HandlerFunc) (sc : AuthMiddleware × Context) :
    AuthMiddleware × Context :=
  runHandlers chain.length chain (sc.1, { sc.2 with index := 0 })

/-- A final handler of a route: it works on the context and the server state
and calls neither `c.Next()` nor `c.Abort()`, so it leaves the index alone. -/
def endpoint (f : AuthMiddleware × Context → AuthMiddleware × Context) : HandlerFunc :=
  fun _ sc => ((f sc).1, { (f sc).2 with index := sc.2.index })

/-! ## Authentication middleware (`middleware/auth.go`)

The JWT library, the HTTP client, the JSON decoder and the clock are the
environment of the middleware: a record of functions from the arguments of a
call to its result. -/

/-- An RSA public key. -/
structure PublicKey where
  N : Nat
  E : Nat
  deriving DecidableEq, Repr

/-- A parsed `jwt.Token`: the `kid` and `alg` entries of its header, whether
its signing method is a `*jwt.SigningMethodRSA`, and its claims. -/
structure Token where
  kid : Option Value
  alg : String
  isRSA : Bool
  Claims : UserClaims
  deriving DecidableEq, Repr

/-- The answer to an HTTP GET: the status code, and the body as
`io.ReadAll` reads it. -/
structure HTTPResponse where
  StatusCode : Nat
  Body : Except String String

/-- What the middleware calls outside the repository.
`now` is `time.Now()` when the cache is checked and `fetchedAt` is
`time.Now()` when a fetched key set is stored; `Get` is `httpClient.Get`,
`Unmarshal` is `json.Unmarshal` into a `JWKS`, `ParseUnverified` is the
parser of the JWT library (no signature check), `ParseRSAPublicKeyFromPEM` is
the library function of that name, `Verify` is the signature check of a token
with its signing method and a key, and `ValidateClaims` is the library's
validation of the registered claims. -/
structure AuthEnv where
  now : Time
  fetchedAt : Time
  Get : String → Except String HTTPResponse
  Unmarshal : String → Except String JWKS
  ParseUnverified : String → Except String Token
  ParseRSAPublicKeyFromPEM : String → Except String PublicKey
  Verify : String → PublicKey → Except String Unit
  ValidateClaims : UserClaims → Except String Unit

/-- Go `jwt.ParseWithClaims(tokenString, claims, keyFunc)`: the token is
parsed, the key function gives the key, the signature is verified with it,
and the claims are validated; then the token is returned with `Valid` set. -/
def ParseWithClaims (env : AuthEnv) (tokenString : String)
    (keyFunc : Token → Except String PublicKey) : Except String (Token × Bool) :=
  match env.ParseUnverified tokenString with
  | Except.error e => Except.error e
  | Except.ok token =>
    match keyFunc token with
    | Except.error e =>
      Except.error ("token is unverifiable: error while executing keyfunc: " ++ e)
    | Except.ok key =>
      match env.Verify tokenString key with
      | Except.error e => Except.error ("token signature is invalid: " ++ e)
      | Except.ok _ =>
        match env.ValidateClaims token.Claims with
        | Except.error e => Except.error e
        | Except.ok _ => Except.ok (token, true)

/-- The fetch of `getJWKS` (auth.go lines 215-236): GET of the URL, status
200, body read and decoded. -/
def fetchJWKS (env : AuthEnv) (jwksURL : String) : Except String JWKS :=
  match env.Get jwksURL with
  | Except.error e => Except.error ("failed to fetch JWKS: " ++ e)
  | Except.ok resp =>
    if resp.StatusCode ≠ StatusOK then
      Except.error ("JWKS endpoint returned status " ++ toString resp.StatusCode)
    else
      match resp.Body with
      | Except.error e => Except.error ("failed to read JWKS response: " ++ e)
      | Except.ok body =>
        match env.Unmarshal body with
        | Except.error e => Except.error ("failed to parse JWKS: " ++ e)
        | Except.ok jwks => Except.ok jwks

/-- Go `time.Since(t)`, read on the clock of the environment. -/
def AuthEnv.Since (env : AuthEnv) (t : Time) : Duration :=
  Time.Sub env.now t

/-- The cache check of `getJWKS` (auth.go line 211): the cached key set when
there is one and less than an hour has passed since it was cached. -/
def AuthMiddleware.cacheHit (am : AuthMiddleware) (env : AuthEnv) : Option JWKS :=
  match am.jwksCache with
  | some cached => if env.Since am.cacheTime < Hour then some cached else none
  | none => none

/-- The URL of the key set. -/
def AuthMiddleware.jwksURL (am : AuthMiddleware) : String :=
  am.cfg.SupabaseURL ++ "/auth/v1/jwks"

/-- Go `AuthMiddleware.getJWKS`: the key set or an error, the middleware
afterwards, and the URLs fetched. -/
def AuthMiddleware.getJWKS (am : AuthMiddleware) (env : AuthEnv) :
    Except String JWKS × AuthMiddleware × List String :=
  match am.cacheHit env with
  | some cached => (Except.ok cached, am, [])
  | none =>
    match fetchJWKS env am.jwksURL with
    | Except.error e => (Except.error e, am, [am.jwksURL])
    | Except.ok jwks =>
      (Except.ok jwks, { am with jwksCache := some jwks, cacheTime := env.fetchedAt },
        [am.jwksURL])

/-- Go `AuthMiddleware.parseRSAPublicKey`: the key of the set is not used;
the key is read from the configured secret. -/
def AuthMiddleware.parseRSAPublicKey (am : AuthMiddleware) (env : AuthEnv) (_ : JWK) :
    Except String PublicKey :=
  if am.cfg.SupabaseJWTSecret ≠ "" then env.ParseRSAPublicKeyFromPEM am.cfg.SupabaseJWTSecret
  else Except.error "JWT secret not configured"

/-- The key function that `validateToken` passes to `ParseWithClaims`
(auth.go lines 181-187). -/
def rsaKeyFunc (publicKey : PublicKey) (token : Token) : Except String PublicKey :=
  if token.isRSA then Except.ok publicKey
  else Except.error ("unexpected signing method: " ++ token.alg)

/-- The last steps of `validateToken` (auth.go lines 173-205), once the key
of the set is found. -/
def AuthMiddleware.verifyWithKey (am : AuthMiddleware) (env : AuthEnv) (tokenString : String)
    (jwk : JWK) : Except String UserClaims :=
  match am.parseRSAPublicKey env jwk with
  | Except.error e => Except.error ("failed to parse public key: " ++ e)
  | Except.ok publicKey =>
    match ParseWithClaims env tokenString (rsaKeyFunc publicKey) with
    | Except.error e => Except.error ("failed to validate token: " ++ e)
    | Except.ok (parsedToken, valid) =>
      if valid = false then Except.error "token is not valid"
      else if am.cfg.SupabaseURL ≠ ""
          ∧ parsedToken.Claims.Issuer ≠ am.cfg.SupabaseURL ++ "/auth/v1" then
        Except.error ("invalid issuer: " ++ parsedToken.Claims.Issuer)
      else Except.ok parsedToken.Claims

/-- Go `AuthMiddleware.validateToken`: the claims or an error, and the
middleware afterwards (its cache may have been filled). -/
def AuthMiddleware.validateToken (am : AuthMiddleware) (env : AuthEnv) (tokenString : String) :
    Except String UserClaims × AuthMiddleware :=
  match env.ParseUnverified tokenString with
  | Except.error e => (Except.error ("failed to parse token: " ++ e), am)
  | Except.ok token =>
    match token.kid with
    | some (Value.str kid) =>
      match am.getJWKS env with
      | (Except.error e, am1, _) => (Except.error ("failed to get JWKS: " ++ e), am1)
      | (Except.ok jwks, am1, _) =>
        match jwks.Keys.find? (fun key => key.Kid == kid) with
        | none => (Except.error "key not found in JWKS", am1)
        | some jwk => (am1.verifyWithKey env tokenString jwk, am1)
    | _ => (Except.error "token missing kid header", am)

/-- Go `strings.Split(s, sep)` for a separator of one character, on the
characters of `s`. -/
def splitChars (sep : Char) : List Char → List (List Char)
  | [] => [[]]
  | c :: rest =>
    if c = sep then [] :: splitChars sep rest
    else
      match splitChars sep rest with
      | [] => [[c]]
      | part :: parts => (c :: part) :: parts

/-- Go `strings.Split(s, " ")`. -/
def splitOnSpace (s : String) : List String :=
  (splitChars ' ' s.toList).map String.mk

/-- The bearer token of an Authorization header (auth.go lines 76-84): the
header must split on " " into exactly two parts, the first being "Bearer". -/
def bearerToken (authHeader : String) : Option String :=
  match splitOnSpace authHeader with
  | [scheme, tokenString] => if scheme ≠ "Bearer" then none else some tokenString
  | _ => none

/-- The four `c.Set` calls after a token was validated. -/
def Context.setIdentity (c : Context) (claims : UserClaims) : Context :=
  (((c.Set "user_id" (Value.str claims.Sub)).Set "user_email" (Value.str claims.Email)).Set
    "user_role" (Value.str claims.Role)).Set "user_claims" (Value.claims claims)

/-- The answer 401 with `c.Abort()`. -/
def Context.unauthorized (c : Context) (msg : String) (details : Option String) : Context :=
  (c.JSON StatusUnauthorized (Body.error msg details)).Abort

/-- Go `AuthMiddleware.RequireAuth` (the handler it returns). -/
def AuthMiddleware.RequireAuth (env : AuthEnv) : HandlerFunc :=
  fun next sc =>
    let am := sc.1
    let c := sc.2
    let authHeader := c.GetHeader "Authorization"
    if authHeader = "" then (am, c.unauthorized "Authorization header required" none)
    else
      match bearerToken authHeader with
      | none => (am, c.unauthorized "Invalid authorization header format" none)
      | some tokenString =>
        match am.validateToken env tokenString with
        | (Except.error e, am1) => (am1, c.unauthorized "Invalid token" (some e))
        | (Except.ok claims, am1) => next (am1, c.setIdentity claims)

/-- Go `AuthMiddleware.OptionalAuth` (the handler it returns). -/
def AuthMiddleware.OptionalAuth (env : AuthEnv) : HandlerFunc :=
  fun next sc =>
    let am := sc.1
    let c := sc.2
    let authHeader := c.GetHeader "Authorization"
    if authHeader = "" then next (am, c)
    else
      match bearerToken authHeader with
      | none => next (am, c)
      | some tokenString =>
        match am.validateToken env tokenString with
        | (Except.error _, am1) => next (am1, c)
        | (Except.ok claims, am1) => next (am1, c.setIdentity claims)

/-- Go `GetUserID`. -/
def GetUserID (c : Context) : String × Bool :=
  match c.Get "user_id" with
  | none => ("", false)
  | some (Value.str id) => (id, true)
  | some _ => ("", false)

/-- Go `GetUserEmail`. -/
def GetUserEmail (c : Context) : String × Bool :=
  match c.Get "user_email" with
  | none => ("", false)
  | some (Value.str email) => (email, true)
  | some _ => ("", false)

/-- The outcome of a chain of a middleware and a final handler when the
middleware answered 401 and aborted: the answer is appended, the index is
past the chain, and nothing else changed. -/
def rejected (am : AuthMiddleware) (c : Context) (msg : String) (details : Option String) :
    AuthMiddleware × Context :=
  (am,
    { c with
      index := abortIndex + 1
      written := c.written ++ [{ status := StatusUnauthorized, body := Body.error msg details }] })

/-- The outcome of a chain of a middleware and a final handler `f` when the
middleware passed the request on with context `c`: `f` ran once, on `c`. -/
def ranOnce (f : AuthMiddleware × Context → AuthMiddleware × Context) (am : AuthMiddleware)
    (c : Context) : AuthMiddleware × Context :=
  ((f (am, { c with index := 1 })).1, { (f (am, { c with index := 1 })).2 with index := 3 })

/-- The request carries a bearer token that `validateToken` accepts with
these claims. -/
def accepts (am : AuthMiddleware) (env : AuthEnv) (c : Context) (claims : UserClaims) : Prop :=
  c.GetHeader "Authorization" ≠ ""
    ∧ ∃ tokenString, bearerToken (c.GetHeader "Authorization") = some tokenString
        ∧ (am.validateToken env tokenString).1 = Except.ok claims

/-! ## Sample data for the middleware -/

/-- Claims of user "u1", issued by the sample project. -/
def sampleClaims : UserClaims :=
  { Sub := "u1"
    Email := "u1@example.com"
    Phone := ""
    AppMetadata := []
    UserMetadata := []
    Role := "authenticated"
    AuthenticatedAt := 1704067200
    ExpiresAt := 1704070800
    SessionID := "s1"
    IsAnonymous := false
    Issuer := "https://test.supabase.co/auth/v1"
    Subject := "u1"
    Audience := ["authenticated"]
    NotBefore := none
    IssuedAt := some 1704067200
    ID := "" }

/-- The configuration of the tests of the middleware. -/
def sampleConfig : Config :=
  { Port := ":8080"
    GinMode := "test"
    Environment := "test"
    DatabaseURL := ""
    SupabaseURL := "https://test.supabase.co"
    SupabaseAnonKey := ""
    SupabaseServiceKey := ""
    SupabaseJWTSecret := "test-secret"
    JWTSecret := "default-secret-key"
    JWTExpires := 24 * Hour
    CORSAllowedOrigins := [] }

/-- A key with id "k1". -/
def sampleJWK : JWK :=
  { Kty := "RSA", Use := "sig", Kid := "k1", X5t := "", N := "", E := "", X5c := [] }

/-- A middleware with nothing cached. -/
def sampleAuth : AuthMiddleware :=
  { cfg := sampleConfig, jwksCache := none, cacheTime := zeroTime }

/-- A middleware that cached the sample key half an hour before the sample
clock reading. -/
def cachedAuth : AuthMiddleware :=
  { cfg := sampleConfig
    jwksCache := some { Keys := [sampleJWK] }
    cacheTime := 1704067200000000000 - 1800 * Second }

/-- An environment in which the token "good" parses to the sample claims
with key id "k1" and an RSA method, the key set holds the sample key, and
every signature verifies. -/
def sampleAuthEnv : AuthEnv :=
  { now := 1704067200000000000
    fetchedAt := 1704067201000000000
    Get := fun _ => Except.ok { StatusCode := 200, Body := Except.ok "keys" }
    Unmarshal := fun _ => Except.ok { Keys := [sampleJWK] }
    ParseUnverified := fun s =>
      if s = "good" then
        Except.ok { kid := some (Value.str "k1"), alg := "RS256", isRSA := true,
                    Claims := sampleClaims }
      else Except.error "token is malformed"
    ParseRSAPublicKeyFromPEM := fun _ => Except.ok { N := 3233, E := 17 }
    Verify := fun _ _ => Except.ok ()
    ValidateClaims := fun _ => Except.ok () }

/-- The sample environment with a signature check that fails: the token
"good" is parsed and its key is found in the key set, and then the token is
refused. -/
def badSignatureEnv : AuthEnv :=
  { sampleAuthEnv with Verify := fun _ _ => Except.error "crypto/rsa: verification error" }

/-- A request with the given Authorization header and nothing else. -/
def requestWith (authorization : String) : Context :=
  { Header := [("Authorization", authorization)], Keys := [], index := -1, written := [] }

/-- A request without headers. -/
def bareRequest : Context :=
  { Header := [], Keys := [], index := -1, written := [] }

/-- A final handler that answers 200 "success", as the one of the tests. -/
def successHandler (sc : AuthMiddleware × Context) : AuthMiddleware × Context :=
  (sc.1, sc.2.JSON StatusOK (Body.message "success"))


/-! ## Loading the configuration (`config/config.go`)

`getenv` is `os.Getenv` once `godotenv.Load()` has run: the value of a
variable, or "" when it is not set. -/

/-- Go `getEnv`. -/
def getEnv (getenv : String → String) (key defaultValue : String) : String :=
  if getenv key ≠ "" then getenv key else defaultValue

/-- Go `getEnvDuration`; `ParseDuration` is `time.ParseDuration`. -/
def getEnvDuration (getenv : String → String) (ParseDuration : String → Except String Duration)
    (key : String) (defaultValue : Duration) : Duration :=
  if getenv key ≠ "" then
    match ParseDuration (getenv key) with
    | Except.ok duration => duration
    | Except.error _ => defaultValue
  else defaultValue

/-- Go `getEnvSlice`: the loop ranges over the slice `[]string{value}`, whose
only element is the whole value. -/
def getEnvSlice (getenv : String → String) (key : String) (defaultValue : List String) :
    List String :=
  let value := getenv key
  if value ≠ "" then
    let result : List String :=
      [value].foldl (fun result item => if item ≠ "" then result ++ [item] else result) []
    if result.length > 0 then result else defaultValue
  else defaultValue

/-- Go `config.Load`. -/
def Load (getenv : String → String) (ParseDuration : String → Except String Duration) : Config :=
  { Port := getEnv getenv "PORT" ":8080"
    GinMode := getEnv getenv "GIN_MODE" "debug"
    Environment := getEnv getenv "ENVIRONMENT" "development"
    DatabaseURL := getEnv getenv "DATABASE_URL" ""
    SupabaseURL := getEnv getenv "SUPABASE_URL" ""
    SupabaseAnonKey := getEnv getenv "SUPABASE_ANON_KEY" ""
    SupabaseServiceKey := getEnv getenv "SUPABASE_SERVICE_KEY" ""
    SupabaseJWTSecret := getEnv getenv "SUPABASE_JWT_SECRET" ""
    JWTSecret := getEnv getenv "JWT_SECRET" "default-secret-key"
    JWTExpires := getEnvDuration getenv ParseDuration "JWT_EXPIRES_IN" (24 * Hour)
    CORSAllowedOrigins :=
      getEnvSlice getenv "CORS_ALLOWED_ORIGINS" ["http://localhost:3000", "http://localhost:4321"] }

/-- An environment in which only CORS_ALLOWED_ORIGINS is set, to two origins
separated by a comma. -/
def twoOriginsEnv (key : String) : String :=
  if key = "CORS_ALLOWED_ORIGINS" then "http://a,http://b" else ""

/-! ## Health (`handlers/health.go`) -/

/-- Go `HealthCheck`; `now` is `time.Now()`. -/
def HealthCheck (now : Time) (c : Context) : Context :=
  c.JSON StatusOK
    (Body.health
      { Status := "ok"
        Timestamp := now
        Service := "personal-finance-backend"
        Version := "1.0.0" })

/-! ## The accessors of the identity (`middleware/auth.go`) -/

/-- Go `GetUserClaims`. -/
def GetUserClaims (c : Context) : Option UserClaims × Bool :=
  match c.Get "user_claims" with
  | none => (none, false)
  | some (Value.claims claims) => (some claims, true)
  | some _ => (none, false)

/-- Go `MustGetUserID`: the user id, or the panic with its message. -/
def MustGetUserID (c : Context) : Except String String :=
  match GetUserID c with
  | (userID, true) => Except.ok userID
  | (_, false) => Except.error "user ID not found in context"

/-! ## More sample data -/

/-- An `UpdateGoal` request that renames the goal and supplies a target
amount that is not positive. -/
def renameWithBadTarget : UpdateGoalRequest :=
  { Name := some "Car"
    Description := none
    TargetAmount := some 0
    CurrentAmount := none
    TargetDate := none
    IsCompleted := none }

/-- An `UpdateGoal` request that renames the goal and nothing else. -/
def renameOnly : UpdateGoalRequest :=
  { Name := some "Car"
    Description := none
    TargetAmount := none
    CurrentAmount := none
    TargetDate := none
    IsCompleted := none }

/-- A repository without budgets. -/
def noBudgetsRepo : ReportsRepositories :=
  { GetMonthlySummary := fun _ _ _ => Except.error "down"
    GetCashFlow := fun _ _ _ => Except.error "down"
    GetBudgetsByUserID := fun _ => Except.ok []
    GetTransactionsByDateRange := fun _ _ _ _ => Except.ok [] }


/-! ## Basic facts -/

theorem F64_div_of_pos (a b : ℚ) (h : 0 < b) : F64.div a b = F64.finite (a / b) := by
  unfold F64.div
  rw [if_neg (ne_of_gt h)]

theorem DB.fault_goals (db : DB) : db.fault.2.goals = db.goals := by
  unfold DB.fault
  cases db.faults <;> rfl

theorem DB.fault_now (db : DB) : db.fault.2.now = db.now := by
  unfold DB.fault
  cases db.faults <;> rfl

/-- What a successful `GetGoalByID` has read: the first row with that id. -/
theorem GetGoalByID_ok (id : String) (db db1 : DB) (goal : Goal)
    (h : PostgresRepositories.GetGoalByID id db = (Except.ok goal, db1)) :
    db.stored id = some goal ∧ db1 = db.fault.2 ∧ goal.ID = id := by
  unfold PostgresRepositories.GetGoalByID at h
  rcases hf : db.fault with ⟨f, d⟩
  rw [hf] at h
  have hg : d.goals = db.goals := by
    have := DB.fault_goals db
    rw [hf] at this
    exact this
  cases f with
  | some e => simp at h
  | none =>
    simp only at h
    cases hfind : d.goals.find? (fun g => g.ID == id) with
    | none => rw [hfind] at h; simp at h
    | some g =>
      rw [hfind] at h
      simp only [Prod.mk.injEq, Except.ok.injEq] at h
      obtain ⟨h1, h2⟩ := h
      subst h1
      refine ⟨?_, h2.symm, ?_⟩
      · unfold DB.stored
        rw [← hg]
        exact hfind
      · have := List.find?_some hfind
        simpa using this

/-- The first row with a given id, after the SET clause of `UpdateGoal` ran
with a goal that has the id and owner of that row. -/
theorem find_updateRow (id : String) (now : Time) (new goal : Goal) (goals : List Goal)
    (hfind : goals.find? (fun g => g.ID == id) = some goal)
    (hid : new.ID = goal.ID) (hu : new.UserID = goal.UserID) :
    (goals.map (updateRow new now)).find? (fun g => g.ID == id)
      = some { goal with
          Name := new.Name
          Description := new.Description
          TargetAmount := new.TargetAmount
          CurrentAmount := new.CurrentAmount
          TargetDate := new.TargetDate
          IsCompleted := new.IsCompleted
          UpdatedAt := now } := by
  induction goals with
  | nil => simp at hfind
  | cons g rest ih =>
    rw [List.map_cons]
    by_cases hg : g.ID = id
    · have hgg : g = goal := by
        rw [List.find?_cons_of_pos] at hfind
        · exact Option.some.inj hfind
        · simpa using hg
      subst hgg
      rw [List.find?_cons_of_pos]
      · simp [updateRow, hid, hu]
      · simp [updateRow, hid, hu, hg]
    · rw [List.find?_cons_of_neg] at hfind
      · rw [List.find?_cons_of_neg]
        · exact ih hfind
        · unfold updateRow
          split <;> simpa using hg
      · simpa using hg

/-- What a successful repository `UpdateGoal` has done. -/
theorem repo_UpdateGoal_ok (new out : Goal) (db db2 : DB)
    (h : PostgresRepositories.UpdateGoal new db = (Except.ok out, db2)) :
    out = { new with UpdatedAt := db.now }
      ∧ db2.goals = db.goals.map (updateRow new db.now) := by
  unfold PostgresRepositories.UpdateGoal at h
  rcases hf : db.fault with ⟨f, d⟩
  rw [hf] at h
  have hg : d.goals = db.goals := by
    have := DB.fault_goals db
    rw [hf] at this
    exact this
  have hn : d.now = db.now := by
    have := DB.fault_now db
    rw [hf] at this
    exact this
  cases f with
  | some e => simp at h
  | none =>
    simp only at h
    split at h
    · simp only [Prod.mk.injEq, Except.ok.injEq] at h
      obtain ⟨h1, h2⟩ := h
      subst h2
      rw [← h1, hn, hg]
      exact ⟨rfl, rfl⟩
    · simp at h

/-- The row that `UpdateGoal` leaves, when the written goal differs from the
row it was read from only in the columns of the SET clause. -/
theorem updated_row_eq (now : Time) (new goal : Goal)
    (hid : new.ID = goal.ID) (hu : new.UserID = goal.UserID)
    (ha : new.IsActive = goal.IsActive) (hc : new.CreatedAt = goal.CreatedAt) :
    ({ goal with
        Name := new.Name
        Description := new.Description
        TargetAmount := new.TargetAmount
        CurrentAmount := new.CurrentAmount
        TargetDate := new.TargetDate
        IsCompleted := new.IsCompleted
        UpdatedAt := now } : Goal) = { new with UpdatedAt := now } := by
  cases new
  cases goal
  simp only at hid hu ha hc
  simp [hid, hu, ha, hc]

theorem applyProgress_frame (amount : ℚ) (setAbsolute : Option Bool) (goal : Goal) :
    (applyProgress amount setAbsolute goal).ID = goal.ID
      ∧ (applyProgress amount setAbsolute goal).UserID = goal.UserID
      ∧ (applyProgress amount setAbsolute goal).IsActive = goal.IsActive
      ∧ (applyProgress amount setAbsolute goal).CreatedAt = goal.CreatedAt
      ∧ (applyProgress amount setAbsolute goal).TargetAmount = goal.TargetAmount := by
  unfold applyProgress
  simp only
  split_ifs <;> exact ⟨rfl, rfl, rfl, rfl, rfl⟩

/-- The new amount of `applyProgress`. -/
theorem applyProgress_amount (amount : ℚ) (setAbsolute : Option Bool) (goal : Goal) :
    (applyProgress amount setAbsolute goal).CurrentAmount
      = if setAbsolute = some true then max 0 amount
        else max 0 (goal.CurrentAmount + amount) := by
  unfold applyProgress
  simp only
  split_ifs with h1 h2 h3 h4 h5 h6 <;> simp only at * <;>
    first
    | exact (max_eq_left (le_of_lt ‹_›)).symm
    | exact (max_eq_right (le_of_not_lt ‹_›)).symm

/-- The new flag of `applyProgress`. -/
theorem applyProgress_completed (amount : ℚ) (setAbsolute : Option Bool) (goal : Goal) :
    (applyProgress amount setAbsolute goal).IsCompleted
      = (goal.IsCompleted
          || decide ((applyProgress amount setAbsolute goal).CurrentAmount
              ≥ goal.TargetAmount)) := by
  unfold applyProgress
  simp only
  split_ifs <;> simp_all

/-- A successful `UpdateGoalProgress` (status 200): the request carried an
amount, the caller owns the stored goal, and the row is replaced by the goal
that `applyProgress` computes from it, stamped with the time of the update;
that goal is the body of the answer. -/
theorem UpdateGoalProgress_ok (userID goalID : String)
    (body : Except String ProgressUpdateRequest) (db db2 : DB) (resp : Response)
    (hrun : GoalsHandler.UpdateGoalProgress userID goalID body db = (resp, db2))
    (hok : resp.status = StatusOK) :
    ∃ amount setAbsolute goal,
      bindProgressUpdate body = Except.ok (amount, setAbsolute)
      ∧ db.stored goalID = some goal
      ∧ goal.UserID = userID
      ∧ db2.stored goalID
          = some { applyProgress amount setAbsolute goal with UpdatedAt := db.now }
      ∧ resp.body
          = Body.goal { applyProgress amount setAbsolute goal with UpdatedAt := db.now } := by
  unfold GoalsHandler.UpdateGoalProgress at hrun
  cases hb : bindProgressUpdate body with
  | error e =>
    rw [hb] at hrun
    simp only [Prod.mk.injEq] at hrun
    rw [← hrun.1] at hok
    exact absurd hok (by simp [invalidBody, StatusBadRequest, StatusOK])
  | ok p =>
    obtain ⟨amount, setAbsolute⟩ := p
    rw [hb] at hrun
    simp only at hrun
    rcases hget : PostgresRepositories.GetGoalByID goalID db with ⟨r, db1⟩
    rw [hget] at hrun
    cases r with
    | error e =>
      simp only [Prod.mk.injEq] at hrun
      rw [← hrun.1] at hok
      exact absurd hok (by decide)
    | ok goal =>
      simp only at hrun
      obtain ⟨hst, hdb1, hgid⟩ := GetGoalByID_ok goalID db db1 goal hget
      by_cases hown : goal.UserID = userID
      · rw [if_neg (not_not.mpr hown)] at hrun
        rcases hupd : PostgresRepositories.UpdateGoal
            (applyProgress amount setAbsolute goal) db1 with ⟨r2, db3⟩
        rw [hupd] at hrun
        cases r2 with
        | error e =>
          simp only [Prod.mk.injEq] at hrun
          rw [← hrun.1] at hok
          exact absurd hok (by simp [StatusInternalServerError, StatusOK])
        | ok out =>
          simp only [Prod.mk.injEq] at hrun
          obtain ⟨hresp, hdb⟩ := hrun
          obtain ⟨hout, hgoals⟩ := repo_UpdateGoal_ok _ _ _ _ hupd
          have hnow : db1.now = db.now := by rw [hdb1]; exact DB.fault_now db
          have hg1 : db1.goals = db.goals := by rw [hdb1]; exact DB.fault_goals db
          obtain ⟨f1, f2, f3, f4, _⟩ := applyProgress_frame amount setAbsolute goal
          refine ⟨amount, setAbsolute, goal, rfl, hst, hown, ?_, ?_⟩
          · unfold DB.stored
            rw [← hdb, hgoals, hg1, hnow]
            rw [find_updateRow goalID db.now _ goal db.goals hst f1 f2]
            rw [updated_row_eq db.now _ goal f1 f2 f3 f4]
          · rw [← hresp, hout, hnow]
      · rw [if_pos hown] at hrun
        simp only [Prod.mk.injEq] at hrun
        rw [← hrun.1] at hok
        exact absurd hok (by decide)

theorem updateTargetAmount_ok (req : UpdateGoalRequest) (g g1 : Goal)
    (h : updateTargetAmount req g = Except.ok g1) :
    g1 = { g with TargetAmount := req.TargetAmount.getD g.TargetAmount }
      ∧ ∀ t, req.TargetAmount = some t → 0 < t := by
  unfold updateTargetAmount at h
  cases ht : req.TargetAmount with
  | none =>
    rw [ht] at h
    simp only [Except.ok.injEq] at h
    subst h
    simp
  | some t =>
    rw [ht] at h
    simp only at h
    split_ifs at h with hle
    simp only [Except.ok.injEq] at h
    subst h
    refine ⟨by simp, ?_⟩
    intro t1 ht1
    simp only [Option.some.injEq] at ht1
    subst ht1
    exact lt_of_not_le hle

theorem updateCurrentAmount_ok (req : UpdateGoalRequest) (g g1 : Goal)
    (h : updateCurrentAmount req g = Except.ok g1) :
    g1 = { g with CurrentAmount := req.CurrentAmount.getD g.CurrentAmount }
      ∧ ∀ c, req.CurrentAmount = some c → 0 ≤ c := by
  unfold updateCurrentAmount at h
  cases hc : req.CurrentAmount with
  | none =>
    rw [hc] at h
    simp only [Except.ok.injEq] at h
    subst h
    simp
  | some c =>
    rw [hc] at h
    simp only at h
    split_ifs at h with hlt
    simp only [Except.ok.injEq] at h
    subst h
    refine ⟨by simp, ?_⟩
    intro c1 hc1
    simp only [Option.some.injEq] at hc1
    subst hc1
    exact le_of_not_lt hlt

theorem updateTargetDate_ok (req : UpdateGoalRequest) (g g1 : Goal)
    (h : updateTargetDate req g = Except.ok g1) :
    ∃ d, g1 = { g with TargetDate := d } := by
  unfold updateTargetDate at h
  cases hd : req.TargetDate with
  | none =>
    rw [hd] at h
    simp only [Except.ok.injEq] at h
    exact ⟨g.TargetDate, h.symm⟩
  | some s =>
    rw [hd] at h
    simp only at h
    split_ifs at h with hs
    · simp only [Except.ok.injEq] at h
      exact ⟨none, h.symm⟩
    · cases hp : parseDate s with
      | none => rw [hp] at h; simp at h
      | some t =>
        rw [hp] at h
        simp only [Except.ok.injEq] at h
        exact ⟨some t, h.symm⟩

/-- What the field updates of `UpdateGoal` leave when every check passes:
the amounts and the flag are those of the request where it supplies them and
those of the goal otherwise, a supplied target is positive and a supplied
current amount is not negative; id, owner, active flag and creation time are
kept. -/
theorem applyUpdateGoal_ok (req : UpdateGoalRequest) (goal g1 : Goal)
    (h : applyUpdateGoal req goal = Except.ok g1) :
    g1.ID = goal.ID ∧ g1.UserID = goal.UserID ∧ g1.IsActive = goal.IsActive
      ∧ g1.CreatedAt = goal.CreatedAt
      ∧ g1.TargetAmount = req.TargetAmount.getD goal.TargetAmount
      ∧ (∀ t, req.TargetAmount = some t → 0 < t)
      ∧ g1.CurrentAmount = req.CurrentAmount.getD goal.CurrentAmount
      ∧ (∀ c, req.CurrentAmount = some c → 0 ≤ c)
      ∧ g1.IsCompleted = req.IsCompleted.getD goal.IsCompleted := by
  unfold applyUpdateGoal at h
  simp only at h
  split at h
  · simp at h
  · rename_i goal3 h3
    split at h
    · simp at h
    · rename_i goal4 h4
      split at h
      · simp at h
      · rename_i goal5 h5
        obtain ⟨e3, p3⟩ := updateTargetAmount_ok _ _ _ h3
        obtain ⟨e4, p4⟩ := updateCurrentAmount_ok _ _ _ h4
        obtain ⟨d, e5⟩ := updateTargetDate_ok _ _ _ h5
        have hfin : g1 = { goal5 with IsCompleted := req.IsCompleted.getD goal5.IsCompleted } := by
          cases hic : req.IsCompleted with
          | none => rw [hic] at h; simp only [Except.ok.injEq] at h; subst h; simp
          | some b => rw [hic] at h; simp only [Except.ok.injEq] at h; subst h; simp
        have k5 : g1.ID = goal5.ID ∧ g1.UserID = goal5.UserID ∧ g1.IsActive = goal5.IsActive
            ∧ g1.CreatedAt = goal5.CreatedAt ∧ g1.TargetAmount = goal5.TargetAmount
            ∧ g1.CurrentAmount = goal5.CurrentAmount
            ∧ g1.IsCompleted = req.IsCompleted.getD goal5.IsCompleted := by
          rw [hfin]; exact ⟨rfl, rfl, rfl, rfl, rfl, rfl, rfl⟩
        have k4 : goal5.ID = goal4.ID ∧ goal5.UserID = goal4.UserID
            ∧ goal5.IsActive = goal4.IsActive ∧ goal5.CreatedAt = goal4.CreatedAt
            ∧ goal5.TargetAmount = goal4.TargetAmount
            ∧ goal5.CurrentAmount = goal4.CurrentAmount
            ∧ goal5.IsCompleted = goal4.IsCompleted := by
          rw [e5]; exact ⟨rfl, rfl, rfl, rfl, rfl, rfl, rfl⟩
        have k3 : goal4.ID = goal3.ID ∧ goal4.UserID = goal3.UserID
            ∧ goal4.IsActive = goal3.IsActive ∧ goal4.CreatedAt = goal3.CreatedAt
            ∧ goal4.TargetAmount = goal3.TargetAmount
            ∧ goal4.CurrentAmount = req.CurrentAmount.getD goal3.CurrentAmount
            ∧ goal4.IsCompleted = goal3.IsCompleted := by
          rw [e4]; exact ⟨rfl, rfl, rfl, rfl, rfl, rfl, rfl⟩
        have k2 : goal3.ID = goal.ID ∧ goal3.UserID = goal.UserID
            ∧ goal3.IsActive = goal.IsActive ∧ goal3.CreatedAt = goal.CreatedAt
            ∧ goal3.TargetAmount = req.TargetAmount.getD goal.TargetAmount
            ∧ goal3.CurrentAmount = goal.CurrentAmount
            ∧ goal3.IsCompleted = goal.IsCompleted := by
          rw [e3]
          cases req.Name <;> cases req.Description <;>
            exact ⟨rfl, rfl, rfl, rfl, rfl, rfl, rfl⟩
        obtain ⟨a5, b5, c5, d5, t5, u5, v5⟩ := k5
        obtain ⟨a4, b4, c4, d4, t4, u4, v4⟩ := k4
        obtain ⟨a3, b3, c3, d3, t3, u3, v3⟩ := k3
        obtain ⟨a2, b2, c2, d2, t2, u2, v2⟩ := k2
        refine ⟨?_, ?_, ?_, ?_, ?_, p3, ?_, p4, ?_⟩
        · rw [a5, a4, a3, a2]
        · rw [b5, b4, b3, b2]
        · rw [c5, c4, c3, c2]
        · rw [d5, d4, d3, d2]
        · rw [t5, t4, t3, t2]
        · rw [u5, u4, u3, u2]
        · rw [v5, v4, v3, v2]

/-- A failed check of the field updates of `UpdateGoal` answers 400. -/
theorem applyUpdateGoal_error (req : UpdateGoalRequest) (goal : Goal) (r : Response)
    (h : applyUpdateGoal req goal = Except.error r) : r.status = StatusBadRequest := by
  unfold applyUpdateGoal at h
  simp only at h
  split at h
  · rename_i r3 h3
    simp only [Except.error.injEq] at h
    subst h
    unfold updateTargetAmount at h3
    split at h3
    · simp at h3
    · split_ifs at h3
      simp only [Except.error.injEq] at h3
      rw [← h3]; rfl
  · split at h
    · rename_i r4 h4
      simp only [Except.error.injEq] at h
      subst h
      unfold updateCurrentAmount at h4
      split at h4
      · simp at h4
      · split_ifs at h4
        simp only [Except.error.injEq] at h4
        rw [← h4]; rfl
    · split at h
      · rename_i r5 h5
        simp only [Except.error.injEq] at h
        subst h
        unfold updateTargetDate at h5
        split at h5
        · simp at h5
        · split_ifs at h5
          split at h5
          · simp only [Except.error.injEq] at h5
            rw [← h5]; rfl
          · simp at h5
      · split at h <;> simp at h

/-- A successful `UpdateGoal` (status 200): the caller owns the stored goal,
every check of the field updates passed, and the row is replaced by the
updated goal, stamped with the time of the update; that goal is the body of
the answer. -/
theorem UpdateGoal_ok (userID goalID : String) (body : Except String UpdateGoalRequest)
    (db db2 : DB) (resp : Response)
    (hrun : GoalsHandler.UpdateGoal userID goalID body db = (resp, db2))
    (hok : resp.status = StatusOK) :
    ∃ req goal g1,
      body = Except.ok req
      ∧ db.stored goalID = some goal
      ∧ goal.UserID = userID
      ∧ applyUpdateGoal req goal = Except.ok g1
      ∧ db2.stored goalID = some { g1 with UpdatedAt := db.now }
      ∧ resp.body = Body.goal { g1 with UpdatedAt := db.now } := by
  unfold GoalsHandler.UpdateGoal at hrun
  cases body with
  | error e =>
    simp only [Prod.mk.injEq] at hrun
    rw [← hrun.1] at hok
    exact absurd hok (by simp [invalidBody, StatusBadRequest, StatusOK])
  | ok req =>
    simp only at hrun
    rcases hget : PostgresRepositories.GetGoalByID goalID db with ⟨r, db1⟩
    rw [hget] at hrun
    cases r with
    | error e =>
      simp only [Prod.mk.injEq] at hrun
      rw [← hrun.1] at hok
      exact absurd hok (by decide)
    | ok goal =>
      simp only at hrun
      obtain ⟨hst, hdb1, hgid⟩ := GetGoalByID_ok goalID db db1 goal hget
      by_cases hown : goal.UserID = userID
      · rw [if_neg (not_not.mpr hown)] at hrun
        cases happ : applyUpdateGoal req goal with
        | error r =>
          rw [happ] at hrun
          simp only [Prod.mk.injEq] at hrun
          rw [← hrun.1, applyUpdateGoal_error req goal r happ] at hok
          exact absurd hok (by decide)
        | ok g1 =>
          rw [happ] at hrun
          simp only at hrun
          rcases hupd : PostgresRepositories.UpdateGoal g1 db1 with ⟨r2, db3⟩
          rw [hupd] at hrun
          cases r2 with
          | error e =>
            simp only [Prod.mk.injEq] at hrun
            rw [← hrun.1] at hok
            exact absurd hok (by simp [StatusInternalServerError, StatusOK])
          | ok out =>
            simp only [Prod.mk.injEq] at hrun
            obtain ⟨hresp, hdb⟩ := hrun
            obtain ⟨hout, hgoals⟩ := repo_UpdateGoal_ok _ _ _ _ hupd
            have hnow : db1.now = db.now := by rw [hdb1]; exact DB.fault_now db
            have hg1 : db1.goals = db.goals := by rw [hdb1]; exact DB.fault_goals db
            obtain ⟨f1, f2, f3, f4, _⟩ := applyUpdateGoal_ok req goal g1 happ
            refine ⟨req, goal, g1, rfl, hst, hown, happ, ?_, ?_⟩
            · unfold DB.stored
              rw [← hdb, hgoals, hg1, hnow]
              rw [find_updateRow goalID db.now _ goal db.goals hst f1 f2]
              rw [updated_row_eq db.now _ goal f1 f2 f3 f4]
            · rw [← hresp, hout, hnow]
      · rw [if_pos hown] at hrun
        simp only [Prod.mk.injEq] at hrun
        rw [← hrun.1] at hok
        exact absurd hok (by decide)

/-- A request that passes the binding tags of `CreateGoalRequest` has a
positive target amount. -/
theorem bindCreateGoal_ok (body : Except String CreateGoalRequest) (req : CreateGoalRequest)
    (h : bindCreateGoal body = Except.ok req) :
    body = Except.ok req ∧ req.Name ≠ "" ∧ 0 < req.TargetAmount := by
  unfold bindCreateGoal at h
  cases body with
  | error e => simp at h
  | ok r =>
    simp only at h
    split_ifs at h with hv
    simp only [Except.ok.injEq] at h
    subst h
    unfold CreateGoalRequest.violations at hv
    simp only [List.append_eq_nil] at hv
    obtain ⟨hn, ht⟩ := hv
    refine ⟨rfl, ?_, ?_⟩
    · intro hname
      rw [if_pos hname] at hn
      simp at hn
    · by_contra hle
      have hle2 : r.TargetAmount ≤ 0 := le_of_not_lt hle
      split_ifs at ht

/-- A successful `CreateGoal` (status 201): the request passed the binding
tags, and one row was appended to the table, with the request's target
amount and a current amount of zero; that row is the body of the answer. -/
theorem CreateGoal_ok (userID : String) (body : Except String CreateGoalRequest)
    (db db2 : DB) (resp : Response)
    (hrun : GoalsHandler.CreateGoal userID body db = (resp, db2))
    (hok : resp.status = StatusCreated) :
    ∃ req row,
      body = Except.ok req
      ∧ 0 < req.TargetAmount
      ∧ db2.goals = db.goals ++ [row]
      ∧ resp.body = Body.goal row
      ∧ row.UserID = userID
      ∧ row.TargetAmount = req.TargetAmount
      ∧ row.CurrentAmount = 0
      ∧ row.IsCompleted = db.defaultIsCompleted := by
  unfold GoalsHandler.CreateGoal at hrun
  cases hb : bindCreateGoal body with
  | error e =>
    rw [hb] at hrun
    simp only [Prod.mk.injEq] at hrun
    rw [← hrun.1] at hok
    exact absurd hok (by simp [invalidBody, StatusBadRequest, StatusCreated])
  | ok req =>
    obtain ⟨hbody, _, hpos⟩ := bindCreateGoal_ok body req hb
    rw [hb] at hrun
    simp only at hrun
    split at hrun
    · simp only [Prod.mk.injEq] at hrun
      rw [← hrun.1] at hok
      exact absurd hok (by decide)
    · rename_i targetDate _
      unfold PostgresRepositories.CreateGoal at hrun
      rcases hf : db.fault with ⟨f, d⟩
      have hg : d.goals = db.goals := by
        have := DB.fault_goals db
        rw [hf] at this
        exact this
      have hdc : d.defaultIsCompleted = db.defaultIsCompleted := by
        have : db.fault.2.defaultIsCompleted = db.defaultIsCompleted := by
          unfold DB.fault
          cases db.faults <;> rfl
        rw [hf] at this
        exact this
      rw [hf] at hrun
      cases f with
      | some e =>
        simp only [Prod.mk.injEq] at hrun
        rw [← hrun.1] at hok
        exact absurd hok (by simp [StatusInternalServerError, StatusCreated])
      | none =>
        simp only [Prod.mk.injEq] at hrun
        obtain ⟨hresp, hdb⟩ := hrun
        refine ⟨req,
          { ID := d.nextID, UserID := userID, Name := req.Name, Description := req.Description,
            TargetAmount := req.TargetAmount, CurrentAmount := 0, TargetDate := targetDate,
            IsCompleted := d.defaultIsCompleted, IsActive := d.defaultIsActive,
            CreatedAt := d.now, UpdatedAt := d.now },
          hbody, hpos, ?_, ?_, ?_, ?_, ?_, ?_⟩
        · rw [← hdb, hg]
        · rw [← hresp]
        · rfl
        · rfl
        · rfl
        · exact hdc

/-! ## The table after a handler ran -/

theorem GetGoalByID_snd (id : String) (db : DB) :
    (PostgresRepositories.GetGoalByID id db).2 = db.fault.2 := by
  unfold PostgresRepositories.GetGoalByID
  rcases hf : db.fault with ⟨f, d⟩
  cases f with
  | some e => rfl
  | none =>
    simp only
    cases d.goals.find? (fun g => g.ID == id) <;> rfl

theorem stored_mem (db : DB) (id : String) (goal : Goal) (h : db.stored id = some goal) :
    goal ∈ db.goals := by
  unfold DB.stored at h
  exact List.mem_of_find?_eq_some h

/-- The table after the repository `UpdateGoal`: unchanged, or every row
passed through the SET clause. -/
theorem repo_UpdateGoal_goals (new : Goal) (db : DB) :
    (PostgresRepositories.UpdateGoal new db).2.goals = db.goals
      ∨ (PostgresRepositories.UpdateGoal new db).2.goals
          = db.goals.map (updateRow new db.now) := by
  unfold PostgresRepositories.UpdateGoal
  rcases hf : db.fault with ⟨f, d⟩
  have hg : d.goals = db.goals := by
    have := DB.fault_goals db
    rw [hf] at this
    exact this
  have hn : d.now = db.now := by
    have := DB.fault_now db
    rw [hf] at this
    exact this
  cases f with
  | some e => left; exact hg
  | none =>
    simp only
    split
    · right
      simp only
      rw [hg, hn]
    · left; exact hg

theorem wellFormed_updateRow (new : Goal) (now : Time) (goals : List Goal)
    (hnew : new.wellFormed) (hall : ∀ g ∈ goals, g.wellFormed) :
    ∀ g ∈ goals.map (updateRow new now), g.wellFormed := by
  intro g hg
  rw [List.mem_map] at hg
  obtain ⟨g0, hg0, rfl⟩ := hg
  unfold updateRow
  split
  · exact hnew
  · exact hall g0 hg0

theorem applyProgress_wellFormed (amount : ℚ) (setAbsolute : Option Bool) (goal : Goal)
    (h : 0 < goal.TargetAmount) : (applyProgress amount setAbsolute goal).wellFormed := by
  constructor
  · rw [applyProgress_amount]
    split_ifs <;> exact le_max_left _ _
  · rw [(applyProgress_frame amount setAbsolute goal).2.2.2.2]
    exact h

theorem applyUpdateGoal_wellFormed (req : UpdateGoalRequest) (goal g1 : Goal)
    (hwf : goal.wellFormed) (h : applyUpdateGoal req goal = Except.ok g1) :
    g1.wellFormed := by
  obtain ⟨_, _, _, _, ht, hpt, hc, hpc, _⟩ := applyUpdateGoal_ok req goal g1 h
  constructor
  · rw [hc]
    cases hreq : req.CurrentAmount with
    | none => exact hwf.1
    | some c => exact hpc c hreq
  · rw [ht]
    cases hreq : req.TargetAmount with
    | none => exact hwf.2
    | some t => exact hpt t hreq

/-- `UpdateGoalProgress` keeps every row of the table well-formed. -/
theorem UpdateGoalProgress_wellFormed (userID goalID : String)
    (body : Except String ProgressUpdateRequest) (db : DB) (hwf : db.wellFormed) :
    (GoalsHandler.UpdateGoalProgress userID goalID body db).2.wellFormed := by
  unfold GoalsHandler.UpdateGoalProgress
  split
  · exact hwf
  · rename_i amount setAbsolute _
    split
    · rename_i e db1 hget
      have h2 := GetGoalByID_snd goalID db
      rw [hget] at h2
      simp only at h2
      intro g hg
      rw [h2, DB.fault_goals] at hg
      exact hwf g hg
    · rename_i goal db1 hget
      obtain ⟨hst, hdb1, _⟩ := GetGoalByID_ok goalID db db1 goal hget
      have hg1 : db1.goals = db.goals := by rw [hdb1]; exact DB.fault_goals db
      have hwf1 : db1.wellFormed := by
        intro g hg
        rw [hg1] at hg
        exact hwf g hg
      split
      · exact hwf1
      · have hnew : (applyProgress amount setAbsolute goal).wellFormed :=
          applyProgress_wellFormed amount setAbsolute goal (hwf goal (stored_mem db goalID goal hst)).2
        have hres : (PostgresRepositories.UpdateGoal
            (applyProgress amount setAbsolute goal) db1).2.wellFormed := by
          rcases repo_UpdateGoal_goals (applyProgress amount setAbsolute goal) db1 with h | h
          · intro g hg
            rw [h] at hg
            exact hwf1 g hg
          · intro g hg
            rw [h] at hg
            exact wellFormed_updateRow _ _ _ hnew hwf1 g hg
        split
        · rename_i heq
          rw [heq] at hres
          exact hres
        · rename_i heq
          rw [heq] at hres
          exact hres

/-- `UpdateGoal` keeps every row of the table well-formed. -/
theorem UpdateGoal_wellFormed (userID goalID : String)
    (body : Except String UpdateGoalRequest) (db : DB) (hwf : db.wellFormed) :
    (GoalsHandler.UpdateGoal userID goalID body db).2.wellFormed := by
  unfold GoalsHandler.UpdateGoal
  split
  · exact hwf
  · rename_i req
    split
    · rename_i e db1 hget
      have h2 := GetGoalByID_snd goalID db
      rw [hget] at h2
      simp only at h2
      intro g hg
      rw [h2, DB.fault_goals] at hg
      exact hwf g hg
    · rename_i goal db1 hget
      obtain ⟨hst, hdb1, _⟩ := GetGoalByID_ok goalID db db1 goal hget
      have hg1 : db1.goals = db.goals := by rw [hdb1]; exact DB.fault_goals db
      have hwf1 : db1.wellFormed := by
        intro g hg
        rw [hg1] at hg
        exact hwf g hg
      split
      · exact hwf1
      · split
        · exact hwf1
        · rename_i g1 happ
          have hnew : g1.wellFormed :=
            applyUpdateGoal_wellFormed req goal g1 (hwf goal (stored_mem db goalID goal hst)) happ
          have hres : (PostgresRepositories.UpdateGoal g1 db1).2.wellFormed := by
            rcases repo_UpdateGoal_goals g1 db1 with h | h
            · intro g hg
              rw [h] at hg
              exact hwf1 g hg
            · intro g hg
              rw [h] at hg
              exact wellFormed_updateRow _ _ _ hnew hwf1 g hg
          split
          · rename_i heq
            rw [heq] at hres
            exact hres
          · rename_i heq
            rw [heq] at hres
            exact hres

/-- `CreateGoal` keeps every row of the table well-formed. -/
theorem CreateGoal_wellFormed (userID : String) (body : Except String CreateGoalRequest)
    (db : DB) (hwf : db.wellFormed) :
    (GoalsHandler.CreateGoal userID body db).2.wellFormed := by
  unfold GoalsHandler.CreateGoal
  split
  · exact hwf
  · rename_i req hb
    obtain ⟨_, _, hpos⟩ := bindCreateGoal_ok body req hb
    simp only
    split
    · exact hwf
    · rename_i targetDate _
      unfold PostgresRepositories.CreateGoal
      rcases hf : db.fault with ⟨f, d⟩
      have hg : d.goals = db.goals := by
        have := DB.fault_goals db
        rw [hf] at this
        exact this
      cases f with
      | some e =>
        intro g hmem
        simp only at hmem
        rw [hg] at hmem
        exact hwf g hmem
      | none =>
        intro g hmem
        simp only [List.mem_append, List.mem_singleton] at hmem
        rcases hmem with hmem | hmem
        · rw [hg] at hmem
          exact hwf g hmem
        · subst hmem
          exact ⟨le_refl _, hpos⟩

/-- `DeleteGoal` keeps every row of the table well-formed. -/
theorem DeleteGoal_wellFormed (userID goalID : String) (db : DB) (hwf : db.wellFormed) :
    (GoalsHandler.DeleteGoal userID goalID db).2.wellFormed := by
  unfold GoalsHandler.DeleteGoal
  have hkeep : ∀ d : DB, d.wellFormed → d.fault.2.wellFormed := by
    intro d hd g hg
    rw [DB.fault_goals] at hg
    exact hd g hg
  have h2 := GetGoalByID_snd goalID db
  split
  · rename_i e db1 hget
    rw [hget] at h2
    simp only at h2
    rw [h2]
    exact hkeep db hwf
  · rename_i goal db1 hget
    rw [hget] at h2
    simp only at h2
    have hwf1 : db1.wellFormed := by rw [h2]; exact hkeep db hwf
    split
    · exact hwf1
    · have hres : (PostgresRepositories.DeleteGoal goalID db1).2.wellFormed := by
        unfold PostgresRepositories.DeleteGoal
        rcases hf : db1.fault with ⟨f, d⟩
        have hd : d.wellFormed := by
          have := hkeep db1 hwf1
          rw [hf] at this
          exact this
        cases f with
        | some e => exact hd
        | none =>
          simp only
          split
          · intro g hg
            simp only [List.mem_map] at hg
            obtain ⟨g0, hg0, rfl⟩ := hg
            unfold deactivateRow
            split
            · exact hd g0 hg0
            · exact hd g0 hg0
          · exact hd
      split
      · rename_i heq
        rw [heq] at hres
        exact hres
      · rename_i heq
        rw [heq] at hres
        exact hres

/-! ## Success of the handlers -/

theorem DB.fault_nil (db : DB) (h : db.faults = []) : db.fault = (none, db) := by
  unfold DB.fault
  rw [h]

theorem GetGoalByID_succeeds (id : String) (db : DB) (goal : Goal)
    (hfaults : db.faults = []) (hstored : db.stored id = some goal) :
    PostgresRepositories.GetGoalByID id db = (Except.ok goal, db) := by
  unfold PostgresRepositories.GetGoalByID
  rw [DB.fault_nil db hfaults]
  unfold DB.stored at hstored
  simp only [hstored]

theorem repo_UpdateGoal_succeeds (new goal : Goal) (db : DB)
    (hfaults : db.faults = []) (hmem : goal ∈ db.goals)
    (hid : new.ID = goal.ID) (hu : new.UserID = goal.UserID) :
    (PostgresRepositories.UpdateGoal new db).1 = Except.ok { new with UpdatedAt := db.now } := by
  unfold PostgresRepositories.UpdateGoal
  rw [DB.fault_nil db hfaults]
  have hany : db.goals.any (fun g => g.ID == new.ID && g.UserID == new.UserID) = true := by
    rw [List.any_eq_true]
    exact ⟨goal, hmem, by simp [hid, hu]⟩
  simp only [hany, if_true]

/-- With no failure ahead, a progress update that carries an amount, on a
stored goal of the caller, is answered with 200. -/
theorem UpdateGoalProgress_succeeds (userID goalID : String) (a : ℚ)
    (setAbsolute : Option Bool) (db : DB) (goal : Goal)
    (hfaults : db.faults = []) (hstored : db.stored goalID = some goal)
    (hown : goal.UserID = userID) :
    (GoalsHandler.UpdateGoalProgress userID goalID
      (Except.ok { Amount := some a, SetAbsolute := setAbsolute }) db).1.status = StatusOK := by
  unfold GoalsHandler.UpdateGoalProgress
  simp only [bindProgressUpdate]
  rw [GetGoalByID_succeeds goalID db goal hfaults hstored]
  simp only
  rw [if_neg (not_not.mpr hown)]
  obtain ⟨f1, f2, _⟩ := applyProgress_frame a setAbsolute goal
  have h := repo_UpdateGoal_succeeds (applyProgress a setAbsolute goal) goal db hfaults
    (stored_mem db goalID goal hstored) f1 f2
  rcases hu : PostgresRepositories.UpdateGoal (applyProgress a setAbsolute goal) db with ⟨r, d⟩
  rw [hu] at h
  simp only at h
  subst h
  rfl

/-- With no failure ahead, an update whose checks pass, on a stored goal of
the caller, is answered with 200. -/
theorem UpdateGoal_succeeds (userID goalID : String) (req : UpdateGoalRequest) (db : DB)
    (goal g1 : Goal) (hfaults : db.faults = []) (hstored : db.stored goalID = some goal)
    (hown : goal.UserID = userID) (happ : applyUpdateGoal req goal = Except.ok g1) :
    (GoalsHandler.UpdateGoal userID goalID (Except.ok req) db).1.status = StatusOK := by
  unfold GoalsHandler.UpdateGoal
  simp only
  rw [GetGoalByID_succeeds goalID db goal hfaults hstored]
  simp only
  rw [if_neg (not_not.mpr hown), happ]
  simp only
  obtain ⟨f1, f2, _⟩ := applyUpdateGoal_ok req goal g1 happ
  have h := repo_UpdateGoal_succeeds g1 goal db hfaults
    (stored_mem db goalID goal hstored) f1 f2
  rcases hu : PostgresRepositories.UpdateGoal g1 db with ⟨r, d⟩
  rw [hu] at h
  simp only at h
  subst h
  rfl

/-- With no failure ahead, a request with a name, a positive target amount
and no target date is answered with 201. -/
theorem CreateGoal_succeeds (userID : String) (req : CreateGoalRequest) (db : DB)
    (hfaults : db.faults = []) (hname : req.Name ≠ "") (htarget : 0 < req.TargetAmount)
    (hdate : req.TargetDate = none) :
    (GoalsHandler.CreateGoal userID (Except.ok req) db).1.status = StatusCreated := by
  have hv : req.violations = [] := by
    unfold CreateGoalRequest.violations
    rw [if_neg hname, if_neg (ne_of_gt htarget), if_neg (not_le.mpr htarget)]
    rfl
  unfold GoalsHandler.CreateGoal
  simp only [bindCreateGoal, hv, if_true, hdate]
  unfold PostgresRepositories.CreateGoal
  rw [DB.fault_nil db hfaults]

/-! ## Claims -/

/-- C3: after a progress update that `UpdateGoalProgress` answers with 200,
the stored flag is the flag before or-ed with (new current_amount >=
target_amount): reaching the target sets the flag, and a progress update
never clears it. -/
theorem C3_progress_update_flag (userID goalID : String)
    (body : Except String ProgressUpdateRequest) (db db2 : DB) (resp : Response) (goal : Goal)
    (hstored : db.stored goalID = some goal)
    (hrun : GoalsHandler.UpdateGoalProgress userID goalID body db = (resp, db2))
    (hok : resp.status = StatusOK) :
    ∃ g, db2.stored goalID = some g
      ∧ g.TargetAmount = goal.TargetAmount
      ∧ g.IsCompleted = (goal.IsCompleted || decide (g.CurrentAmount ≥ g.TargetAmount))
      ∧ (g.CurrentAmount ≥ g.TargetAmount → g.IsCompleted = true)
      ∧ (goal.IsCompleted = true → g.IsCompleted = true) := by
  obtain ⟨amount, sa, goal1, _, hst, _, hnew, _⟩ :=
    UpdateGoalProgress_ok userID goalID body db db2 resp hrun hok
  rw [hstored] at hst
  simp only [Option.some.injEq] at hst
  subst hst
  have ht : (applyProgress amount sa goal).TargetAmount = goal.TargetAmount :=
    (applyProgress_frame amount sa goal).2.2.2.2
  have hc := applyProgress_completed amount sa goal
  refine ⟨_, hnew, ht, ?_, ?_, ?_⟩
  · show (applyProgress amount sa goal).IsCompleted = _
    rw [hc]
    show _ = (goal.IsCompleted || decide ((applyProgress amount sa goal).CurrentAmount
      ≥ (applyProgress amount sa goal).TargetAmount))
    rw [ht]
  · intro h
    show (applyProgress amount sa goal).IsCompleted = true
    rw [hc]
    have h2 : (applyProgress amount sa goal).CurrentAmount ≥ goal.TargetAmount := by
      rw [← ht]; exact h
    simp [h2]
  · intro h
    show (applyProgress amount sa goal).IsCompleted = true
    rw [hc, h]
    rfl

/-- Witness of C3: a completed goal with 1200 of 1000 is set to 10; the
update is answered with 200 and the flag stays set. -/
theorem C3_progress_update_flag_witness :
    completedDB.stored "g1" = some completedGoal
      ∧ (GoalsHandler.UpdateGoalProgress "u1" "g1"
          (Except.ok { Amount := some 10, SetAbsolute := some true }) completedDB).1.status
          = StatusOK
      ∧ Option.map Goal.IsCompleted
          ((GoalsHandler.UpdateGoalProgress "u1" "g1"
            (Except.ok { Amount := some 10, SetAbsolute := some true }) completedDB).2.stored
              "g1")
          = some true := by
  have hok := UpdateGoalProgress_succeeds "u1" "g1" 10 (some true) completedDB completedGoal
    rfl rfl rfl
  obtain ⟨g, hg, _, _, _, hkeep⟩ :=
    C3_progress_update_flag "u1" "g1"
      (Except.ok { Amount := some 10, SetAbsolute := some true }) completedDB
      (GoalsHandler.UpdateGoalProgress "u1" "g1"
        (Except.ok { Amount := some 10, SetAbsolute := some true }) completedDB).2
      (GoalsHandler.UpdateGoalProgress "u1" "g1"
        (Except.ok { Amount := some 10, SetAbsolute := some true }) completedDB).1
      completedGoal rfl rfl hok
  refine ⟨rfl, hok, ?_⟩
  rw [hg, Option.map_some', hkeep rfl]

/-- C4: goal well-formedness (current_amount >= 0 and target_amount > 0) is
an invariant of the goal handlers.  On a table whose rows are all
well-formed, `CreateGoal`, `UpdateGoal`, `UpdateGoalProgress` and
`DeleteGoal` leave a table whose rows are all well-formed, whatever the
request and the outcome; the goal that an accepted `CreateGoal` inserts has
current_amount = 0 and target_amount > 0, and the goal that a successful
`UpdateGoal` or `UpdateGoalProgress` writes is well-formed.  Hence every
progress report of `GetGoalProgress` on such a table is computed with a
divisor, the target_amount of the goal read, that is positive and so not
zero: the division is defined. -/
theorem C4_goal_wellFormed_invariant (db : DB) (hwf : db.wellFormed) :
    (∀ userID body,
      (GoalsHandler.CreateGoal userID body db).2.wellFormed
        ∧ ((GoalsHandler.CreateGoal userID body db).1.status = StatusCreated →
            ∃ row, (GoalsHandler.CreateGoal userID body db).2.goals = db.goals ++ [row]
              ∧ row.CurrentAmount = 0 ∧ 0 < row.TargetAmount))
    ∧ (∀ userID goalID body,
        (GoalsHandler.UpdateGoal userID goalID body db).2.wellFormed
          ∧ ((GoalsHandler.UpdateGoal userID goalID body db).1.status = StatusOK →
              ∃ g, (GoalsHandler.UpdateGoal userID goalID body db).2.stored goalID = some g
                ∧ g.wellFormed))
    ∧ (∀ userID goalID body,
        (GoalsHandler.UpdateGoalProgress userID goalID body db).2.wellFormed
          ∧ ((GoalsHandler.UpdateGoalProgress userID goalID body db).1.status = StatusOK →
              ∃ g, (GoalsHandler.UpdateGoalProgress userID goalID body db).2.stored goalID
                    = some g
                ∧ g.wellFormed))
    ∧ (∀ userID goalID, (GoalsHandler.DeleteGoal userID goalID db).2.wellFormed)
    ∧ (∀ clock userID goalID p,
        (GoalsHandler.GetGoalProgress clock userID goalID db).1.body = Body.progress p →
          ∃ goal, db.stored goalID = some goal
            ∧ p.target_amount = goal.TargetAmount
            ∧ 0 < goal.TargetAmount
            ∧ goal.TargetAmount ≠ 0) := by
  refine ⟨?_, ?_, ?_, ?_, ?_⟩
  · intro userID body
    refine ⟨CreateGoal_wellFormed userID body db hwf, ?_⟩
    intro hok
    obtain ⟨req, row, _, hpos, hgoals, _, _, ht, hc, _⟩ :=
      CreateGoal_ok userID body db _ _ rfl hok
    exact ⟨row, hgoals, hc, by rw [ht]; exact hpos⟩
  · intro userID goalID body
    have hall := UpdateGoal_wellFormed userID goalID body db hwf
    refine ⟨hall, ?_⟩
    intro hok
    obtain ⟨req, goal, g1, _, _, _, _, hnew, _⟩ :=
      UpdateGoal_ok userID goalID body db _ _ rfl hok
    exact ⟨_, hnew, hall _ (stored_mem _ goalID _ hnew)⟩
  · intro userID goalID body
    have hall := UpdateGoalProgress_wellFormed userID goalID body db hwf
    refine ⟨hall, ?_⟩
    intro hok
    obtain ⟨amount, sa, goal, _, _, _, hnew, _⟩ :=
      UpdateGoalProgress_ok userID goalID body db _ _ rfl hok
    exact ⟨_, hnew, hall _ (stored_mem _ goalID _ hnew)⟩
  · intro userID goalID
    exact DeleteGoal_wellFormed userID goalID db hwf
  · intro clock userID goalID p hp
    unfold GoalsHandler.GetGoalProgress at hp
    split at hp
    · simp [goalNotFound] at hp
    · rename_i goal db1 hget
      obtain ⟨hst, _, _⟩ := GetGoalByID_ok goalID db db1 goal hget
      have hpos : 0 < goal.TargetAmount := (hwf goal (stored_mem db goalID goal hst)).2
      split at hp
      · simp [accessDenied] at hp
      · simp only [Body.progress.injEq] at hp
        refine ⟨goal, hst, ?_, hpos, ne_of_gt hpos⟩
        rw [← hp]
        rfl

/-- Witness of C4: the sample table is well-formed, and stays so after a
progress update of -1000. -/
theorem C4_goal_wellFormed_invariant_witness :
    sampleDB.wellFormed
      ∧ (GoalsHandler.UpdateGoalProgress "u1" "g1"
          (Except.ok { Amount := some (-1000), SetAbsolute := none }) sampleDB).2.wellFormed :=
  have hwf : sampleDB.wellFormed := by
    intro g hg
    simp only [sampleDB, List.mem_singleton] at hg
    subst hg
    constructor <;> norm_num [sampleGoal]
  ⟨hwf, ((C4_goal_wellFormed_invariant sampleDB hwf).2.2.1 "u1" "g1" _).1⟩

theorem applyUpdateGoal_setCurrentTo1000 :
    applyUpdateGoal setCurrentTo1000 sampleGoal
      = Except.ok { sampleGoal with CurrentAmount := 1000 } := by
  simp only [applyUpdateGoal, setCurrentTo1000, updateTargetAmount, updateCurrentAmount,
    updateTargetDate]
  rw [if_neg (by norm_num)]

/-- C5, the code at the failing input: `UpdateGoal` with current_amount =
1000 and no is_completed, on the sample goal (500 of 1000, not completed),
is answered with 200 and stores current_amount = 1000 = target_amount with
is_completed still false. -/
theorem C5_UpdateGoal_target_reached_flag_unset :
    (GoalsHandler.UpdateGoal "u1" "g1" (Except.ok setCurrentTo1000) sampleDB).1.status = StatusOK
      ∧ ∃ g, (GoalsHandler.UpdateGoal "u1" "g1" (Except.ok setCurrentTo1000) sampleDB).2.stored
            "g1" = some g
          ∧ g.CurrentAmount = 1000 ∧ g.TargetAmount = 1000
          ∧ g.CurrentAmount ≥ g.TargetAmount
          ∧ g.IsCompleted = false := by
  have hok := UpdateGoal_succeeds "u1" "g1" setCurrentTo1000 sampleDB sampleGoal _
    rfl rfl rfl applyUpdateGoal_setCurrentTo1000
  obtain ⟨req, goal, g1, hreq, hst, _, happ, hnew, _⟩ :=
    UpdateGoal_ok "u1" "g1" (Except.ok setCurrentTo1000) sampleDB
      (GoalsHandler.UpdateGoal "u1" "g1" (Except.ok setCurrentTo1000) sampleDB).2
      (GoalsHandler.UpdateGoal "u1" "g1" (Except.ok setCurrentTo1000) sampleDB).1 rfl hok
  simp only [Except.ok.injEq] at hreq
  subst hreq
  have hgoal : goal = sampleGoal := by
    have : sampleDB.stored "g1" = some sampleGoal := rfl
    rw [this] at hst
    exact (Option.some.inj hst).symm
  subst hgoal
  rw [applyUpdateGoal_setCurrentTo1000] at happ
  simp only [Except.ok.injEq] at happ
  subst happ
  exact ⟨hok, _, hnew, rfl, rfl, le_refl _, rfl⟩

/-- C6, counterexample: on the sample goal (500 of 1000) an additive
progress update of -1000 is answered with 200 and stores a current_amount
that is neither >= the previous current_amount nor >= target_amount. -/
theorem C6_counterexample :
    (GoalsHandler.UpdateGoalProgress "u1" "g1"
        (Except.ok { Amount := some (-1000), SetAbsolute := some false }) sampleDB).1.status
        = StatusOK
      ∧ ∃ g, (GoalsHandler.UpdateGoalProgress "u1" "g1"
            (Except.ok { Amount := some (-1000), SetAbsolute := some false }) sampleDB).2.stored
            "g1" = some g
          ∧ ¬ (g.CurrentAmount ≥ sampleGoal.CurrentAmount ∨ g.CurrentAmount ≥ g.TargetAmount) := by
  have hok := UpdateGoalProgress_succeeds "u1" "g1" (-1000) (some false) sampleDB sampleGoal
    rfl rfl rfl
  obtain ⟨amount, sa, goal, hbind, hst, _, hnew, _⟩ :=
    UpdateGoalProgress_ok "u1" "g1"
      (Except.ok { Amount := some (-1000), SetAbsolute := some false }) sampleDB
      (GoalsHandler.UpdateGoalProgress "u1" "g1"
        (Except.ok { Amount := some (-1000), SetAbsolute := some false }) sampleDB).2
      (GoalsHandler.UpdateGoalProgress "u1" "g1"
        (Except.ok { Amount := some (-1000), SetAbsolute := some false }) sampleDB).1 rfl hok
  simp only [bindProgressUpdate, Except.ok.injEq, Prod.mk.injEq] at hbind
  obtain ⟨ha, hsa⟩ := hbind
  subst ha hsa
  have hgoal : goal = sampleGoal := by
    have : sampleDB.stored "g1" = some sampleGoal := rfl
    rw [this] at hst
    exact (Option.some.inj hst).symm
  subst hgoal
  refine ⟨hok, _, hnew, ?_⟩
  show ¬ ((applyProgress (-1000) (some false) sampleGoal).CurrentAmount
      ≥ sampleGoal.CurrentAmount
    ∨ (applyProgress (-1000) (some false) sampleGoal).CurrentAmount
      ≥ (applyProgress (-1000) (some false) sampleGoal).TargetAmount)
  rw [applyProgress_amount, (applyProgress_frame _ _ _).2.2.2.2]
  norm_num [sampleGoal]

/-- C6, amended: a successful change of current_amount never stores a
negative amount.  After a successful `UpdateGoalProgress` the stored amount
is >= the previous one when the update is additive with an amount >= 0, and
when it is absolute with an amount >= the previous one; after a successful
`UpdateGoal` that supplies current_amount the stored amount is the supplied
one, which is >= 0. -/
theorem C6_current_amount_change (userID goalID : String) (db : DB) (goal : Goal)
    (hstored : db.stored goalID = some goal) :
    (∀ a setAbsolute db2 resp,
      GoalsHandler.UpdateGoalProgress userID goalID
          (Except.ok { Amount := some a, SetAbsolute := setAbsolute }) db = (resp, db2) →
      resp.status = StatusOK →
      ∃ g, db2.stored goalID = some g
        ∧ 0 ≤ g.CurrentAmount
        ∧ (setAbsolute ≠ some true → 0 ≤ a → goal.CurrentAmount ≤ g.CurrentAmount)
        ∧ (setAbsolute = some true → goal.CurrentAmount ≤ a →
            goal.CurrentAmount ≤ g.CurrentAmount))
    ∧ (∀ req c db2 resp,
        req.CurrentAmount = some c →
        GoalsHandler.UpdateGoal userID goalID (Except.ok req) db = (resp, db2) →
        resp.status = StatusOK →
        ∃ g, db2.stored goalID = some g ∧ g.CurrentAmount = c ∧ 0 ≤ c) := by
  constructor
  · intro a setAbsolute db2 resp hrun hok
    obtain ⟨amount, sa, goal1, hbind, hst, _, hnew, _⟩ :=
      UpdateGoalProgress_ok userID goalID _ db db2 resp hrun hok
    simp only [bindProgressUpdate, Except.ok.injEq, Prod.mk.injEq] at hbind
    obtain ⟨ha, hsa⟩ := hbind
    subst ha hsa
    rw [hstored] at hst
    simp only [Option.some.injEq] at hst
    subst hst
    refine ⟨_, hnew, ?_, ?_, ?_⟩
    · show 0 ≤ (applyProgress a setAbsolute goal).CurrentAmount
      rw [applyProgress_amount]
      split_ifs <;> exact le_max_left _ _
    · intro h ha
      show goal.CurrentAmount ≤ (applyProgress a setAbsolute goal).CurrentAmount
      rw [applyProgress_amount, if_neg h]
      exact le_trans (by linarith) (le_max_right _ _)
    · intro h ha
      show goal.CurrentAmount ≤ (applyProgress a setAbsolute goal).CurrentAmount
      rw [applyProgress_amount, if_pos h]
      exact le_trans ha (le_max_right _ _)
  · intro req c db2 resp hc hrun hok
    obtain ⟨req1, goal1, g1, hreq, hst, _, happ, hnew, _⟩ :=
      UpdateGoal_ok userID goalID _ db db2 resp hrun hok
    simp only [Except.ok.injEq] at hreq
    subst hreq
    obtain ⟨_, _, _, _, _, _, hcur, hnonneg, _⟩ := applyUpdateGoal_ok _ _ _ happ
    refine ⟨_, hnew, ?_, hnonneg c hc⟩
    show g1.CurrentAmount = c
    rw [hcur, hc]
    rfl

/-- Witness of C6 (amended): on the sample goal (500 of 1000) an additive
progress update of 200 is answered with 200 and does not lower the amount. -/
theorem C6_current_amount_change_witness :
    sampleDB.stored "g1" = some sampleGoal
      ∧ (GoalsHandler.UpdateGoalProgress "u1" "g1"
          (Except.ok { Amount := some 200, SetAbsolute := none }) sampleDB).1.status = StatusOK
      ∧ Option.map (fun g => decide (sampleGoal.CurrentAmount ≤ g.CurrentAmount))
          ((GoalsHandler.UpdateGoalProgress "u1" "g1"
            (Except.ok { Amount := some 200, SetAbsolute := none }) sampleDB).2.stored "g1")
          = some true := by
  have hok := UpdateGoalProgress_succeeds "u1" "g1" 200 none sampleDB sampleGoal rfl rfl rfl
  obtain ⟨g, hg, _, hadd, _⟩ :=
    (C6_current_amount_change "u1" "g1" sampleDB sampleGoal rfl).1 200 none
      (GoalsHandler.UpdateGoalProgress "u1" "g1"
        (Except.ok { Amount := some 200, SetAbsolute := none }) sampleDB).2
      (GoalsHandler.UpdateGoalProgress "u1" "g1"
        (Except.ok { Amount := some 200, SetAbsolute := none }) sampleDB).1
      rfl hok
  refine ⟨rfl, hok, ?_⟩
  rw [hg, Option.map_some']
  simp only [Option.some.injEq, decide_eq_true_eq]
  exact hadd (by decide) (by norm_num)

/-- The month and year checks of the report handlers, by cases: they fail on
the month, or pass the month and fail on the year, or pass both. -/
theorem parseMonthYear_cases (clock : Clock) (q : QueryParams) :
    (intIn (monthStr clock q) 1 12 = false ∧ parseMonthYear clock q = Except.error invalidMonth)
    ∨ (intIn (monthStr clock q) 1 12 = true ∧ intIn (yearStr clock q) 1900 2100 = false
        ∧ parseMonthYear clock q = Except.error invalidYear)
    ∨ (∃ m y, Atoi (monthStr clock q) = some m ∧ 1 ≤ m ∧ m ≤ 12
        ∧ Atoi (yearStr clock q) = some y ∧ 1900 ≤ y ∧ y ≤ 2100
        ∧ intIn (monthStr clock q) 1 12 = true ∧ intIn (yearStr clock q) 1900 2100 = true
        ∧ parseMonthYear clock q = Except.ok (m, y)) := by
  unfold parseMonthYear intIn
  cases hm : Atoi (monthStr clock q) with
  | none => left; exact ⟨rfl, rfl⟩
  | some m =>
    simp only
    by_cases hmr : m < 1 ∨ m > 12
    · left
      rw [if_pos hmr]
      refine ⟨?_, rfl⟩
      rcases hmr with h | h
      · simp [not_le.mpr h]
      · simp [not_le.mpr h]
    · rw [if_neg hmr]
      rw [not_or, not_lt, not_lt] at hmr
      have hmin : (decide (1 ≤ m) && decide (m ≤ 12)) = true := by simp [hmr.1, hmr.2]
      right
      cases hy : Atoi (yearStr clock q) with
      | none => left; exact ⟨hmin, rfl, rfl⟩
      | some y =>
        simp only
        by_cases hyr : y < 1900 ∨ y > 2100
        · left
          rw [if_pos hyr]
          refine ⟨hmin, ?_, rfl⟩
          rcases hyr with h | h
          · simp [not_le.mpr h]
          · simp [not_le.mpr h]
        · rw [if_neg hyr]
          rw [not_or, not_lt, not_lt] at hyr
          right
          exact ⟨m, y, rfl, hmr.1, hmr.2, rfl, hyr.1, hyr.2, hmin,
            by simp [hyr.1, hyr.2], rfl⟩

/-- C7: `GetMonthlySummary` answers 400 and queries nothing iff the month
parameter is not an integer in 1..12 or the year parameter is not an integer
in 1900..2100.  An invalid month gives "Invalid month parameter. Must be
between 1 and 12" whatever the year is; a valid month with an invalid year
gives the year error; with both valid the repository is asked once, for
exactly that user, month and year.  In particular month=13 gives the month
error, and year=1899 gives 400. -/
theorem C7_monthly_summary_validation (repo : ReportsRepositories) (clock : Clock)
    (userID : String) (q : QueryParams) :
    (intIn (monthStr clock q) 1 12 = false →
      ReportsHandler.GetMonthlySummary repo clock userID q
        = ({ status := 400,
             body := Body.error "Invalid month parameter. Must be between 1 and 12" none }, []))
    ∧ (intIn (monthStr clock q) 1 12 = true → intIn (yearStr clock q) 1900 2100 = false →
        ReportsHandler.GetMonthlySummary repo clock userID q
          = ({ status := 400,
               body := Body.error "Invalid year parameter. Must be between 1900 and 2100" none },
             []))
    ∧ (∀ m y, Atoi (monthStr clock q) = some m → 1 ≤ m → m ≤ 12 →
        Atoi (yearStr clock q) = some y → 1900 ≤ y → y ≤ 2100 →
        (ReportsHandler.GetMonthlySummary repo clock userID q).2
            = [RepoCall.GetMonthlySummary userID m y]
          ∧ (ReportsHandler.GetMonthlySummary repo clock userID q).1.status ≠ 400)
    ∧ (((ReportsHandler.GetMonthlySummary repo clock userID q).1.status = 400
          ∧ (ReportsHandler.GetMonthlySummary repo clock userID q).2 = [])
        ↔ (intIn (monthStr clock q) 1 12 = false ∨ intIn (yearStr clock q) 1900 2100 = false))
    ∧ (q.lookup "month" = some "13" →
        ReportsHandler.GetMonthlySummary repo clock userID q
          = ({ status := 400,
               body := Body.error "Invalid month parameter. Must be between 1 and 12" none },
             []))
    ∧ (q.lookup "year" = some "1899" →
        (ReportsHandler.GetMonthlySummary repo clock userID q).1.status = 400
          ∧ (ReportsHandler.GetMonthlySummary repo clock userID q).2 = []) := by
  have hbadM : intIn (monthStr clock q) 1 12 = false →
      ReportsHandler.GetMonthlySummary repo clock userID q = (invalidMonth, []) := by
    intro h
    unfold ReportsHandler.GetMonthlySummary
    rcases parseMonthYear_cases clock q with ⟨_, hp⟩ | ⟨hm, _, _⟩ | ⟨_, _, _, _, _, _, _, _, hm, _, _⟩
    · rw [hp]
    · rw [h] at hm; exact absurd hm (by decide)
    · rw [h] at hm; exact absurd hm (by decide)
  have hbadY : intIn (monthStr clock q) 1 12 = true → intIn (yearStr clock q) 1900 2100 = false →
      ReportsHandler.GetMonthlySummary repo clock userID q = (invalidYear, []) := by
    intro h1 h2
    unfold ReportsHandler.GetMonthlySummary
    rcases parseMonthYear_cases clock q with ⟨hm, _⟩ | ⟨_, _, hp⟩ | ⟨_, _, _, _, _, _, _, _, _, hy, _⟩
    · rw [h1] at hm; exact absurd hm (by decide)
    · rw [hp]
    · rw [h2] at hy; exact absurd hy (by decide)
  have hgood : ∀ m y, Atoi (monthStr clock q) = some m → 1 ≤ m → m ≤ 12 →
      Atoi (yearStr clock q) = some y → 1900 ≤ y → y ≤ 2100 →
      (ReportsHandler.GetMonthlySummary repo clock userID q).2
          = [RepoCall.GetMonthlySummary userID m y]
        ∧ (ReportsHandler.GetMonthlySummary repo clock userID q).1.status ≠ 400 := by
    intro m y hm h1 h2 hy h3 h4
    have hp : parseMonthYear clock q = Except.ok (m, y) := by
      unfold parseMonthYear
      rw [hm]
      simp only
      rw [if_neg (by omega), hy]
      simp only
      rw [if_neg (by omega)]
    unfold ReportsHandler.GetMonthlySummary
    rw [hp]
    simp only
    cases repo.GetMonthlySummary userID m y with
    | error e => exact ⟨rfl, by simp [StatusInternalServerError]⟩
    | ok summary => exact ⟨rfl, by simp [StatusOK]⟩
  refine ⟨hbadM, hbadY, hgood, ?_, ?_, ?_⟩
  · constructor
    · intro ⟨hs, hc⟩
      rcases parseMonthYear_cases clock q with ⟨hm, _⟩ | ⟨_, hy, _⟩
        | ⟨m, y, hm, h1, h2, hy, h3, h4, _, _, _⟩
      · exact Or.inl hm
      · exact Or.inr hy
      · exact absurd hs (hgood m y hm h1 h2 hy h3 h4).2
    · intro h
      by_cases hm : intIn (monthStr clock q) 1 12 = false
      · rw [hbadM hm]; exact ⟨rfl, rfl⟩
      · rw [Bool.not_eq_false] at hm
        rcases h with h | h
        · rw [hm] at h; exact absurd h (by decide)
        · rw [hbadY hm h]; exact ⟨rfl, rfl⟩
  · intro h
    apply hbadM
    have : monthStr clock q = "13" := by
      unfold monthStr DefaultQuery
      rw [h]
    rw [this]
    decide
  · intro h
    have hy : intIn (yearStr clock q) 1900 2100 = false := by
      have : yearStr clock q = "1899" := by
        unfold yearStr DefaultQuery
        rw [h]
      rw [this]
      decide
    by_cases hm : intIn (monthStr clock q) 1 12 = false
    · rw [hbadM hm]; exact ⟨rfl, rfl⟩
    · rw [Bool.not_eq_false] at hm
      rw [hbadY hm hy]; exact ⟨rfl, rfl⟩

/-- With both dates supplied and well-formed, the range of `GetCashFlow` is
the pair of the parsed dates. -/
theorem cashFlowRange_parsed (clock : Clock) (q : QueryParams) (ts te : Time)
    (hs : parseDate (Query q "start_date") = some ts)
    (he : parseDate (Query q "end_date") = some te) :
    cashFlowRange clock q = Except.ok (ts, te) := by
  have hempty : parseDate "" = none := by decide
  have h1 : Query q "start_date" ≠ "" := by
    intro h
    rw [h, hempty] at hs
    exact absurd hs (by simp)
  have h2 : Query q "end_date" ≠ "" := by
    intro h
    rw [h, hempty] at he
    exact absurd he (by simp)
  unfold cashFlowRange
  simp only [if_pos h1, if_pos h2, hs, he]

/-- The answer of `GetCashFlow` on a parsed range, by cases on the range. -/
theorem GetCashFlow_parsed (repo : ReportsRepositories) (clock : Clock) (userID : String)
    (q : QueryParams) (ts te : Time)
    (hs : parseDate (Query q "start_date") = some ts)
    (he : parseDate (Query q "end_date") = some te) :
    (te < ts ∧ ReportsHandler.GetCashFlow repo clock userID q
        = (badRequest "end_date must be after start_date", []))
    ∨ (ts ≤ te ∧ te - ts > 365 * 24 * Hour
        ∧ ReportsHandler.GetCashFlow repo clock userID q
          = (badRequest "Date range cannot exceed 365 days", []))
    ∨ (ts ≤ te ∧ te - ts ≤ 365 * 24 * Hour
        ∧ (ReportsHandler.GetCashFlow repo clock userID q).2
            = [RepoCall.GetCashFlow userID ts te]
        ∧ ((ReportsHandler.GetCashFlow repo clock userID q).1.status = StatusOK
            ∨ (ReportsHandler.GetCashFlow repo clock userID q).1.status
                = StatusInternalServerError)) := by
  unfold ReportsHandler.GetCashFlow
  rw [cashFlowRange_parsed clock q ts te hs he]
  simp only [Time.Before, decide_eq_true_eq]
  by_cases hlt : te < ts
  · left
    rw [if_pos hlt]
    exact ⟨hlt, rfl⟩
  · right
    rw [if_neg hlt]
    have hle : ts ≤ te := not_lt.mp hlt
    by_cases hlong : te - ts > 365 * 24 * Hour
    · left
      have hsub : Time.Sub te ts > 365 * 24 * Hour := by
        unfold Time.Sub maxDuration minDuration
        unfold Hour Second at *
        simp only [Duration, Time] at *
        split_ifs <;> omega
      rw [if_pos hsub]
      exact ⟨hle, hlong, rfl⟩
    · right
      have hsub : ¬ Time.Sub te ts > 365 * 24 * Hour := by
        unfold Time.Sub maxDuration minDuration
        unfold Hour Second at *
        simp only [Duration, Time] at *
        split_ifs <;> omega
      rw [if_neg hsub]
      refine ⟨hle, not_lt.mp hlong, ?_⟩
      cases repo.GetCashFlow userID ts te with
      | error e => exact ⟨rfl, Or.inr rfl⟩
      | ok cf => exact ⟨rfl, Or.inl rfl⟩

/-- C8: for every pair of well-formed YYYY-MM-DD dates, `GetCashFlow` answers
400 "end_date must be after start_date" iff end_date precedes start_date,
and then queries nothing; a range whose end_date equals its start_date is
not rejected by this check. -/
theorem C8_cash_flow_end_before_start (repo : ReportsRepositories) (clock : Clock)
    (userID : String) (q : QueryParams) (ts te : Time)
    (hs : parseDate (Query q "start_date") = some ts)
    (he : parseDate (Query q "end_date") = some te) :
    ((ReportsHandler.GetCashFlow repo clock userID q).1
        = { status := 400, body := Body.error "end_date must be after start_date" none }
      ↔ te < ts)
    ∧ (te < ts → (ReportsHandler.GetCashFlow repo clock userID q).2 = [])
    ∧ (te = ts →
        (ReportsHandler.GetCashFlow repo clock userID q).1
          ≠ { status := 400, body := Body.error "end_date must be after start_date" none }) := by
  have hiff : (ReportsHandler.GetCashFlow repo clock userID q).1
        = { status := 400, body := Body.error "end_date must be after start_date" none }
      ↔ te < ts := by
    rcases GetCashFlow_parsed repo clock userID q ts te hs he with
      ⟨hlt, hr⟩ | ⟨hle, _, hr⟩ | ⟨hle, _, _, hst⟩
    · rw [hr]
      exact ⟨fun _ => hlt, fun _ => rfl⟩
    · rw [hr]
      constructor
      · intro h
        simp [badRequest] at h
      · intro h
        exact absurd h (not_lt.mpr hle)
    · constructor
      · intro h
        rw [h] at hst
        rcases hst with h1 | h1
        · exact absurd h1 (by decide)
        · exact absurd h1 (by decide)
      · intro h
        exact absurd h (not_lt.mpr hle)
  refine ⟨hiff, ?_, ?_⟩
  · intro hlt
    rcases GetCashFlow_parsed repo clock userID q ts te hs he with
      ⟨_, hr⟩ | ⟨hle, _, _⟩ | ⟨hle, _, _, _⟩
    · rw [hr]
    · exact absurd hlt (not_lt.mpr hle)
    · exact absurd hlt (not_lt.mpr hle)
  · intro heq h
    have := hiff.mp h
    rw [heq] at this
    exact lt_irrefl _ this

/-- Witness of C8: start_date=2024-12-31 with end_date=2024-01-01 gives 400
"end_date must be after start_date". -/
theorem C8_cash_flow_end_before_start_witness :
    parseDate (Query reversedRange "start_date") = some 1735603200000000000
      ∧ parseDate (Query reversedRange "end_date") = some 1704067200000000000
      ∧ (ReportsHandler.GetCashFlow failingRepo sampleClock "u1" reversedRange).1
          = { status := 400, body := Body.error "end_date must be after start_date" none } :=
  ⟨by decide, by decide,
    (C8_cash_flow_end_before_start failingRepo sampleClock "u1" reversedRange
      1735603200000000000 1704067200000000000 (by decide) (by decide)).1.mpr (by decide)⟩

/-- C9: the cash-flow range is capped at 365 days.  For every pair of
well-formed dates with end_date not before start_date, `GetCashFlow` answers
400 "Date range cannot exceed 365 days" iff end_date - start_date is more
than 365 days, and then queries nothing; a range of exactly 365 days is
accepted (the repository is asked for it) and one of 366 days is rejected. -/
theorem C9_cash_flow_range_cap (repo : ReportsRepositories) (clock : Clock)
    (userID : String) (q : QueryParams) (ts te : Time)
    (hs : parseDate (Query q "start_date") = some ts)
    (he : parseDate (Query q "end_date") = some te)
    (hle : ts ≤ te) :
    ((ReportsHandler.GetCashFlow repo clock userID q).1
        = { status := 400, body := Body.error "Date range cannot exceed 365 days" none }
      ↔ te - ts > 365 * (24 * Hour))
    ∧ (te - ts > 365 * (24 * Hour) → (ReportsHandler.GetCashFlow repo clock userID q).2 = [])
    ∧ (te - ts = 365 * (24 * Hour) →
        (ReportsHandler.GetCashFlow repo clock userID q).2 = [RepoCall.GetCashFlow userID ts te]
          ∧ (ReportsHandler.GetCashFlow repo clock userID q).1.status ≠ 400)
    ∧ (te - ts = 366 * (24 * Hour) →
        ReportsHandler.GetCashFlow repo clock userID q
          = ({ status := 400, body := Body.error "Date range cannot exceed 365 days" none },
             [])) := by
  have hassoc : (365 : Int) * (24 * Hour) = 365 * 24 * Hour := by ring
  rw [hassoc]
  rcases GetCashFlow_parsed repo clock userID q ts te hs he with
    ⟨hlt, _⟩ | ⟨_, hlong, hr⟩ | ⟨_, hshort, hcalls, hst⟩
  · exact absurd hlt (not_lt.mpr hle)
  · rw [hr]
    refine ⟨⟨fun _ => hlong, fun _ => rfl⟩, fun _ => rfl, ?_, fun _ => rfl⟩
    intro h
    rw [h] at hlong
    exact absurd hlong (lt_irrefl _)
  · refine ⟨⟨?_, ?_⟩, ?_, ?_, ?_⟩
    · intro h
      rw [h] at hst
      rcases hst with h1 | h1
      · exact absurd h1 (by decide)
      · exact absurd h1 (by decide)
    · intro h
      exact absurd h (not_lt.mpr hshort)
    · intro h
      exact absurd h (not_lt.mpr hshort)
    · intro _
      refine ⟨hcalls, ?_⟩
      rcases hst with h1 | h1
      · rw [h1]; decide
      · rw [h1]; decide
    · intro h
      exfalso
      rw [h] at hshort
      norm_num [Hour, Second] at hshort

/-- Witness of C9: 2023-01-01 to 2024-01-01 is 365 days and is passed on to
the repository; 2023-01-01 to 2024-01-02 is 366 days and is rejected. -/
theorem C9_cash_flow_range_cap_witness :
    (ReportsHandler.GetCashFlow failingRepo sampleClock "u1" range365).2
        = [RepoCall.GetCashFlow "u1" 1672531200000000000 1704067200000000000]
      ∧ ReportsHandler.GetCashFlow failingRepo sampleClock "u1" range366
        = ({ status := 400, body := Body.error "Date range cannot exceed 365 days" none }, []) :=
  ⟨((C9_cash_flow_range_cap failingRepo sampleClock "u1" range365
      1672531200000000000 1704067200000000000 (by decide) (by decide) (by decide)).2.2.1
        (by decide)).1,
   (C9_cash_flow_range_cap failingRepo sampleClock "u1" range366
      1672531200000000000 1704153600000000000 (by decide) (by decide) (by decide)).2.2.2
        (by decide)⟩

/-- A failed read of the transactions ends the budget loop with status 500. -/
theorem budgetLoop_error (repo : ReportsRepositories) (userID : String)
    (startDate endDate : Time) (budgets : List Budget) :
    ∀ (n : Nat) (acc : PerformanceAcc) (resp : Response) (calls : List RepoCall),
      budgetLoop repo userID startDate endDate n budgets acc = (Except.error resp, calls) →
      resp.status = StatusInternalServerError := by
  induction budgets with
  | nil =>
    intro n acc resp calls h
    simp [budgetLoop] at h
  | cons b rest ih =>
    intro n acc resp calls h
    unfold budgetLoop at h
    cases hread : repo.GetTransactionsByDateRange n userID startDate endDate with
    | error e =>
      rw [hread] at h
      simp only [Prod.mk.injEq, Except.error.injEq] at h
      rw [← h.1]
    | ok transactions =>
      rw [hread] at h
      simp only [Prod.mk.injEq] at h
      exact ih (n + 1) _ resp _ (Prod.ext h.1 rfl)

/-! ## Budget performance: sums -/

theorem categorySpending_foldl (budget : Budget) (transactions : List Transaction) (acc : ℚ) :
    transactions.foldl
        (fun acc transaction =>
          if transaction.CategoryID = some budget.CategoryID
              ∧ transaction.TransactionType = "expense" then
            acc + transaction.Amount
          else acc)
        acc
      = acc + ((transactions.filter (countsFor budget)).map (fun t => t.Amount)).sum := by
  induction transactions generalizing acc with
  | nil => simp
  | cons t rest ih =>
    rw [List.foldl_cons, ih]
    by_cases h : t.CategoryID = some budget.CategoryID ∧ t.TransactionType = "expense"
    · have hc : countsFor budget t = true := by
        simp [countsFor, h.1, h.2]
      rw [if_pos h, List.filter_cons_of_pos hc, List.map_cons, List.sum_cons]
      ring
    · have hc : ¬ countsFor budget t = true := by
        simp only [countsFor, Bool.and_eq_true, decide_eq_true_eq]
        exact h
      rw [if_neg h, List.filter_cons_of_neg hc]

/-- The spending of a budget is the sum of the amounts of the transactions
that count for it. -/
theorem categorySpending_eq_sum (budget : Budget) (transactions : List Transaction) :
    categorySpending budget transactions
      = ((transactions.filter (countsFor budget)).map (fun t => t.Amount)).sum := by
  unfold categorySpending
  rw [categorySpending_foldl, zero_add]

/-- The status of a budget is "over_budget" exactly when it is over budget,
whatever the percentage. -/
theorem budgetStatus_over (over : Bool) (x : F64) :
    budgetStatus over x = "over_budget" ↔ over = true := by
  unfold budgetStatus
  cases over
  · simp only [Bool.false_eq_true, if_false, iff_false]
    split_ifs <;> decide
  · simp

/-- A 200 answer of `GetBudgetPerformance`, taken apart: the parameters
passed the checks, the budgets were read, the loop ended normally, and the
report is built from its final variables. -/
theorem GetBudgetPerformance_report (repo : ReportsRepositories) (clock : Clock)
    (userID : String) (q : QueryParams) (r : BudgetPerformanceReport)
    (hrun : (ReportsHandler.GetBudgetPerformance repo clock userID q).1
      = { status := StatusOK, body := Body.budgetPerformance r }) :
    ∃ month year budgets acc calls,
      parseMonthYear clock q = Except.ok (month, year)
      ∧ repo.GetBudgetsByUserID userID = Except.ok budgets
      ∧ budgetLoop repo userID (Date year month 1 0 0 0)
          (((Date year month 1 0 0 0).AddDate 0 1 0).Add (-Second)) 0 budgets
          { budgetPerformance := [], totalBudgeted := 0, totalSpent := 0, overBudgetCount := 0 }
          = (Except.ok acc, calls)
      ∧ r = { user_id := userID
              month := month
              year := year
              budget_performance := acc.budgetPerformance
              overall_performance := overallPerformance budgets acc
              generated_at := clock.now } := by
  unfold ReportsHandler.GetBudgetPerformance at hrun
  split at hrun
  · rename_i resp hp
    have h400 : resp.status = StatusBadRequest := by
      rcases parseMonthYear_cases clock q with ⟨_, h⟩ | ⟨_, _, h⟩ | ⟨_, _, _, _, _, _, _, _, _, _, h⟩
      · rw [hp] at h; simp only [Except.error.injEq] at h; rw [h]; rfl
      · rw [hp] at h; simp only [Except.error.injEq] at h; rw [h]; rfl
      · rw [hp] at h; simp at h
    simp only at hrun
    rw [hrun] at h400
    simp [StatusOK, StatusBadRequest] at h400
  · rename_i month year hp
    simp only at hrun
    cases hb : repo.GetBudgetsByUserID userID with
    | error e =>
      rw [hb] at hrun
      simp [StatusInternalServerError, StatusOK] at hrun
    | ok budgets =>
      rw [hb] at hrun
      simp only at hrun
      split at hrun
      · rename_i resp calls hloop
        have h500 := budgetLoop_error repo userID _ _ budgets 0 _ resp calls hloop
        simp only at hrun
        rw [hrun] at h500
        simp [StatusOK, StatusInternalServerError] at h500
      · rename_i acc calls hloop
        simp only [Response.mk.injEq, Body.budgetPerformance.injEq, true_and] at hrun
        exact ⟨month, year, budgets, acc, calls, hp, rfl, hloop, hrun.symm⟩

/-- The totals of the budget loop: what it adds to the running totals is the
sum over the entries it appends, and it appends one entry per budget, with
the amount of that budget. -/
theorem budgetLoop_totals (repo : ReportsRepositories) (userID : String)
    (startDate endDate : Time) (budgets : List Budget) :
    ∀ (n : Nat) (acc acc1 : PerformanceAcc) (calls : List RepoCall),
      budgetLoop repo userID startDate endDate n budgets acc = (Except.ok acc1, calls) →
      ∃ items, acc1.budgetPerformance = acc.budgetPerformance ++ items
        ∧ items.map (fun item => item.budgeted_amount) = budgets.map (fun b => b.Amount)
        ∧ acc1.totalBudgeted
            = acc.totalBudgeted + (items.map (fun item => item.budgeted_amount)).sum
        ∧ acc1.totalSpent = acc.totalSpent + (items.map (fun item => item.spent_amount)).sum
        ∧ acc1.overBudgetCount
            = acc.overBudgetCount + ((items.filter (fun item => item.is_over_budget)).length : Int)
        ∧ (∀ item ∈ items,
            item.remaining = item.budgeted_amount - item.spent_amount
            ∧ item.is_over_budget = decide (item.spent_amount > item.budgeted_amount)
            ∧ item.status = budgetStatus item.is_over_budget item.percentage_used) := by
  induction budgets with
  | nil =>
    intro n acc acc1 calls h
    simp only [budgetLoop, Prod.mk.injEq, Except.ok.injEq] at h
    refine ⟨[], ?_, ?_, ?_, ?_, ?_, ?_⟩ <;> simp [← h.1]
  | cons b rest ih =>
    intro n acc acc1 calls h
    unfold budgetLoop at h
    cases hread : repo.GetTransactionsByDateRange n userID startDate endDate with
    | error e =>
      rw [hread] at h
      simp at h
    | ok transactions =>
      rw [hread] at h
      simp only [Prod.mk.injEq] at h
      obtain ⟨h1, h2⟩ := h
      obtain ⟨items, hitems, hamounts, htb, hts, hobc, hall⟩ :=
        ih (n + 1) _ acc1 _ (Prod.ext h1 rfl)
      simp only at hitems htb hts hobc
      refine ⟨budgetPerformanceItem b (categorySpending b transactions) :: items,
        ?_, ?_, ?_, ?_, ?_, ?_⟩
      · rw [hitems]; simp
      · rw [List.map_cons, List.map_cons, hamounts]; rfl
      · rw [htb, List.map_cons, List.sum_cons]
        show acc.totalBudgeted + b.Amount + _ = acc.totalBudgeted + (b.Amount + _)
        ring
      · rw [hts, List.map_cons, List.sum_cons]
        show acc.totalSpent + categorySpending b transactions + _
          = acc.totalSpent + (categorySpending b transactions + _)
        ring
      · rw [hobc]
        by_cases hover : (budgetPerformanceItem b (categorySpending b transactions)).is_over_budget
            = true
        · rw [if_pos hover, List.filter_cons_of_pos hover, List.length_cons]
          push_cast
          ring
        · rw [if_neg hover, List.filter_cons_of_neg hover]
      · intro item hmem
        rcases List.mem_cons.mp hmem with heq | hmem
        · subst heq
          exact ⟨rfl, rfl, rfl⟩
        · exact hall item hmem

/-- The budget loop when every read of the transactions gives the same
list: it ends normally, with one entry per budget and the sums over them. -/
theorem budgetLoop_const (repo : ReportsRepositories) (userID : String)
    (startDate endDate : Time) (transactions : List Transaction)
    (hread : ∀ n, repo.GetTransactionsByDateRange n userID startDate endDate
      = Except.ok transactions)
    (budgets : List Budget) :
    ∀ (n : Nat) (acc : PerformanceAcc),
      (budgetLoop repo userID startDate endDate n budgets acc).1
        = Except.ok
            { budgetPerformance := acc.budgetPerformance
                ++ budgets.map (fun b => budgetPerformanceItem b (categorySpending b transactions))
              totalBudgeted := acc.totalBudgeted + (budgets.map (fun b => b.Amount)).sum
              totalSpent := acc.totalSpent
                + (budgets.map (fun b => categorySpending b transactions)).sum
              overBudgetCount := acc.overBudgetCount
                + (((budgets.map
                      (fun b => budgetPerformanceItem b (categorySpending b transactions))).filter
                    (fun item => item.is_over_budget)).length : Int) } := by
  induction budgets with
  | nil =>
    intro n acc
    simp [budgetLoop]
  | cons b rest ih =>
    intro n acc
    unfold budgetLoop
    rw [hread n]
    simp only
    rw [ih (n + 1)]
    simp only [Except.ok.injEq, PerformanceAcc.mk.injEq, List.map_cons, List.sum_cons,
      List.append_assoc, List.singleton_append, true_and]
    refine ⟨by ring, by ring, ?_⟩
    by_cases hover : (budgetPerformanceItem b (categorySpending b transactions)).is_over_budget
        = true
    · rw [if_pos hover, List.filter_cons_of_pos hover, List.length_cons]
      push_cast
      ring
    · rw [if_neg hover, List.filter_cons_of_neg hover]

/-- The answer of `GetBudgetPerformance` when the parameters pass the
checks, the budgets are read and every read of the transactions of the month
gives the same list: 200, with one entry per budget and the roll-up over
them. -/
theorem GetBudgetPerformance_const (repo : ReportsRepositories) (clock : Clock)
    (userID : String) (q : QueryParams) (month year : Int) (budgets : List Budget)
    (transactions : List Transaction)
    (hp : parseMonthYear clock q = Except.ok (month, year))
    (hb : repo.GetBudgetsByUserID userID = Except.ok budgets)
    (hread : ∀ n, repo.GetTransactionsByDateRange n userID (Date year month 1 0 0 0)
      (((Date year month 1 0 0 0).AddDate 0 1 0).Add (-Second)) = Except.ok transactions) :
    (ReportsHandler.GetBudgetPerformance repo clock userID q).1
      = { status := StatusOK
          body := Body.budgetPerformance
            { user_id := userID
              month := month
              year := year
              budget_performance :=
                budgets.map (fun b => budgetPerformanceItem b (categorySpending b transactions))
              overall_performance :=
                overallPerformance budgets
                  { budgetPerformance := budgets.map
                      (fun b => budgetPerformanceItem b (categorySpending b transactions))
                    totalBudgeted := (budgets.map (fun b => b.Amount)).sum
                    totalSpent := (budgets.map (fun b => categorySpending b transactions)).sum
                    overBudgetCount :=
                      (((budgets.map
                          (fun b => budgetPerformanceItem b
                            (categorySpending b transactions))).filter
                        (fun item => item.is_over_budget)).length : Int) }
              generated_at := clock.now } } := by
  have hloop := budgetLoop_const repo userID _ _ transactions hread budgets 0
    { budgetPerformance := [], totalBudgeted := 0, totalSpent := 0, overBudgetCount := 0 }
  simp only [List.nil_append, zero_add] at hloop
  unfold ReportsHandler.GetBudgetPerformance
  rw [hp]
  simp only
  rw [hb]
  simp only
  rcases hl : budgetLoop repo userID (Date year month 1 0 0 0)
      (((Date year month 1 0 0 0).AddDate 0 1 0).Add (-Second)) 0 budgets
      { budgetPerformance := [], totalBudgeted := 0, totalSpent := 0, overBudgetCount := 0 }
    with ⟨res, calls⟩
  rw [hl] at hloop
  simp only at hloop
  subst hloop
  rfl

/-- The status of a budget is one of three labels; it is "under_budget" or
"at_risk" exactly when the budget is not over. -/
theorem budgetStatus_not_over (over : Bool) (x : F64) :
    (budgetStatus over x = "under_budget" ∨ budgetStatus over x = "at_risk") ↔ over = false := by
  unfold budgetStatus
  cases over
  · simp only [Bool.false_eq_true, if_false, iff_true]
    split_ifs
    · right; rfl
    · left; rfl
  · simp

theorem length_sub_filter {α : Type} (p : α → Bool) (l : List α) :
    (l.length : Int) - ((l.filter p).length : Int) = ((l.filter (fun x => !p x)).length : Int) := by
  induction l with
  | nil => simp
  | cons a rest ih =>
    cases h : p a
    · simp only [List.filter_cons, h, Bool.false_eq_true, if_false, Bool.not_false, if_true,
        List.length_cons]
      omega
    · simp only [List.filter_cons, h, Bool.not_true, Bool.false_eq_true, if_false, if_true,
        List.length_cons]
      omega

theorem parseMonthYear_january2024 (clock : Clock) :
    parseMonthYear clock january2024 = Except.ok (1, 2024) := by
  rfl

/-- The spending of the sample budget on the sample read is 100. -/
theorem categorySpending_sample : categorySpending budget100 [foodExpense100] = 100 := by
  rw [categorySpending_eq_sum]
  have h : countsFor budget100 foodExpense100 = true := by decide
  rw [List.filter_cons_of_pos h]
  simp [foodExpense100]

/-- The entry of the sample budget on the sample read: 100 of 100 spent,
"at_risk", not over budget. -/
theorem sample_entry :
    (budgetPerformanceItem budget100 (categorySpending budget100 [foodExpense100])).status
        = "at_risk"
      ∧ (budgetPerformanceItem budget100
          (categorySpending budget100 [foodExpense100])).is_over_budget = false := by
  rw [categorySpending_sample]
  have hB : (0 : ℚ) < budget100.Amount := by norm_num [budget100]
  constructor
  · simp only [budgetPerformanceItem, F64_div_of_pos _ _ hB, F64.mulPos, budgetStatus, F64.ge]
    norm_num [budget100]
  · simp only [budgetPerformanceItem]
    norm_num [budget100]

/-- C13, counterexample: for the sample repository (one budget of 100 with
100 spent, status "at_risk") the answer is 200 with on_track_count = 1, while
no entry has the status "under_budget". -/
theorem C13_counterexample :
    (ReportsHandler.GetBudgetPerformance spentRepo sampleClock "u1" january2024).1.status
        = StatusOK
      ∧ Option.map
          (fun r => (r.overall_performance.on_track_count,
            ((r.budget_performance.filter
              (fun item => decide (item.status = "under_budget"))).length : Int),
            r.budget_performance.map (fun item => item.status)))
          (ReportsHandler.GetBudgetPerformance spentRepo sampleClock "u1" january2024).1.report
          = some (1, 0, ["at_risk"]) := by
  have hrun := GetBudgetPerformance_const spentRepo sampleClock "u1" january2024 1 2024
    [budget100] [foodExpense100] (parseMonthYear_january2024 sampleClock) rfl (fun _ => rfl)
  obtain ⟨hstatus, hover⟩ := sample_entry
  rw [hrun]
  refine ⟨rfl, ?_⟩
  simp only [Response.report, Option.map_some', Option.some.injEq, overallPerformance,
    List.map_cons, List.map_nil, List.filter_cons, List.filter_nil, hstatus, hover]
  decide

/-- C13, amended: in a 200 answer of `GetBudgetPerformance`, on_track_count
is the number of entries that are not over budget, that is, whose status is
"under_budget" or "at_risk"; together with over_budget_count it adds up to
budgets_count. -/
theorem C13_on_track_count (repo : ReportsRepositories) (clock : Clock) (userID : String)
    (q : QueryParams) (r : BudgetPerformanceReport)
    (hrun : (ReportsHandler.GetBudgetPerformance repo clock userID q).1
      = { status := StatusOK, body := Body.budgetPerformance r }) :
    r.overall_performance.on_track_count
        = ((r.budget_performance.filter
            (fun item => decide (item.status = "under_budget")
              || decide (item.status = "at_risk"))).length : Int)
      ∧ r.overall_performance.on_track_count
        = ((r.budget_performance.filter (fun item => !item.is_over_budget)).length : Int)
      ∧ r.overall_performance.on_track_count + r.overall_performance.over_budget_count
        = r.overall_performance.budgets_count := by
  obtain ⟨month, year, budgets, acc, calls, _, hb, hloop, hr⟩ :=
    GetBudgetPerformance_report repo clock userID q r hrun
  obtain ⟨items, hitems, hamounts, _, _, hobc, hall⟩ :=
    budgetLoop_totals repo userID _ _ budgets 0 _ acc calls hloop
  simp only [List.nil_append, zero_add] at hitems hobc
  have hlen : budgets.length = items.length := by
    have := congrArg List.length hamounts
    simp only [List.length_map] at this
    exact this.symm
  have hcount : r.overall_performance.on_track_count
      = ((items.filter (fun item => !item.is_over_budget)).length : Int) := by
    rw [hr]
    simp only [overallPerformance]
    rw [hobc, hlen]
    exact length_sub_filter _ items
  have hfilter : items.filter (fun item => !item.is_over_budget)
      = items.filter (fun item => decide (item.status = "under_budget")
          || decide (item.status = "at_risk")) := by
    apply List.filter_congr
    intro item hmem
    have hs := (hall item hmem).2.2
    have hiff := budgetStatus_not_over item.is_over_budget item.percentage_used
    rw [← hs] at hiff
    cases hov : item.is_over_budget
    · have := hiff.mpr hov
      simp only [Bool.not_false]
      rcases this with h | h
      · simp [h]
      · simp [h]
    · have hno : ¬ (item.status = "under_budget" ∨ item.status = "at_risk") := by
        intro h
        have := hiff.mp h
        rw [hov] at this
        exact absurd this (by decide)
      rw [not_or] at hno
      simp [hno.1, hno.2]
  have hbp : r.budget_performance = items := by rw [hr]; exact hitems
  refine ⟨?_, ?_, ?_⟩
  · rw [hcount, hbp, hfilter]
  · rw [hcount, hbp]
  · rw [hr]
    simp only [overallPerformance]
    ring

/-- Witness of C13 (amended): for the sample repository the answer is 200 and
on_track_count = 1 is the number of entries that are "under_budget" or
"at_risk". -/
theorem C13_on_track_count_witness :
    (ReportsHandler.GetBudgetPerformance spentRepo sampleClock "u1" january2024).1.status
        = StatusOK
      ∧ Option.map
          (fun r => decide (r.overall_performance.on_track_count
            = ((r.budget_performance.filter
                (fun item => decide (item.status = "under_budget")
                  || decide (item.status = "at_risk"))).length : Int)))
          (ReportsHandler.GetBudgetPerformance spentRepo sampleClock "u1" january2024).1.report
          = some true := by
  have hrun := GetBudgetPerformance_const spentRepo sampleClock "u1" january2024 1 2024
    [budget100] [foodExpense100] (parseMonthYear_january2024 sampleClock) rfl (fun _ => rfl)
  have h := (C13_on_track_count spentRepo sampleClock "u1" january2024 _ hrun).1
  rw [hrun]
  refine ⟨rfl, ?_⟩
  simp only [Response.report, Option.map_some', Option.some.injEq, decide_eq_true_eq]
  exact h

/-! ## The handler chain -/

/-- Handlers that the index has passed are skipped. -/
theorem runHandlers_passed (total : Int) (rest : List HandlerFunc)
    (sc : AuthMiddleware × Context) (h : total ≤ sc.2.index) :
    runHandlers total rest sc = sc := by
  induction rest with
  | nil => rfl
  | cons g rest ih =>
    unfold runHandlers
    have hne : ¬ sc.2.index = total - ((rest.length : Int) + 1) := by
      have : (0 : Int) ≤ (rest.length : Int) := Int.natCast_nonneg _
      omega
    rw [if_neg hne]
    exact ih

/-- The chain of a middleware and a final handler, unrolled. -/
theorem serve_pair (mw : HandlerFunc)
    (f : AuthMiddleware × Context → AuthMiddleware × Context) (sc : AuthMiddleware × Context) :
    serve [mw, endpoint f] sc
      = runHandlers 2 [endpoint f]
          ((mw (fun sc2 => runHandlers 2 [endpoint f]
                  (sc2.1, { sc2.2 with index := sc2.2.index + 1 }))
              (sc.1, { sc.2 with index := 0 })).1,
            { (mw (fun sc2 => runHandlers 2 [endpoint f]
                  (sc2.1, { sc2.2 with index := sc2.2.index + 1 }))
                (sc.1, { sc.2 with index := 0 })).2 with
              index := (mw (fun sc2 => runHandlers 2 [endpoint f]
                  (sc2.1, { sc2.2 with index := sc2.2.index + 1 }))
                (sc.1, { sc.2 with index := 0 })).2.index + 1 }) := by
  unfold serve
  simp only [List.length_cons, List.length_nil]
  rw [runHandlers]
  simp

/-- What `c.Next()` does in a middleware that is followed by one final
handler, when the middleware has not aborted: the final handler runs. -/
theorem next_pair (f : AuthMiddleware × Context → AuthMiddleware × Context)
    (am : AuthMiddleware) (c : Context) (h : c.index = 0) :
    runHandlers 2 [endpoint f] (am, { c with index := c.index + 1 })
      = ((f (am, { c with index := 1 })).1, { (f (am, { c with index := 1 })).2 with index := 2 }) := by
  rw [h]
  simp [runHandlers, endpoint]

/-- The chain of `RequireAuth` and a final handler, by cases on the request:
no header, a malformed header, a refused token (each answered with 401 and
aborted), or an accepted token, after which the final handler runs once on
the context with the identity set. -/
theorem RequireAuth_serve (env : AuthEnv)
    (f : AuthMiddleware × Context → AuthMiddleware × Context) (am : AuthMiddleware)
    (c : Context) :
    serve [AuthMiddleware.RequireAuth env, endpoint f] (am, c)
      = if c.GetHeader "Authorization" = "" then
          rejected am c "Authorization header required" none
        else
          match bearerToken (c.GetHeader "Authorization") with
          | none => rejected am c "Invalid authorization header format" none
          | some tokenString =>
            match am.validateToken env tokenString with
            | (Except.error e, am1) => rejected am1 c "Invalid token" (some e)
            | (Except.ok claims, am1) => ranOnce f am1 (c.setIdentity claims) := by
  have hpass : ∀ (am1 : AuthMiddleware) (msg : String) (details : Option String),
      runHandlers 2 [endpoint f]
          (am1, { ({ c with index := 0 } : Context).unauthorized msg details with
            index := (({ c with index := 0 } : Context).unauthorized msg details).index + 1 })
        = rejected am1 c msg details := by
    intro am1 msg details
    rw [runHandlers_passed]
    · rfl
    · simp [Context.unauthorized, Context.Abort, Context.JSON, abortIndex]
  rw [serve_pair]
  unfold AuthMiddleware.RequireAuth
  simp only
  have hh : ({ c with index := 0 } : Context).GetHeader "Authorization"
      = c.GetHeader "Authorization" := rfl
  rw [hh]
  by_cases h1 : c.GetHeader "Authorization" = ""
  · rw [if_pos h1, if_pos h1]
    exact hpass am _ _
  · rw [if_neg h1, if_neg h1]
    cases h2 : bearerToken (c.GetHeader "Authorization") with
    | none => exact hpass am _ _
    | some tokenString =>
      simp only
      rcases h3 : am.validateToken env tokenString with ⟨res, am1⟩
      cases res with
      | error e => exact hpass am1 _ _
      | ok claims =>
        simp only
        rw [next_pair f am1 _ rfl]
        rw [runHandlers_passed]
        · rfl
        · simp

/-- The chain of `OptionalAuth` and a final handler, by cases on the
request: the final handler runs once, on the context with the identity set
when the token is accepted and on the unchanged context otherwise. -/
theorem OptionalAuth_serve (env : AuthEnv)
    (f : AuthMiddleware × Context → AuthMiddleware × Context) (am : AuthMiddleware)
    (c : Context) :
    serve [AuthMiddleware.OptionalAuth env, endpoint f] (am, c)
      = if c.GetHeader "Authorization" = "" then ranOnce f am c
        else
          match bearerToken (c.GetHeader "Authorization") with
          | none => ranOnce f am c
          | some tokenString =>
            match am.validateToken env tokenString with
            | (Except.error _, am1) => ranOnce f am1 c
            | (Except.ok claims, am1) => ranOnce f am1 (c.setIdentity claims) := by
  have hrun : ∀ (am1 : AuthMiddleware) (c1 : Context), c1.index = 0 →
      runHandlers 2 [endpoint f]
          ((runHandlers 2 [endpoint f] (am1, { c1 with index := c1.index + 1 })).1,
            { (runHandlers 2 [endpoint f] (am1, { c1 with index := c1.index + 1 })).2 with
              index := (runHandlers 2 [endpoint f]
                (am1, { c1 with index := c1.index + 1 })).2.index + 1 })
        = ranOnce f am1 c1 := by
    intro am1 c1 hc
    rw [next_pair f am1 c1 hc, runHandlers_passed]
    · rfl
    · simp
  rw [serve_pair]
  unfold AuthMiddleware.OptionalAuth
  simp only
  have hh : ({ c with index := 0 } : Context).GetHeader "Authorization"
      = c.GetHeader "Authorization" := rfl
  rw [hh]
  by_cases h1 : c.GetHeader "Authorization" = ""
  · rw [if_pos h1, if_pos h1]
    exact hrun am { c with index := 0 } rfl
  · rw [if_neg h1, if_neg h1]
    cases h2 : bearerToken (c.GetHeader "Authorization") with
    | none => exact hrun am { c with index := 0 } rfl
    | some tokenString =>
      simp only
      rcases h3 : am.validateToken env tokenString with ⟨res, am1⟩
      cases res with
      | error e => exact hrun am1 { c with index := 0 } rfl
      | ok claims => exact hrun am1 (({ c with index := 0 } : Context).setIdentity claims) rfl

/-- The header has no bearer token exactly when it does not split on " "
into "Bearer" and one more part. -/
theorem bearerToken_none_iff (authHeader : String) :
    bearerToken authHeader = none
      ↔ ∀ tokenString, splitOnSpace authHeader ≠ ["Bearer", tokenString] := by
  unfold bearerToken
  split
  · rename_i scheme tokenString heq
    rw [heq]
    by_cases hs : scheme = "Bearer"
    · subst hs
      simp
    · simp only [ne_eq, hs, not_false_eq_true, if_true, true_iff]
      intro tok h
      simp only [List.cons.injEq] at h
      exact hs h.1
  · rename_i hno
    simp only [true_iff]
    intro tok h
    exact hno "Bearer" tok h

/-- A request, by cases: the middleware finds no accepted token (no header,
a malformed header, or a token that `validateToken` refuses), or it finds a
token that `validateToken` accepts. -/
theorem accepts_cases (am : AuthMiddleware) (env : AuthEnv) (c : Context) :
    ((¬ ∃ claims, accepts am env c claims)
      ∧ (c.GetHeader "Authorization" = ""
          ∨ (c.GetHeader "Authorization" ≠ ""
              ∧ bearerToken (c.GetHeader "Authorization") = none)
          ∨ (c.GetHeader "Authorization" ≠ ""
              ∧ ∃ tokenString e am1,
                  bearerToken (c.GetHeader "Authorization") = some tokenString
                  ∧ am.validateToken env tokenString = (Except.error e, am1))))
    ∨ (∃ tokenString claims am1,
        c.GetHeader "Authorization" ≠ ""
        ∧ bearerToken (c.GetHeader "Authorization") = some tokenString
        ∧ am.validateToken env tokenString = (Except.ok claims, am1)
        ∧ accepts am env c claims
        ∧ ∀ claims1, accepts am env c claims1 → claims1 = claims) := by
  by_cases h1 : c.GetHeader "Authorization" = ""
  · left
    refine ⟨?_, Or.inl h1⟩
    rintro ⟨claims, hne, _⟩
    exact hne h1
  · cases h2 : bearerToken (c.GetHeader "Authorization") with
    | none =>
      left
      refine ⟨?_, Or.inr (Or.inl ⟨h1, rfl⟩)⟩
      rintro ⟨claims, _, tok, htok, _⟩
      rw [h2] at htok
      exact absurd htok (by simp)
    | some tokenString =>
      rcases h3 : am.validateToken env tokenString with ⟨res, am1⟩
      cases res with
      | error e =>
        left
        refine ⟨?_, Or.inr (Or.inr ⟨h1, tokenString, e, am1, rfl, h3⟩)⟩
        rintro ⟨claims, _, tok, htok, hv⟩
        rw [h2] at htok
        simp only [Option.some.injEq] at htok
        subst htok
        rw [h3] at hv
        exact absurd hv (by simp)
      | ok claims =>
        right
        refine ⟨tokenString, claims, am1, h1, rfl, h3, ⟨h1, tokenString, h2, ?_⟩, ?_⟩
        · rw [h3]
        · rintro claims1 ⟨_, tok, htok, hv⟩
          rw [h2] at htok
          simp only [Option.some.injEq] at htok
          subst htok
          rw [h3] at hv
          exact (Except.ok.inj hv).symm

/-- C16: `RequireAuth` rejects every request whose Authorization header is
missing or malformed.  An absent or empty header gives 401 "Authorization
header required"; a non-empty header that does not split on " " into exactly
two parts with first part "Bearer" gives 401 "Invalid authorization header
format" ("InvalidToken", "bearer x" and "Bearer a b" are such headers).  In
both cases the chain is aborted, nothing else changes, and the outcome does
not depend on the protected handler: it is not run. -/
theorem C16_RequireAuth_rejects_bad_header (env : AuthEnv)
    (f : AuthMiddleware × Context → AuthMiddleware × Context) (am : AuthMiddleware)
    (c : Context) :
    (c.Header.lookup "Authorization" = none → c.GetHeader "Authorization" = "")
    ∧ (c.GetHeader "Authorization" = "" →
        serve [AuthMiddleware.RequireAuth env, endpoint f] (am, c)
          = (am,
              { c with
                index := abortIndex + 1
                written := c.written
                  ++ [{ status := 401, body := Body.error "Authorization header required" none }] }))
    ∧ (c.GetHeader "Authorization" ≠ "" →
        (∀ tokenString, splitOnSpace (c.GetHeader "Authorization") ≠ ["Bearer", tokenString]) →
        serve [AuthMiddleware.RequireAuth env, endpoint f] (am, c)
          = (am,
              { c with
                index := abortIndex + 1
                written := c.written
                  ++ [{ status := 401,
                        body := Body.error "Invalid authorization header format" none }] }))
    ∧ (∀ msg details, (rejected am c msg details).2.IsAborted = true
        ∧ (rejected am c msg details).2.Keys = c.Keys)
    ∧ (∀ h ∈ ["InvalidToken", "bearer x", "Bearer a b"],
        h ≠ "" ∧ ∀ tokenString, splitOnSpace h ≠ ["Bearer", tokenString]) := by
  refine ⟨?_, ?_, ?_, ?_, ?_⟩
  · intro h
    unfold Context.GetHeader
    rw [h]
  · intro h
    rw [RequireAuth_serve, if_pos h]
    rfl
  · intro h1 h2
    rw [RequireAuth_serve, if_neg h1, (bearerToken_none_iff _).mpr h2]
    rfl
  · intro msg details
    exact ⟨by simp [rejected, Context.IsAborted], rfl⟩
  · intro h hmem
    simp only [List.mem_cons, List.mem_singleton, List.not_mem_nil, or_false] at hmem
    rcases hmem with rfl | rfl | rfl
    · refine ⟨by decide, (bearerToken_none_iff _).mp (by decide)⟩
    · refine ⟨by decide, (bearerToken_none_iff _).mp (by decide)⟩
    · refine ⟨by decide, (bearerToken_none_iff _).mp (by decide)⟩

/-- The middleware after `validateToken`: it is unchanged, or no key set
younger than an hour was cached, the key set was fetched, and the fetched set
is cached with the time of the fetch.  The configuration is never changed. -/
theorem validateToken_state (am : AuthMiddleware) (env : AuthEnv) (tokenString : String) :
    (am.validateToken env tokenString).2 = am
      ∨ (am.cacheHit env = none
          ∧ ∃ jwks, fetchJWKS env am.jwksURL = Except.ok jwks
            ∧ (am.validateToken env tokenString).2
                = { am with jwksCache := some jwks, cacheTime := env.fetchedAt }) := by
  unfold AuthMiddleware.validateToken
  cases env.ParseUnverified tokenString with
  | error e => exact Or.inl rfl
  | ok token =>
    simp only
    cases hk : token.kid with
    | none => exact Or.inl rfl
    | some v =>
      cases v with
      | claims cl => exact Or.inl rfl
      | other text => exact Or.inl rfl
      | str kid =>
        simp only
        unfold AuthMiddleware.getJWKS
        cases hc : am.cacheHit env with
        | some cached =>
          simp only
          cases cached.Keys.find? (fun key => key.Kid == kid) <;> exact Or.inl rfl
        | none =>
          simp only
          cases hf : fetchJWKS env am.jwksURL with
          | error e => exact Or.inl rfl
          | ok jwks =>
            right
            refine ⟨by simp, jwks, by simp, ?_⟩
            simp only
            split <;> rfl

/-- C17, counterexample: a refused request has an effect besides the 401.
The request carries the token "good", whose signature does not verify in
this environment; nothing accepts it, the answer is 401 "Invalid token" and
the handler is not run, but the middleware, which had no key set cached, has
fetched the key set from the project's URL and holds it in its cache
afterwards. -/
theorem C17_counterexample :
    (¬ ∃ claims, accepts sampleAuth badSignatureEnv (requestWith "Bearer good") claims)
      ∧ (serve [AuthMiddleware.RequireAuth badSignatureEnv, endpoint successHandler]
          (sampleAuth, requestWith "Bearer good")).2.written
          = [{ status := 401
               body := Body.error "Invalid token"
                 (some ("failed to validate token: token signature is invalid: "
                   ++ "crypto/rsa: verification error")) }]
      ∧ sampleAuth.jwksCache = none
      ∧ (serve [AuthMiddleware.RequireAuth badSignatureEnv, endpoint successHandler]
          (sampleAuth, requestWith "Bearer good")).1.jwksCache = some { Keys := [sampleJWK] }
      ∧ (serve [AuthMiddleware.RequireAuth badSignatureEnv, endpoint successHandler]
          (sampleAuth, requestWith "Bearer good")).1 ≠ sampleAuth
      ∧ (sampleAuth.getJWKS badSignatureEnv).2.2 = ["https://test.supabase.co/auth/v1/jwks"] := by
  have hv : sampleAuth.validateToken badSignatureEnv "good"
      = (Except.error ("failed to validate token: token signature is invalid: "
            ++ "crypto/rsa: verification error"),
          { sampleAuth with
            jwksCache := some { Keys := [sampleJWK] }
            cacheTime := badSignatureEnv.fetchedAt }) := by
    rfl
  have hb : bearerToken ((requestWith "Bearer good").GetHeader "Authorization") = some "good" := by
    decide
  have hne : (requestWith "Bearer good").GetHeader "Authorization" ≠ "" := by decide
  have hserve : serve [AuthMiddleware.RequireAuth badSignatureEnv, endpoint successHandler]
      (sampleAuth, requestWith "Bearer good")
      = rejected { sampleAuth with
            jwksCache := some { Keys := [sampleJWK] }
            cacheTime := badSignatureEnv.fetchedAt }
          (requestWith "Bearer good") "Invalid token"
          (some ("failed to validate token: token signature is invalid: "
            ++ "crypto/rsa: verification error")) := by
    rw [RequireAuth_serve, if_neg hne, hb]
    simp only [hv]
  refine ⟨?_, ?_, rfl, ?_, ?_, rfl⟩
  · rintro ⟨claims, _, tok, htok, hacc⟩
    rw [hb] at htok
    simp only [Option.some.injEq] at htok
    subst htok
    rw [hv] at hacc
    exact absurd hacc (by simp)
  · rw [hserve]
    rfl
  · rw [hserve]
    rfl
  · rw [hserve]
    intro h
    have hc := congrArg AuthMiddleware.jwksCache h
    exact absurd hc (by simp [rejected, sampleAuth])

/-- C17, amended: `RequireAuth` runs the downstream handler iff the header
is well-formed and `validateToken` accepts the token.  When the token is
accepted with some claims, the handler runs once, on a context whose
user_id, user_email and user_role are the sub, email and role of the claims.
Otherwise the outcome is a 401 answer appended to the context, with the
chain aborted and the keys of the context unchanged (no identity key is
set), whatever the handler is; nothing else in the context changes.  The
only other effect is on the middleware: its configuration is kept, and its
cache is either unchanged or, when a token had to be validated and no key set
younger than an hour was cached, holds the key set that was fetched, with the
time of the fetch; a request without a well-formed header leaves the
middleware as it was.  With the handler of the tests, which answers 200
"success", that answer is written iff the token is accepted. -/
theorem C17_RequireAuth_runs_iff_accepted (env : AuthEnv)
    (f : AuthMiddleware × Context → AuthMiddleware × Context) (am : AuthMiddleware)
    (c : Context) :
    (∀ claims, accepts am env c claims →
      (∃ am1, serve [AuthMiddleware.RequireAuth env, endpoint f] (am, c)
          = ranOnce f am1 (c.setIdentity claims)
        ∧ (am1 = am
            ∨ (am.cacheHit env = none
                ∧ ∃ jwks, fetchJWKS env am.jwksURL = Except.ok jwks
                  ∧ am1 = { am with jwksCache := some jwks, cacheTime := env.fetchedAt })))
        ∧ (c.setIdentity claims).Get "user_id" = some (Value.str claims.Sub)
        ∧ (c.setIdentity claims).Get "user_email" = some (Value.str claims.Email)
        ∧ (c.setIdentity claims).Get "user_role" = some (Value.str claims.Role))
    ∧ ((¬ ∃ claims, accepts am env c claims) →
        ∃ am1 msg details,
          serve [AuthMiddleware.RequireAuth env, endpoint f] (am, c)
            = (am1,
                { c with
                  index := abortIndex + 1
                  written := c.written ++ [{ status := 401, body := Body.error msg details }] })
          ∧ (serve [AuthMiddleware.RequireAuth env, endpoint f] (am, c)).2.IsAborted = true
          ∧ (serve [AuthMiddleware.RequireAuth env, endpoint f] (am, c)).2.Keys = c.Keys
          ∧ (serve [AuthMiddleware.RequireAuth env, endpoint f] (am, c)).2.Header = c.Header
          ∧ am1.cfg = am.cfg
          ∧ (am1 = am
              ∨ (am.cacheHit env = none
                  ∧ ∃ jwks, fetchJWKS env am.jwksURL = Except.ok jwks
                    ∧ am1 = { am with jwksCache := some jwks, cacheTime := env.fetchedAt }))
          ∧ (bearerToken (c.GetHeader "Authorization") = none → am1 = am))
    ∧ ((serve [AuthMiddleware.RequireAuth env, endpoint successHandler] (am, c)).2.written
          = c.written ++ [{ status := 200, body := Body.message "success" }]
        ↔ ∃ claims, accepts am env c claims) := by
  have hstate : ∀ tok am1 res, am.validateToken env tok = (res, am1) →
      (am1 = am
        ∨ (am.cacheHit env = none
            ∧ ∃ jwks, fetchJWKS env am.jwksURL = Except.ok jwks
              ∧ am1 = { am with jwksCache := some jwks, cacheTime := env.fetchedAt })) := by
    intro tok am1 res h
    have hs := validateToken_state am env tok
    rw [h] at hs
    exact hs
  have hempty : bearerToken "" = none := by decide
  have hrej : (¬ ∃ claims, accepts am env c claims) →
      ∀ g : AuthMiddleware × Context → AuthMiddleware × Context,
      ∃ am1 msg details,
        serve [AuthMiddleware.RequireAuth env, endpoint g] (am, c)
          = rejected am1 c msg details
        ∧ (am1 = am
            ∨ (am.cacheHit env = none
                ∧ ∃ jwks, fetchJWKS env am.jwksURL = Except.ok jwks
                  ∧ am1 = { am with jwksCache := some jwks, cacheTime := env.fetchedAt }))
        ∧ (bearerToken (c.GetHeader "Authorization") = none → am1 = am) := by
    intro hno g
    rcases accepts_cases am env c with ⟨_, h | ⟨h1, h2⟩ | ⟨h1, tok, e, am1, h2, h3⟩⟩
      | ⟨_, claims, _, _, _, _, hacc, _⟩
    · exact ⟨am, "Authorization header required", none, by rw [RequireAuth_serve, if_pos h],
        Or.inl rfl, fun _ => rfl⟩
    · exact ⟨am, "Invalid authorization header format", none,
        by rw [RequireAuth_serve, if_neg h1, h2], Or.inl rfl, fun _ => rfl⟩
    · refine ⟨am1, "Invalid token", some e,
        by rw [RequireAuth_serve, if_neg h1, h2]; simp only [h3], hstate tok am1 _ h3, ?_⟩
      intro hnone
      rw [h2] at hnone
      exact absurd hnone (by simp)
    · exact absurd ⟨claims, hacc⟩ hno
  have hacc : ∀ claims, accepts am env c claims →
      ∀ g : AuthMiddleware × Context → AuthMiddleware × Context,
      ∃ am1, serve [AuthMiddleware.RequireAuth env, endpoint g] (am, c)
          = ranOnce g am1 (c.setIdentity claims)
        ∧ (am1 = am
            ∨ (am.cacheHit env = none
                ∧ ∃ jwks, fetchJWKS env am.jwksURL = Except.ok jwks
                  ∧ am1 = { am with jwksCache := some jwks, cacheTime := env.fetchedAt })) := by
    intro claims h g
    rcases accepts_cases am env c with ⟨hno, _⟩ | ⟨tok, claims0, am1, h1, h2, h3, _, huniq⟩
    · exact absurd ⟨claims, h⟩ hno
    · rw [huniq claims h]
      exact ⟨am1, by rw [RequireAuth_serve, if_neg h1, h2]; simp only [h3], hstate tok am1 _ h3⟩
  refine ⟨?_, ?_, ?_⟩
  · intro claims h
    exact ⟨hacc claims h f, rfl, rfl, rfl⟩
  · intro hno
    obtain ⟨am1, msg, details, h, hst, hhdr⟩ := hrej hno f
    refine ⟨am1, msg, details, h, ?_, ?_, ?_, ?_, hst, hhdr⟩
    · rw [h]
      simp [rejected, Context.IsAborted]
    · rw [h]
      rfl
    · rw [h]
      rfl
    · rcases hst with h1 | ⟨_, jwks, _, h1⟩
      · rw [h1]
      · rw [h1]
  · constructor
    · intro hw
      by_contra hno
      obtain ⟨am1, msg, details, h, _, _⟩ := hrej hno successHandler
      rw [h] at hw
      simp [rejected, StatusUnauthorized] at hw
    · rintro ⟨claims, h⟩
      obtain ⟨am1, h2, _⟩ := hacc claims h successHandler
      rw [h2]
      rfl

/-- In the sample environment the token "good" is accepted with the sample
claims, and the sample key set is cached at the time of the fetch. -/
theorem validateToken_sample :
    sampleAuth.validateToken sampleAuthEnv "good"
      = (Except.ok sampleClaims,
          { sampleAuth with
            jwksCache := some { Keys := [sampleJWK] }
            cacheTime := sampleAuthEnv.fetchedAt }) := by
  rfl

theorem accepts_sample :
    accepts sampleAuth sampleAuthEnv (requestWith "Bearer good") sampleClaims := by
  refine ⟨by decide, "good", by decide, ?_⟩
  rw [validateToken_sample]

/-- Witness of C17: a request with "Bearer good" is accepted in the sample
environment, and the handler of the tests answers 200 "success". -/
theorem C17_RequireAuth_runs_iff_accepted_witness :
    (serve [AuthMiddleware.RequireAuth sampleAuthEnv, endpoint successHandler]
        (sampleAuth, requestWith "Bearer good")).2.written
      = [{ status := 200, body := Body.message "success" }] :=
  (C17_RequireAuth_runs_iff_accepted sampleAuthEnv successHandler sampleAuth
    (requestWith "Bearer good")).2.2.mpr ⟨sampleClaims, accepts_sample⟩

/-- Witness of C16: the two requests of the tests, without a header and
with the header "InvalidToken", are answered with 401 and aborted. -/
theorem C16_RequireAuth_rejects_bad_header_witness :
    serve [AuthMiddleware.RequireAuth sampleAuthEnv, endpoint successHandler]
        (sampleAuth, bareRequest)
      = (sampleAuth,
          { bareRequest with
            index := abortIndex + 1
            written := bareRequest.written
              ++ [{ status := 401, body := Body.error "Authorization header required" none }] })
    ∧ serve [AuthMiddleware.RequireAuth sampleAuthEnv, endpoint successHandler]
        (sampleAuth, requestWith "InvalidToken")
      = (sampleAuth,
          { requestWith "InvalidToken" with
            index := abortIndex + 1
            written := (requestWith "InvalidToken").written
              ++ [{ status := 401,
                    body := Body.error "Invalid authorization header format" none }] }) :=
  ⟨(C16_RequireAuth_rejects_bad_header sampleAuthEnv successHandler sampleAuth
      bareRequest).2.1 (by decide),
   (C16_RequireAuth_rejects_bad_header sampleAuthEnv successHandler sampleAuth
      (requestWith "InvalidToken")).2.2.1 (by decide)
      ((bearerToken_none_iff _).mp (by decide))⟩

/-- C18: `OptionalAuth` never rejects.  For every request the downstream
handler runs exactly once, on a context to which the middleware has written
no answer (so no 401).  When the header is absent or malformed, or the token
is refused, that context is the unchanged one: no identity is set, and
`GetUserID` reports not found on a request that had no user_id.  The keys
change only when the token is accepted, and then the identity is set. -/
theorem C18_OptionalAuth_never_rejects (env : AuthEnv)
    (f : AuthMiddleware × Context → AuthMiddleware × Context) (am : AuthMiddleware)
    (c : Context) :
    ∃ am1 c1,
      serve [AuthMiddleware.OptionalAuth env, endpoint f] (am, c) = ranOnce f am1 c1
      ∧ c1.written = c.written
      ∧ c1.Header = c.Header
      ∧ (∀ claims, accepts am env c claims →
          c1 = c.setIdentity claims ∧ GetUserID c1 = (claims.Sub, true))
      ∧ ((¬ ∃ claims, accepts am env c claims) →
          c1 = c ∧ (c.Get "user_id" = none → GetUserID c1 = ("", false)))
      ∧ (c1.Keys ≠ c.Keys → ∃ claims, accepts am env c claims) := by
  rcases accepts_cases am env c with ⟨hno, hcase⟩ | ⟨tok, claims, am1, h1, h2, h3, hacc, huniq⟩
  · have hserve : ∃ am1, serve [AuthMiddleware.OptionalAuth env, endpoint f] (am, c)
        = ranOnce f am1 c := by
      rcases hcase with h | ⟨h1, h2⟩ | ⟨h1, tok, e, am1, h2, h3⟩
      · exact ⟨am, by rw [OptionalAuth_serve, if_pos h]⟩
      · exact ⟨am, by rw [OptionalAuth_serve, if_neg h1, h2]⟩
      · exact ⟨am1, by rw [OptionalAuth_serve, if_neg h1, h2]; simp only [h3]⟩
    obtain ⟨am1, hs⟩ := hserve
    refine ⟨am1, c, hs, rfl, rfl, ?_, ?_, ?_⟩
    · intro claims h
      exact absurd ⟨claims, h⟩ hno
    · intro _
      refine ⟨rfl, ?_⟩
      intro hget
      unfold GetUserID
      rw [hget]
    · intro h
      exact absurd rfl h
  · refine ⟨am1, c.setIdentity claims, ?_, rfl, rfl, ?_, ?_, ?_⟩
    · rw [OptionalAuth_serve, if_neg h1, h2]
      simp only [h3]
    · intro claims1 h
      rw [huniq claims1 h]
      exact ⟨rfl, rfl⟩
    · intro hno
      exact absurd ⟨claims, hacc⟩ hno
    · intro _
      exact ⟨claims, hacc⟩

/-- Witness of C18: the request of the test, without a header, is not
answered by the middleware; the handler of the tests runs and its 200
"success" is the only answer. -/
theorem C18_OptionalAuth_never_rejects_witness :
    (serve [AuthMiddleware.OptionalAuth sampleAuthEnv, endpoint successHandler]
        (sampleAuth, bareRequest)).2.written
      = [{ status := 200, body := Body.message "success" }] := by
  obtain ⟨am1, c1, hs, hw, _, _, _, _⟩ :=
    C18_OptionalAuth_never_rejects sampleAuthEnv successHandler sampleAuth bareRequest
  rw [hs]
  show c1.written ++ [{ status := StatusOK, body := Body.message "success" }] = _
  rw [hw]
  rfl

/-! ## Token validation and the key-set cache -/

/-- The cache check of `getJWKS` in plain terms. -/
theorem cacheHit_eq (am : AuthMiddleware) (env : AuthEnv) :
    am.cacheHit env
      = match am.jwksCache with
        | some cached => if env.now - am.cacheTime < Hour then some cached else none
        | none => none := by
  unfold AuthMiddleware.cacheHit
  cases am.jwksCache with
  | none => rfl
  | some cached =>
    simp only
    have hiff : env.Since am.cacheTime < Hour ↔ env.now - am.cacheTime < Hour := by
      unfold AuthEnv.Since Time.Sub maxDuration minDuration Hour Second
      simp only [Duration, Time] at *
      split_ifs <;> omega
    by_cases h : env.now - am.cacheTime < Hour
    · rw [if_pos h, if_pos (hiff.mpr h)]
    · rw [if_neg h, if_neg (fun h2 => h (hiff.mp h2))]

/-- C20: the remote key set is cached for one hour.  When a key set is
cached and less than one hour has passed since it was cached, `getJWKS`
returns the cached key set without fetching and leaves the cache and its
timestamp unchanged.  Otherwise it fetches the key-set URL once; on a
successful fetch it returns the fetched key set, replaces the cached one and
sets the timestamp to the current time; a failed fetch returns the error and
leaves the cache and the timestamp unchanged. -/
theorem C20_jwks_cache (am : AuthMiddleware) (env : AuthEnv) :
    (∀ cached, am.jwksCache = some cached → env.now - am.cacheTime < Hour →
      am.getJWKS env = (Except.ok cached, am, []))
    ∧ ((am.jwksCache = none ∨ ¬ env.now - am.cacheTime < Hour) →
        (∀ jwks, fetchJWKS env (am.cfg.SupabaseURL ++ "/auth/v1/jwks") = Except.ok jwks →
          am.getJWKS env
            = (Except.ok jwks,
                { am with jwksCache := some jwks, cacheTime := env.fetchedAt },
                [am.cfg.SupabaseURL ++ "/auth/v1/jwks"]))
        ∧ (∀ e, fetchJWKS env (am.cfg.SupabaseURL ++ "/auth/v1/jwks") = Except.error e →
            am.getJWKS env = (Except.error e, am, [am.cfg.SupabaseURL ++ "/auth/v1/jwks"])))
    ∧ (∀ jwks, fetchJWKS env (am.cfg.SupabaseURL ++ "/auth/v1/jwks") = Except.ok jwks ↔
        ∃ resp body, env.Get (am.cfg.SupabaseURL ++ "/auth/v1/jwks") = Except.ok resp
          ∧ resp.StatusCode = 200 ∧ resp.Body = Except.ok body
          ∧ env.Unmarshal body = Except.ok jwks) := by
  refine ⟨?_, ?_, ?_⟩
  · intro cached hc hfresh
    unfold AuthMiddleware.getJWKS
    rw [cacheHit_eq, hc]
    simp only [if_pos hfresh]
  · intro hstale
    have hmiss : am.cacheHit env = none := by
      rw [cacheHit_eq]
      rcases hstale with h | h
      · rw [h]
      · cases am.jwksCache with
        | none => rfl
        | some cached => simp only [if_neg h]
    constructor
    · intro jwks hf
      unfold AuthMiddleware.getJWKS AuthMiddleware.jwksURL
      rw [hmiss]
      simp only [hf]
    · intro e hf
      unfold AuthMiddleware.getJWKS AuthMiddleware.jwksURL
      rw [hmiss]
      simp only [hf]
  · intro jwks
    unfold fetchJWKS
    constructor
    · intro h
      cases hg : env.Get (am.cfg.SupabaseURL ++ "/auth/v1/jwks") with
      | error e => rw [hg] at h; simp at h
      | ok resp =>
        rw [hg] at h
        simp only at h
        split_ifs at h with hcode
        cases hb : resp.Body with
        | error e => rw [hb] at h; simp at h
        | ok body =>
          rw [hb] at h
          simp only at h
          cases hu : env.Unmarshal body with
          | error e => rw [hu] at h; simp at h
          | ok j =>
            rw [hu] at h
            simp only [Except.ok.injEq] at h
            subst h
            refine ⟨resp, body, rfl, ?_, hb, hu⟩
            simpa [StatusOK] using hcode
    · rintro ⟨resp, body, hg, hcode, hb, hu⟩
      rw [hg]
      simp only
      rw [if_neg (by simp [StatusOK, hcode]), hb]
      simp only
      rw [hu]

/-- Witness of C20: with the sample key set cached half an hour ago nothing
is fetched; with nothing cached the key set is fetched and cached at the
time of the fetch. -/
theorem C20_jwks_cache_witness :
    cachedAuth.getJWKS sampleAuthEnv = (Except.ok { Keys := [sampleJWK] }, cachedAuth, [])
    ∧ sampleAuth.getJWKS sampleAuthEnv
      = (Except.ok { Keys := [sampleJWK] },
          { sampleAuth with
            jwksCache := some { Keys := [sampleJWK] }
            cacheTime := sampleAuthEnv.fetchedAt },
          ["https://test.supabase.co/auth/v1/jwks"]) :=
  ⟨(C20_jwks_cache cachedAuth sampleAuthEnv).1 { Keys := [sampleJWK] } rfl (by decide),
   ((C20_jwks_cache sampleAuth sampleAuthEnv).2.1 (Or.inl rfl)).1 { Keys := [sampleJWK] } rfl⟩

theorem getJWKS_cfg (am : AuthMiddleware) (env : AuthEnv) :
    (am.getJWKS env).2.1.cfg = am.cfg := by
  unfold AuthMiddleware.getJWKS
  cases am.cacheHit env with
  | some cached => rfl
  | none =>
    simp only
    cases fetchJWKS env am.jwksURL <;> rfl

/-- What an accepted token went through in the last steps of
`validateToken`. -/
theorem verifyWithKey_ok (am : AuthMiddleware) (env : AuthEnv) (tokenString : String)
    (jwk : JWK) (claims : UserClaims)
    (h : am.verifyWithKey env tokenString jwk = Except.ok claims) :
    ∃ token publicKey,
      env.ParseUnverified tokenString = Except.ok token
      ∧ env.ParseRSAPublicKeyFromPEM am.cfg.SupabaseJWTSecret = Except.ok publicKey
      ∧ token.isRSA = true
      ∧ env.Verify tokenString publicKey = Except.ok ()
      ∧ claims = token.Claims
      ∧ (am.cfg.SupabaseURL ≠ "" → claims.Issuer = am.cfg.SupabaseURL ++ "/auth/v1") := by
  unfold AuthMiddleware.verifyWithKey at h
  cases hk : am.parseRSAPublicKey env jwk with
  | error e => rw [hk] at h; simp at h
  | ok publicKey =>
    rw [hk] at h
    simp only at h
    have hpem : env.ParseRSAPublicKeyFromPEM am.cfg.SupabaseJWTSecret = Except.ok publicKey := by
      unfold AuthMiddleware.parseRSAPublicKey at hk
      split_ifs at hk
      exact hk
    cases hp : ParseWithClaims env tokenString (rsaKeyFunc publicKey) with
    | error e => rw [hp] at h; simp at h
    | ok res =>
      obtain ⟨parsedToken, valid⟩ := res
      rw [hp] at h
      simp only at h
      split_ifs at h with hv hiss
      simp only [Except.ok.injEq] at h
      unfold ParseWithClaims at hp
      cases hu : env.ParseUnverified tokenString with
      | error e => rw [hu] at hp; simp at hp
      | ok token =>
        rw [hu] at hp
        simp only at hp
        cases hkf : rsaKeyFunc publicKey token with
        | error e => rw [hkf] at hp; simp at hp
        | ok key =>
          rw [hkf] at hp
          simp only at hp
          unfold rsaKeyFunc at hkf
          split_ifs at hkf with hrsa
          simp only [Except.ok.injEq] at hkf
          subst hkf
          cases hver : env.Verify tokenString publicKey with
          | error e => rw [hver] at hp; simp at hp
          | ok u =>
            rw [hver] at hp
            simp only at hp
            cases hval : env.ValidateClaims token.Claims with
            | error e => rw [hval] at hp; simp at hp
            | ok u2 =>
              rw [hval] at hp
              simp only [Except.ok.injEq, Prod.mk.injEq] at hp
              obtain ⟨ht, _⟩ := hp
              subst ht
              refine ⟨token, publicKey, rfl, hpem, hrsa, hver, h.symm, ?_⟩
              intro hurl
              rw [← h]
              by_contra hne
              exact hiss ⟨hurl, hne⟩

/-- What an accepted token went through in `validateToken`. -/
theorem validateToken_ok (am : AuthMiddleware) (env : AuthEnv) (tokenString : String)
    (claims : UserClaims)
    (h : (am.validateToken env tokenString).1 = Except.ok claims) :
    ∃ token kid jwks key publicKey,
      env.ParseUnverified tokenString = Except.ok token
      ∧ token.kid = some (Value.str kid)
      ∧ (am.getJWKS env).1 = Except.ok jwks
      ∧ key ∈ jwks.Keys ∧ key.Kid = kid
      ∧ env.ParseRSAPublicKeyFromPEM am.cfg.SupabaseJWTSecret = Except.ok publicKey
      ∧ token.isRSA = true
      ∧ env.Verify tokenString publicKey = Except.ok ()
      ∧ claims = token.Claims
      ∧ (am.cfg.SupabaseURL ≠ "" → claims.Issuer = am.cfg.SupabaseURL ++ "/auth/v1") := by
  unfold AuthMiddleware.validateToken at h
  cases hu : env.ParseUnverified tokenString with
  | error e => rw [hu] at h; simp at h
  | ok token =>
    rw [hu] at h
    simp only at h
    split at h
    · rename_i kid hkid
      have hcfg := getJWKS_cfg am env
      rcases hj : am.getJWKS env with ⟨res, am1, urls⟩
      rw [hj] at h hcfg
      simp only at hcfg
      cases res with
      | error e => simp at h
      | ok jwks =>
        simp only at h
        cases hf : jwks.Keys.find? (fun key => key.Kid == kid) with
        | none => rw [hf] at h; simp at h
        | some jwk =>
          rw [hf] at h
          simp only at h
          obtain ⟨token1, publicKey, hu1, hpem, hrsa, hver, hcl, hiss⟩ :=
            verifyWithKey_ok am1 env tokenString jwk claims h
          rw [hu] at hu1
          simp only [Except.ok.injEq] at hu1
          subst hu1
          rw [hcfg] at hpem hiss
          refine ⟨token, kid, jwks, jwk, publicKey, rfl, hkid, rfl,
            List.mem_of_find?_eq_some hf, ?_, hpem, hrsa, hver, hcl, hiss⟩
          have := List.find?_some hf
          simpa using this
    · simp at h

/-- A result of `validateToken` that is not a set of claims is an error. -/
theorem validateToken_error_of_not_ok (am : AuthMiddleware) (env : AuthEnv)
    (tokenString : String)
    (h : ∀ claims, (am.validateToken env tokenString).1 ≠ Except.ok claims) :
    ∃ e, (am.validateToken env tokenString).1 = Except.error e := by
  cases hr : (am.validateToken env tokenString).1 with
  | error e => exact ⟨e, rfl⟩
  | ok claims => exact absurd hr (h claims)

/-- C19: `validateToken` accepts a token only if the token header carries a
string kid, the key set contains a key with that kid, the signature is
verified with an RSA signing method (and the key read from the configured
secret), and, when SupabaseURL is not empty, the issuer of the claims is
SupabaseURL + "/auth/v1"; the claims returned are those of the token.  A
missing kid, a missing key, a signature failure or an issuer mismatch each
makes it return an error and no claims. -/
theorem C19_validateToken_accepts_only (am : AuthMiddleware) (env : AuthEnv)
    (tokenString : String) :
    (∀ claims, (am.validateToken env tokenString).1 = Except.ok claims →
      ∃ token kid jwks key publicKey,
        env.ParseUnverified tokenString = Except.ok token
        ∧ token.kid = some (Value.str kid)
        ∧ (am.getJWKS env).1 = Except.ok jwks
        ∧ key ∈ jwks.Keys ∧ key.Kid = kid
        ∧ env.ParseRSAPublicKeyFromPEM am.cfg.SupabaseJWTSecret = Except.ok publicKey
        ∧ token.isRSA = true
        ∧ env.Verify tokenString publicKey = Except.ok ()
        ∧ claims = token.Claims
        ∧ (am.cfg.SupabaseURL ≠ "" → claims.Issuer = am.cfg.SupabaseURL ++ "/auth/v1"))
    ∧ (∀ token, env.ParseUnverified tokenString = Except.ok token →
        (∀ kid, token.kid ≠ some (Value.str kid)) →
        am.validateToken env tokenString = (Except.error "token missing kid header", am))
    ∧ (∀ token kid jwks, env.ParseUnverified tokenString = Except.ok token →
        token.kid = some (Value.str kid) → (am.getJWKS env).1 = Except.ok jwks →
        (∀ key ∈ jwks.Keys, key.Kid ≠ kid) →
        (am.validateToken env tokenString).1 = Except.error "key not found in JWKS")
    ∧ ((∀ publicKey, env.ParseRSAPublicKeyFromPEM am.cfg.SupabaseJWTSecret
            = Except.ok publicKey →
          env.Verify tokenString publicKey ≠ Except.ok ()) →
        ∃ e, (am.validateToken env tokenString).1 = Except.error e)
    ∧ ((∀ token, env.ParseUnverified tokenString = Except.ok token → token.isRSA = false) →
        ∃ e, (am.validateToken env tokenString).1 = Except.error e)
    ∧ (am.cfg.SupabaseURL ≠ "" →
        (∀ token, env.ParseUnverified tokenString = Except.ok token →
          token.Claims.Issuer ≠ am.cfg.SupabaseURL ++ "/auth/v1") →
        ∃ e, (am.validateToken env tokenString).1 = Except.error e) := by
  refine ⟨validateToken_ok am env tokenString, ?_, ?_, ?_, ?_, ?_⟩
  · intro token hu hkid
    unfold AuthMiddleware.validateToken
    rw [hu]
    cases hk : token.kid with
    | none => simp only
    | some v =>
      cases v with
      | str kid => exact absurd hk (hkid kid)
      | claims c => simp only
      | other text => simp only
  · intro token kid jwks hu hkid hj hno
    unfold AuthMiddleware.validateToken
    rw [hu]
    simp only [hkid]
    rcases hj2 : am.getJWKS env with ⟨res, am1, urls⟩
    rw [hj2] at hj
    simp only at hj
    subst hj
    simp only
    have hf : jwks.Keys.find? (fun key => key.Kid == kid) = none := by
      rw [List.find?_eq_none]
      intro key hmem
      simpa using hno key hmem
    rw [hf]
  · intro hsig
    apply validateToken_error_of_not_ok
    intro claims h
    obtain ⟨_, _, _, _, publicKey, _, _, _, _, _, hpem, _, hver, _, _⟩ :=
      validateToken_ok am env tokenString claims h
    exact hsig publicKey hpem hver
  · intro hrsa
    apply validateToken_error_of_not_ok
    intro claims h
    obtain ⟨token, _, _, _, _, hu, _, _, _, _, _, hr, _, _, _⟩ :=
      validateToken_ok am env tokenString claims h
    rw [hrsa token hu] at hr
    exact absurd hr (by decide)
  · intro hurl hiss
    apply validateToken_error_of_not_ok
    intro claims h
    obtain ⟨token, _, _, _, _, hu, _, _, _, _, _, _, _, hcl, hi⟩ :=
      validateToken_ok am env tokenString claims h
    have := hi hurl
    rw [hcl] at this
    exact hiss token hu this

/-- Witness of C19: in the sample environment the token "good" is accepted,
with the claims of the token. -/
theorem C19_validateToken_accepts_only_witness :
    (sampleAuth.validateToken sampleAuthEnv "good").1 = Except.ok sampleClaims
      ∧ sampleClaims.Issuer = sampleAuth.cfg.SupabaseURL ++ "/auth/v1" := by
  have hok : (sampleAuth.validateToken sampleAuthEnv "good").1 = Except.ok sampleClaims := by
    rw [validateToken_sample]
  obtain ⟨_, _, _, _, _, _, _, _, _, _, _, _, _, _, hiss⟩ :=
    (C19_validateToken_accepts_only sampleAuth sampleAuthEnv "good").1 sampleClaims hok
  exact ⟨hok, hiss (by decide)⟩


/-! ## The calendar -/

/-- The Gregorian calendar repeats every 400 years, which are 146097 days. -/
theorem daysSinceEpoch_period (r k : Int) :
    daysSinceEpoch (r + 400 * k) = daysSinceEpoch r + 146097 * k := by
  unfold daysSinceEpoch
  simp only
  omega

theorem isLeap_period (r k : Int) : isLeap (r + 400 * k) = isLeap r := by
  unfold isLeap
  have h4 : (r + 400 * k) % 4 = r % 4 := by omega
  have h100 : (r + 400 * k) % 100 = r % 100 := by omega
  have h400 : (r + 400 * k) % 400 = r % 400 := by omega
  rw [h4, h100, h400]

theorem civilFromDays_period (z k : Int) :
    civilFromDays (z + 146097 * k)
      = ((civilFromDays z).1 + 400 * k, (civilFromDays z).2.1, (civilFromDays z).2.2) := by
  unfold civilFromDays
  have h1 : (z + 146097 * k + 719468) / 146097 = (z + 719468) / 146097 + k := by omega
  have h2 : (z + 146097 * k + 719468) % 146097 = (z + 719468) % 146097 := by omega
  simp only [h1, h2]
  split_ifs <;> simp <;> ring

/-- A year has 365 days, and one more when it is a leap year. -/
theorem daysSinceEpoch_succ (y : Int) :
    daysSinceEpoch (y + 1) = daysSinceEpoch y + 365 + (if isLeap y = true then 1 else 0) := by
  unfold daysSinceEpoch isLeap
  simp only [Bool.and_eq_true, Bool.or_eq_true, decide_eq_true_eq, ne_eq]
  split_ifs with h <;> omega

/-- The civil date of the first day of each month of the years 0 to 399. -/
theorem firstOfMonth_base : ∀ r : Nat, r < 400 → ∀ m : Nat, m < 12 →
    civilFromDays (daysSinceEpoch (r : Int) + daysBefore ((m : Int) + 1)
      + (if isLeap (r : Int) = true ∧ ((m : Int) + 1) ≥ 3 then 1 else 0))
      = ((r : Int), (m : Int) + 1, 1) := by
  decide!

/-- The civil date of the day number of the first day of a month is that
day: `civilFromDays` inverts the day count of `Date`. -/
theorem firstOfMonth_civil (y m : Int) (h1 : 1 ≤ m) (h12 : m ≤ 12) :
    civilFromDays (daysSinceEpoch y + daysBefore m
      + (if isLeap y = true ∧ m ≥ 3 then 1 else 0)) = (y, m, 1) := by
  have hy : y = ((y % 400).toNat : Int) + 400 * (y / 400) := by omega
  have hm : m = ((m - 1).toNat : Int) + 1 := by omega
  have hr : (y % 400).toNat < 400 := by omega
  have hmm : (m - 1).toNat < 12 := by omega
  have hb := firstOfMonth_base (y % 400).toNat hr (m - 1).toNat hmm
  rw [← hm] at hb
  rw [hy, daysSinceEpoch_period, isLeap_period]
  have hsum : daysSinceEpoch ((y % 400).toNat : Int) + 146097 * (y / 400) + daysBefore m
      + (if isLeap ((y % 400).toNat : Int) = true ∧ m ≥ 3 then 1 else 0)
      = daysSinceEpoch ((y % 400).toNat : Int) + daysBefore m
        + (if isLeap ((y % 400).toNat : Int) = true ∧ m ≥ 3 then 1 else 0)
        + 146097 * (y / 400) := by ring
  rw [hsum, civilFromDays_period, hb]

/-- Midnight of the first day of a month, in days: `Date` normalises the
month into the year. -/
theorem Date_firstOfMonth (y m : Int) :
    Date y m 1 0 0 0
      = (daysSinceEpoch (y + (m - 1) / 12) + daysBefore ((m - 1) % 12 + 1)
          + (if isLeap (y + (m - 1) / 12) = true ∧ (m - 1) % 12 + 1 ≥ 3 then 1 else 0))
        * (86400 * Second) := by
  unfold Date
  simp only
  ring

/-- One month after the first day of a month is the first day of the next
month. -/
theorem AddDate_firstOfMonth (y m : Int) :
    (Date y m 1 0 0 0).AddDate 0 1 0 = Date y (m + 1) 1 0 0 0 := by
  have hm1 : 1 ≤ (m - 1) % 12 + 1 := by omega
  have hm12 : (m - 1) % 12 + 1 ≤ 12 := by omega
  have hciv := firstOfMonth_civil (y + (m - 1) / 12) ((m - 1) % 12 + 1) hm1 hm12
  have hpos : (0 : Int) < 86400 * Second := by decide
  unfold Time.AddDate
  simp only
  rw [Date_firstOfMonth y m, Int.mul_ediv_cancel _ (ne_of_gt hpos), Int.mul_emod_left, hciv]
  simp only [add_zero]
  have hy : y + (m - 1) / 12 + ((m - 1) % 12 + 1 + 1 - 1) / 12 = y + (m + 1 - 1) / 12 := by
    omega
  have hmo : ((m - 1) % 12 + 1 + 1 - 1) % 12 = (m + 1 - 1) % 12 := by omega
  rw [Date_firstOfMonth, Date_firstOfMonth, hy, hmo]

/-- A month has 28 to 31 days. -/
theorem month_length (y m : Int) :
    28 * (86400 * Second) ≤ Date y (m + 1) 1 0 0 0 - Date y m 1 0 0 0
      ∧ Date y (m + 1) 1 0 0 0 - Date y m 1 0 0 0 ≤ 31 * (86400 * Second) := by
  have hsucc := daysSinceEpoch_succ (y + (m - 1) / 12)
  rw [Date_firstOfMonth, Date_firstOfMonth]
  obtain ⟨k, hk⟩ : ∃ k, k = (m - 1) % 12 := ⟨_, rfl⟩
  have hk0 : 0 ≤ k := by omega
  have hk11 : k ≤ 11 := by omega
  have hnext : (m + 1 - 1) % 12 = (if k = 11 then 0 else k + 1) := by
    split_ifs <;> omega
  have hyear : y + (m + 1 - 1) / 12 = (if k = 11 then y + (m - 1) / 12 + 1 else y + (m - 1) / 12) := by
    split_ifs <;> omega
  rw [hnext, hyear, ← hk]
  generalize y + (m - 1) / 12 = yy at *
  unfold Second
  interval_cases k <;> simp [daysBefore] <;> (try rw [hsucc]) <;>
    cases isLeap yy <;> (try simp) <;> simp only [Duration, Time] at * <;> omega

/-- The range of `GetCashFlow` when neither bound is supplied: the current
month, from its first midnight to the last second before the next month. -/
theorem cashFlowRange_default (clock : Clock) (q : QueryParams)
    (hs : Query q "start_date" = "") (he : Query q "end_date" = "") :
    cashFlowRange clock q
      = Except.ok (Date clock.Year clock.Month 1 0 0 0,
          Date clock.Year (clock.Month + 1) 1 0 0 0 - Second) := by
  unfold cashFlowRange
  simp only [hs, he, ne_eq, not_true_eq_false, if_false]
  rw [AddDate_firstOfMonth]
  simp only [Time.Add, Except.ok.injEq, Prod.mk.injEq, true_and]
  exact (Int.sub_eq_add_neg).symm

/-- C28: the default cash-flow range always passes validation.  When neither
start_date nor end_date is supplied, for every reading of the clock the
range runs from 00:00:00 UTC on the first day of the current month to one
second before the first day of the next month; its end is not before its
start, its length is between 28 days minus one second and 31 days minus one
second, so at most 365 days, and `GetCashFlow` does not answer 400: it calls
the repository with that range and answers 200 or 500. -/
theorem C28_default_cash_flow_range (repo : ReportsRepositories) (clock : Clock)
    (userID : String) (q : QueryParams)
    (hs : Query q "start_date" = "") (he : Query q "end_date" = "") :
    ∃ startDate endDate,
      cashFlowRange clock q = Except.ok (startDate, endDate)
      ∧ startDate = Date clock.Year clock.Month 1 0 0 0
      ∧ endDate = Date clock.Year (clock.Month + 1) 1 0 0 0 - Second
      ∧ endDate.Before startDate = false
      ∧ 28 * 24 * Hour - Second ≤ endDate.Sub startDate
      ∧ endDate.Sub startDate ≤ 31 * 24 * Hour - Second
      ∧ ¬ endDate.Sub startDate > 365 * 24 * Hour
      ∧ (ReportsHandler.GetCashFlow repo clock userID q).1.status ≠ StatusBadRequest
      ∧ ((ReportsHandler.GetCashFlow repo clock userID q).1.status = StatusOK
          ∨ (ReportsHandler.GetCashFlow repo clock userID q).1.status
              = StatusInternalServerError)
      ∧ (ReportsHandler.GetCashFlow repo clock userID q).2
          = [RepoCall.GetCashFlow userID startDate endDate] := by
  obtain ⟨hlo, hhi⟩ := month_length clock.Year clock.Month
  have hrange := cashFlowRange_default clock q hs he
  generalize hS : Date clock.Year clock.Month 1 0 0 0 = startDate at *
  generalize hE : Date clock.Year (clock.Month + 1) 1 0 0 0 = nextMonth at *
  have hbefore : (nextMonth - Second : Time).Before startDate = false := by
    unfold Time.Before
    unfold Second at *
    simp only [Duration, Time, decide_eq_false_iff_not] at *
    omega
  have hsub : (nextMonth - Second : Time).Sub startDate = nextMonth - Second - startDate := by
    unfold Time.Sub maxDuration minDuration
    unfold Second at *
    simp only [Duration, Time] at *
    split_ifs <;> omega
  have hlen1 : 28 * 24 * Hour - Second ≤ (nextMonth - Second : Time).Sub startDate := by
    rw [hsub]
    unfold Hour Second at *
    simp only [Duration, Time] at *
    omega
  have hlen2 : (nextMonth - Second : Time).Sub startDate ≤ 31 * 24 * Hour - Second := by
    rw [hsub]
    unfold Hour Second at *
    simp only [Duration, Time] at *
    omega
  have hcap : ¬ (nextMonth - Second : Time).Sub startDate > 365 * 24 * Hour := by
    rw [hsub]
    unfold Hour Second at *
    simp only [Duration, Time] at *
    omega
  have hrun : ReportsHandler.GetCashFlow repo clock userID q
      = match repo.GetCashFlow userID startDate (nextMonth - Second) with
        | Except.error e =>
          ({ status := StatusInternalServerError,
             body := Body.error "Failed to generate cash flow report" (some e) },
            [RepoCall.GetCashFlow userID startDate (nextMonth - Second)])
        | Except.ok cashFlow =>
          ({ status := StatusOK, body := Body.cashFlow cashFlow },
            [RepoCall.GetCashFlow userID startDate (nextMonth - Second)]) := by
    unfold ReportsHandler.GetCashFlow
    rw [hrange]
    simp only [hbefore, Bool.false_eq_true, if_false, if_neg hcap]
  refine ⟨startDate, nextMonth - Second, hrange, rfl, rfl, hbefore, hlen1, hlen2, hcap, ?_, ?_, ?_⟩
  · rw [hrun]
    cases repo.GetCashFlow userID startDate (nextMonth - Second) <;>
      simp [StatusOK, StatusInternalServerError, StatusBadRequest]
  · rw [hrun]
    cases repo.GetCashFlow userID startDate (nextMonth - Second)
    · exact Or.inr rfl
    · exact Or.inl rfl
  · rw [hrun]
    cases repo.GetCashFlow userID startDate (nextMonth - Second) <;> rfl

/-- Witness of C28: on 2024-01-01 a request without dates asks the
repository for the cash flow from 2024-01-01T00:00:00Z to
2024-01-31T23:59:59Z. -/
theorem C28_default_cash_flow_range_witness :
    (ReportsHandler.GetCashFlow failingRepo sampleClock "u1" []).2
      = [RepoCall.GetCashFlow "u1" 1704067200000000000 1706745599000000000] := by
  obtain ⟨startDate, endDate, _, h1, h2, _, _, _, _, _, _, hcalls⟩ :=
    C28_default_cash_flow_range failingRepo sampleClock "u1" [] rfl rfl
  rw [hcalls, h1, h2]
  decide

/-! ## Ownership -/

/-- The table and the clock after a successful read of a goal. -/
theorem GetGoalByID_frame (id : String) (db db1 : DB) (goal : Goal)
    (h : PostgresRepositories.GetGoalByID id db = (Except.ok goal, db1)) :
    db1.goals = db.goals ∧ db1.now = db.now := by
  obtain ⟨_, hdb1, _⟩ := GetGoalByID_ok id db db1 goal h
  rw [hdb1]
  exact ⟨DB.fault_goals db, DB.fault_now db⟩

/-- C21, counterexample: the goal "g1" is stored for user "u1"; a PUT on it
by user "u2" whose body does not decode is answered with 400 "Invalid request
body" and not with 403, and so is a PATCH of its progress without an
amount. -/
theorem C21_counterexample :
    sampleDB.stored "g1" = some sampleGoal
      ∧ sampleGoal.UserID ≠ "u2"
      ∧ (GoalsHandler.UpdateGoal "u2" "g1" (Except.error "unexpected EOF") sampleDB).1
          = { status := 400, body := Body.error "Invalid request body" (some "unexpected EOF") }
      ∧ (GoalsHandler.UpdateGoalProgress "u2" "g1"
            (Except.ok { Amount := none, SetAbsolute := none }) sampleDB).1.status = 400
      ∧ (GoalsHandler.UpdateGoal "u2" "g1" (Except.error "unexpected EOF") sampleDB).1
          ≠ accessDenied := by
  refine ⟨rfl, by decide, rfl, rfl, ?_⟩
  intro h
  have hs := congrArg Response.status h
  exact absurd hs (by decide)

/-- C21, amended: once the request body is bound (`UpdateGoal` and
`UpdateGoalProgress`; the other three operations have no body) and
`GetGoalByID` has returned the stored goal, a goal whose user_id differs from
the authenticated user id gives 403 "Access denied" with an error body that
carries no field of the goal, and the database is left as the read left it:
its rows are those before the request and no statement follows the read, so
neither `UpdateGoal` nor `DeleteGoal` of the repository is issued.  A body
that does not bind is answered with 400 before the goal is read. -/
theorem C21_ownership_mismatch (clock : Clock) (userID goalID : String) (db db1 : DB)
    (goal : Goal)
    (hread : PostgresRepositories.GetGoalByID goalID db = (Except.ok goal, db1))
    (hother : goal.UserID ≠ userID) :
    GoalsHandler.GetGoal userID goalID db = (accessDenied, db1)
      ∧ GoalsHandler.DeleteGoal userID goalID db = (accessDenied, db1)
      ∧ GoalsHandler.GetGoalProgress clock userID goalID db = (accessDenied, db1)
      ∧ (∀ req, GoalsHandler.UpdateGoal userID goalID (Except.ok req) db = (accessDenied, db1))
      ∧ (∀ body amount setAbsolute,
          bindProgressUpdate body = Except.ok (amount, setAbsolute) →
          GoalsHandler.UpdateGoalProgress userID goalID body db = (accessDenied, db1))
      ∧ accessDenied = { status := 403, body := Body.error "Access denied" none }
      ∧ db.stored goalID = some goal
      ∧ db1 = db.fault.2
      ∧ db1.goals = db.goals
      ∧ (∀ e, GoalsHandler.UpdateGoal userID goalID (Except.error e) db = (invalidBody e, db))
      ∧ (∀ body e, bindProgressUpdate body = Except.error e →
          GoalsHandler.UpdateGoalProgress userID goalID body db = (invalidBody e, db)) := by
  obtain ⟨hst, hdb1, _⟩ := GetGoalByID_ok goalID db db1 goal hread
  refine ⟨?_, ?_, ?_, ?_, ?_, rfl, hst, hdb1, (GetGoalByID_frame goalID db db1 goal hread).1,
    ?_, ?_⟩
  · unfold GoalsHandler.GetGoal
    rw [hread]
    simp only [if_pos hother]
  · unfold GoalsHandler.DeleteGoal
    rw [hread]
    simp only [if_pos hother]
  · unfold GoalsHandler.GetGoalProgress
    rw [hread]
    simp only [if_pos hother]
  · intro req
    unfold GoalsHandler.UpdateGoal
    simp only [hread, if_pos hother]
  · intro body amount setAbsolute hbind
    unfold GoalsHandler.UpdateGoalProgress
    rw [hbind]
    simp only [hread, if_pos hother]
  · intro e
    rfl
  · intro body e hbind
    unfold GoalsHandler.UpdateGoalProgress
    rw [hbind]

/-- Witness of C21 (amended): user "u2" asks for, updates and deletes the
goal "g1" of user "u1"; each answer is 403 and the database is unchanged. -/
theorem C21_ownership_mismatch_witness :
    GoalsHandler.GetGoal "u2" "g1" sampleDB = (accessDenied, sampleDB)
      ∧ GoalsHandler.DeleteGoal "u2" "g1" sampleDB = (accessDenied, sampleDB)
      ∧ GoalsHandler.UpdateGoal "u2" "g1" (Except.ok renameOnly) sampleDB
          = (accessDenied, sampleDB) :=
  have h := C21_ownership_mismatch sampleClock "u2" "g1" sampleDB sampleDB sampleGoal rfl
    (by decide)
  ⟨h.1, h.2.1, h.2.2.2.1 renameOnly⟩

/-! ## Soft delete -/

/-- What a successful repository `DeleteGoal` has done: every row passed
through its SET clause, and at least one row has the id. -/
theorem repo_DeleteGoal_ok (id : String) (db db2 : DB) (u : Unit)
    (h : PostgresRepositories.DeleteGoal id db = (Except.ok u, db2)) :
    db2.goals = db.goals.map (deactivateRow id db.now)
      ∧ db.goals.any (fun g => g.ID == id) = true := by
  unfold PostgresRepositories.DeleteGoal at h
  rcases hf : db.fault with ⟨f, d⟩
  rw [hf] at h
  have hg : d.goals = db.goals := by
    have := DB.fault_goals db
    rw [hf] at this
    exact this
  have hn : d.now = db.now := by
    have := DB.fault_now db
    rw [hf] at this
    exact this
  cases f with
  | some e => simp at h
  | none =>
    simp only at h
    split at h
    · rename_i hany
      simp only [Prod.mk.injEq, Except.ok.injEq] at h
      rw [← h.2, ← hn, ← hg]
      exact ⟨rfl, hany⟩
    · simp at h

/-- A successful `DeleteGoal` (status 200): the caller owns the stored goal
and the repository `DeleteGoal` succeeded after the read. -/
theorem DeleteGoal_ok (userID goalID : String) (db db2 : DB) (resp : Response)
    (hrun : GoalsHandler.DeleteGoal userID goalID db = (resp, db2))
    (hok : resp.status = StatusOK) :
    ∃ goal db1,
      PostgresRepositories.GetGoalByID goalID db = (Except.ok goal, db1)
      ∧ goal.UserID = userID
      ∧ PostgresRepositories.DeleteGoal goalID db1 = (Except.ok (), db2)
      ∧ resp = { status := StatusOK, body := Body.message "Goal deleted successfully" } := by
  unfold GoalsHandler.DeleteGoal at hrun
  rcases hget : PostgresRepositories.GetGoalByID goalID db with ⟨r, db1⟩
  rw [hget] at hrun
  cases r with
  | error e =>
    simp only [Prod.mk.injEq] at hrun
    rw [← hrun.1] at hok
    exact absurd hok (by decide)
  | ok goal =>
    simp only at hrun
    by_cases hown : goal.UserID = userID
    · rw [if_neg (not_not.mpr hown)] at hrun
      rcases hdel : PostgresRepositories.DeleteGoal goalID db1 with ⟨r2, db3⟩
      rw [hdel] at hrun
      cases r2 with
      | error e =>
        simp only [Prod.mk.injEq] at hrun
        rw [← hrun.1] at hok
        exact absurd hok (by simp [StatusInternalServerError, StatusOK])
      | ok u =>
        simp only [Prod.mk.injEq] at hrun
        exact ⟨goal, db1, rfl, hown, by rw [← hrun.2]; exact hdel, hrun.1.symm⟩
    · rw [if_pos hown] at hrun
      simp only [Prod.mk.injEq] at hrun
      rw [← hrun.1] at hok
      exact absurd hok (by decide)

/-- The first row with a given id after the SET clause of `DeleteGoal` ran
on the table: for the deleted id it is the old row with the flag cleared, for
any other id it is the old row. -/
theorem find_deactivateRow (id id1 : String) (now : Time) (goals : List Goal) :
    (goals.map (deactivateRow id now)).find? (fun g => g.ID == id1)
      = (goals.find? (fun g => g.ID == id1)).map (deactivateRow id now) := by
  induction goals with
  | nil => rfl
  | cons g rest ih =>
    have hid : (deactivateRow id now g).ID = g.ID := by
      unfold deactivateRow
      split <;> rfl
    rw [List.map_cons, List.find?_cons, List.find?_cons, hid]
    cases g.ID == id1
    · simpa using ih
    · rfl

/-- C22: deleting a goal is a soft delete.  After a successful `DeleteGoal`
the table is the old table, row by row and in the same order, in which each
row with the deleted id has is_active = false and updated_at = NOW() and
every other column as before, and every row with another id is as before; no
row is removed or added.  The goal is still stored under its id, and a later
`GetGoalsByUserID`, which lists only rows with is_active = true, does not
return it. -/
theorem C22_soft_delete (userID goalID : String) (db db2 : DB) (resp : Response)
    (hrun : GoalsHandler.DeleteGoal userID goalID db = (resp, db2))
    (hok : resp.status = StatusOK) :
    db2.goals
        = db.goals.map
            (fun g => if g.ID = goalID then { g with IsActive := false, UpdatedAt := db.now }
              else g)
      ∧ db2.goals.length = db.goals.length
      ∧ (∃ goal, db.stored goalID = some goal
          ∧ goal.UserID = userID
          ∧ db2.stored goalID = some { goal with IsActive := false, UpdatedAt := db.now })
      ∧ (∀ id, id ≠ goalID → db2.stored id = db.stored id)
      ∧ (∀ uid db3 db4 goals, db3.goals = db2.goals →
          PostgresRepositories.GetGoalsByUserID uid db3 = (Except.ok goals, db4) →
          goals = db2.goals.filter (fun g => g.UserID == uid && g.IsActive)
            ∧ ∀ g ∈ goals, g.IsActive = true ∧ g.ID ≠ goalID) := by
  obtain ⟨goal, db1, hget, hown, hdel, _⟩ := DeleteGoal_ok userID goalID db db2 resp hrun hok
  obtain ⟨hst, _, _⟩ := GetGoalByID_ok goalID db db1 goal hget
  obtain ⟨hg1, hn1⟩ := GetGoalByID_frame goalID db db1 goal hget
  obtain ⟨hgoals, _⟩ := repo_DeleteGoal_ok goalID db1 db2 () hdel
  rw [hg1, hn1] at hgoals
  have hrow : ∀ g : Goal, deactivateRow goalID db.now g
      = (if g.ID = goalID then { g with IsActive := false, UpdatedAt := db.now } else g) := by
    intro g
    unfold deactivateRow
    by_cases h : g.ID = goalID
    · simp [h]
    · simp [h]
  have hact : ∀ g ∈ db2.goals, g.IsActive = true → g.ID ≠ goalID := by
    intro g hg hactive hid
    rw [hgoals, List.mem_map] at hg
    obtain ⟨g0, _, rfl⟩ := hg
    rw [hrow] at hactive hid
    by_cases h : g0.ID = goalID
    · rw [if_pos h] at hactive
      simp at hactive
    · rw [if_neg h] at hid
      exact h hid
  refine ⟨?_, ?_, ⟨goal, hst, hown, ?_⟩, ?_, ?_⟩
  · rw [hgoals]
    exact List.map_congr_left (fun g _ => hrow g)
  · rw [hgoals, List.length_map]
  · unfold DB.stored at hst ⊢
    rw [hgoals, find_deactivateRow, hst, Option.map_some', hrow]
    have hid : goal.ID = goalID := by
      have := List.find?_some hst
      simpa using this
    rw [if_pos hid]
  · intro id hne
    unfold DB.stored
    rw [hgoals, find_deactivateRow]
    cases hfind : db.goals.find? (fun g => g.ID == id) with
    | none => rfl
    | some g =>
      have hid : g.ID = id := by
        have := List.find?_some hfind
        simpa using this
      rw [Option.map_some', hrow, if_neg (by rw [hid]; exact hne)]
  · intro uid db3 db4 goals hsame hlist
    unfold PostgresRepositories.GetGoalsByUserID at hlist
    rcases hf : db3.fault with ⟨f, d⟩
    rw [hf] at hlist
    have hg : d.goals = db3.goals := by
      have := DB.fault_goals db3
      rw [hf] at this
      exact this
    cases f with
    | some e => simp at hlist
    | none =>
      simp only [Prod.mk.injEq, Except.ok.injEq] at hlist
      rw [hg, hsame] at hlist
      refine ⟨hlist.1.symm, ?_⟩
      intro g hgmem
      rw [← hlist.1, List.mem_filter] at hgmem
      obtain ⟨hmem, hcond⟩ := hgmem
      simp only [Bool.and_eq_true] at hcond
      exact ⟨hcond.2, hact g hmem hcond.2⟩

/-- Witness of C22: user "u1" deletes the goal "g1"; the row stays in the
table with is_active = false, and the list of the goals of "u1" is empty
afterwards. -/
theorem C22_soft_delete_witness :
    (GoalsHandler.DeleteGoal "u1" "g1" sampleDB).1.status = StatusOK
      ∧ (GoalsHandler.DeleteGoal "u1" "g1" sampleDB).2.goals
          = [{ sampleGoal with IsActive := false, UpdatedAt := 5 }]
      ∧ (PostgresRepositories.GetGoalsByUserID "u1"
          (GoalsHandler.DeleteGoal "u1" "g1" sampleDB).2).1 = Except.ok [] := by
  have h := C22_soft_delete "u1" "g1" sampleDB (GoalsHandler.DeleteGoal "u1" "g1" sampleDB).2
    (GoalsHandler.DeleteGoal "u1" "g1" sampleDB).1 rfl rfl
  refine ⟨rfl, ?_, rfl⟩
  rw [h.1]
  rfl

/-! ## The accessors of the identity -/

/-- C23: the identity accessors read back what was stored.  For every
string s and every context, after `c.Set("user_id", s)` `GetUserID` returns
(s, true), and after `c.Set("user_email", s)` `GetUserEmail` returns
(s, true), whatever the key held before; when the key is not set the
accessor returns ("", false).  A value under the key that is not a string
also gives ("", false). -/
theorem C23_identity_accessors (c : Context) (s : String) :
    GetUserID (c.Set "user_id" (Value.str s)) = (s, true)
      ∧ GetUserEmail (c.Set "user_email" (Value.str s)) = (s, true)
      ∧ (c.Get "user_id" = none → GetUserID c = ("", false))
      ∧ (c.Get "user_email" = none → GetUserEmail c = ("", false))
      ∧ (∀ claims, GetUserID (c.Set "user_id" (Value.claims claims)) = ("", false))
      ∧ (∀ text, GetUserEmail (c.Set "user_email" (Value.other text)) = ("", false)) := by
  refine ⟨?_, ?_, ?_, ?_, ?_, ?_⟩
  · simp [GetUserID, Context.Get, Context.Set, List.lookup]
  · simp [GetUserEmail, Context.Get, Context.Set, List.lookup]
  · intro h
    unfold GetUserID
    rw [h]
  · intro h
    unfold GetUserEmail
    rw [h]
  · intro claims
    simp [GetUserID, Context.Get, Context.Set, List.lookup]
  · intro text
    simp [GetUserEmail, Context.Get, Context.Set, List.lookup]

/-- Witness of C23: the values of the tests are read back, and a request
without keys has neither a user id nor an email. -/
theorem C23_identity_accessors_witness :
    GetUserID (bareRequest.Set "user_id" (Value.str "test-user-123")) = ("test-user-123", true)
      ∧ GetUserEmail (bareRequest.Set "user_email" (Value.str "test@example.com"))
          = ("test@example.com", true)
      ∧ GetUserID bareRequest = ("", false)
      ∧ GetUserEmail bareRequest = ("", false) :=
  ⟨(C23_identity_accessors bareRequest "test-user-123").1,
   (C23_identity_accessors bareRequest "test@example.com").2.1,
   (C23_identity_accessors bareRequest "").2.2.1 rfl,
   (C23_identity_accessors bareRequest "").2.2.2.1 rfl⟩

/-! ## The configuration -/

/-- What `getEnvSlice` returns: the whole value as the only item when the
variable is set to a non-empty value, and the default list otherwise. -/
theorem getEnvSlice_eq (getenv : String → String) (key : String) (defaultValue : List String) :
    getEnvSlice getenv key defaultValue
      = if getenv key ≠ "" then [getenv key] else defaultValue := by
  unfold getEnvSlice
  by_cases h : getenv key = ""
  · simp [h]
  · simp [h]

/-- C24: `getEnvSlice` does not split the value.  With
CORS_ALLOWED_ORIGINS set to "http://a,http://b", `getEnvSlice` returns the
one item "http://a,http://b", and that is the list of allowed origins that
`Load` builds; it is not the list of the two origins "http://a" and
"http://b".  With the variable unset the default list is returned. -/
theorem C24_getEnvSlice_keeps_commas :
    getEnvSlice twoOriginsEnv "CORS_ALLOWED_ORIGINS"
        ["http://localhost:3000", "http://localhost:4321"] = ["http://a,http://b"]
      ∧ getEnvSlice twoOriginsEnv "CORS_ALLOWED_ORIGINS"
        ["http://localhost:3000", "http://localhost:4321"] ≠ ["http://a", "http://b"]
      ∧ (∀ ParseDuration, (Load twoOriginsEnv ParseDuration).CORSAllowedOrigins
          = ["http://a,http://b"])
      ∧ getEnvSlice (fun _ => "") "CORS_ALLOWED_ORIGINS"
        ["http://localhost:3000", "http://localhost:4321"]
          = ["http://localhost:3000", "http://localhost:4321"] := by
  have h : getEnvSlice twoOriginsEnv "CORS_ALLOWED_ORIGINS"
      ["http://localhost:3000", "http://localhost:4321"] = ["http://a,http://b"] := by
    rw [getEnvSlice_eq]
    decide
  refine ⟨h, ?_, ?_, ?_⟩
  · rw [h]
    decide
  · intro ParseDuration
    exact h
  · rw [getEnvSlice_eq]
    decide

/-! ## Health -/

/-- C25: for every request, `HealthCheck` answers 200 with status "ok",
service "personal-finance-backend" and version "1.0.0".  The answer is the
same for every context, whatever its headers and keys (so with or without an
identity), up to the timestamp, which is the time of the call; the handler
changes nothing else in the context, and served as the only handler of a
route it writes exactly that answer. -/
theorem C25_HealthCheck (now : Time) (c : Context) (am : AuthMiddleware) :
    (HealthCheck now c).written
        = c.written
          ++ [{ status := 200
                body := Body.health
                  { Status := "ok"
                    Timestamp := now
                    Service := "personal-finance-backend"
                    Version := "1.0.0" } }]
      ∧ (HealthCheck now c).Keys = c.Keys
      ∧ (HealthCheck now c).Header = c.Header
      ∧ (HealthCheck now c).index = c.index
      ∧ (∀ c1 : Context,
          (HealthCheck now c1).written.getLast? = (HealthCheck now c).written.getLast?)
      ∧ (serve [endpoint (fun sc => (sc.1, HealthCheck now sc.2))] (am, c)).2.written
          = c.written
            ++ [{ status := 200
                  body := Body.health
                    { Status := "ok"
                      Timestamp := now
                      Service := "personal-finance-backend"
                      Version := "1.0.0" } }]
      ∧ (serve [endpoint (fun sc => (sc.1, HealthCheck now sc.2))] (am, c)).1 = am := by
  refine ⟨rfl, rfl, rfl, rfl, ?_, ?_, ?_⟩
  · intro c1
    simp [HealthCheck, Context.JSON]
  · simp [serve, runHandlers, endpoint, HealthCheck, Context.JSON, StatusOK]
  · simp [serve, runHandlers, endpoint]

/-! ## `MustGetUserID` behind `RequireAuth` -/

/-- The user id of a context on which the identity was set. -/
theorem GetUserID_setIdentity (c : Context) (claims : UserClaims) (i : Int) :
    GetUserID { c.setIdentity claims with index := i } = (claims.Sub, true) := by
  simp [GetUserID, Context.Get, Context.setIdentity, Context.Set, List.lookup]

/-- C26: the panic in `MustGetUserID` is unreachable behind `RequireAuth`.
`RequireAuth` either answers 401 and aborts without calling the next handler
(its outcome is the same for every continuation), or it calls the next
handler exactly on the context on which it has set the identity, where
"user_id" is the sub of the token's claims as a string; on that context
`GetUserID` returns (sub, true) and `MustGetUserID` returns sub and does not
panic.  So in the chain of `RequireAuth` and a final handler, the handler
either does not run or runs once on such a context.  On any context
`MustGetUserID` panics exactly when `GetUserID` reports false. -/
theorem C26_MustGetUserID_behind_RequireAuth (env : AuthEnv)
    (f : AuthMiddleware × Context → AuthMiddleware × Context) (am : AuthMiddleware)
    (c : Context) :
    ((∃ am1 msg details,
        (∀ next, AuthMiddleware.RequireAuth env next (am, c)
          = (am1, c.unauthorized msg details))
        ∧ serve [AuthMiddleware.RequireAuth env, endpoint f] (am, c)
            = rejected am1 c msg details)
      ∨ (∃ am1 claims,
          (∀ next, AuthMiddleware.RequireAuth env next (am, c)
            = next (am1, c.setIdentity claims))
          ∧ serve [AuthMiddleware.RequireAuth env, endpoint f] (am, c)
              = ((f (am1, { c.setIdentity claims with index := 1 })).1,
                  { (f (am1, { c.setIdentity claims with index := 1 })).2 with index := 3 })
          ∧ GetUserID (c.setIdentity claims) = (claims.Sub, true)
          ∧ MustGetUserID (c.setIdentity claims) = Except.ok claims.Sub
          ∧ GetUserID { c.setIdentity claims with index := 1 } = (claims.Sub, true)
          ∧ MustGetUserID { c.setIdentity claims with index := 1 } = Except.ok claims.Sub))
    ∧ (∀ c1 : Context, MustGetUserID c1
        = if (GetUserID c1).2 = true then Except.ok (GetUserID c1).1
          else Except.error "user ID not found in context") := by
  constructor
  · rcases accepts_cases am env c with ⟨_, h | ⟨h1, h2⟩ | ⟨h1, tok, e, am1, h2, h3⟩⟩
      | ⟨tok, claims, am1, h1, h2, h3, _, _⟩
    · left
      refine ⟨am, "Authorization header required", none, ?_, ?_⟩
      · intro next
        unfold AuthMiddleware.RequireAuth
        simp only [if_pos h]
      · rw [RequireAuth_serve, if_pos h]
    · left
      refine ⟨am, "Invalid authorization header format", none, ?_, ?_⟩
      · intro next
        unfold AuthMiddleware.RequireAuth
        simp only [if_neg h1, h2]
      · rw [RequireAuth_serve, if_neg h1, h2]
    · left
      refine ⟨am1, "Invalid token", some e, ?_, ?_⟩
      · intro next
        unfold AuthMiddleware.RequireAuth
        simp only [if_neg h1, h2, h3]
      · rw [RequireAuth_serve, if_neg h1, h2]
        simp only [h3]
    · right
      have hid := GetUserID_setIdentity c claims
      refine ⟨am1, claims, ?_, ?_, ?_, ?_, hid 1, ?_⟩
      · intro next
        unfold AuthMiddleware.RequireAuth
        simp only [if_neg h1, h2, h3]
      · rw [RequireAuth_serve, if_neg h1, h2]
        simp only [h3]
        rfl
      · have := hid c.index
        exact this
      · unfold MustGetUserID
        have := hid c.index
        rw [show ({ c.setIdentity claims with index := c.index } : Context)
          = c.setIdentity claims from rfl] at this
        rw [this]
      · unfold MustGetUserID
        rw [hid 1]
  · intro c1
    unfold MustGetUserID
    rcases hg : GetUserID c1 with ⟨userID, ok⟩
    cases ok with
    | true => simp
    | false => simp

/-! ## The frame of `UpdateGoal` -/

/-- The name, description and target date that the field updates of
`UpdateGoal` leave when every check passes. -/
theorem applyUpdateGoal_kept (req : UpdateGoalRequest) (goal g1 : Goal)
    (h : applyUpdateGoal req goal = Except.ok g1) :
    g1.Name = req.Name.getD goal.Name
      ∧ g1.Description = (if req.Description = none then goal.Description else req.Description)
      ∧ g1.TargetDate
          = (match req.TargetDate with
            | none => goal.TargetDate
            | some s => if s = "" then none else parseDate s)
      ∧ (∀ s, req.TargetDate = some s → s ≠ "" → parseDate s ≠ none) := by
  unfold applyUpdateGoal at h
  simp only at h
  split at h
  · simp at h
  · rename_i goal3 h3
    split at h
    · simp at h
    · rename_i goal4 h4
      split at h
      · simp at h
      · rename_i goal5 h5
        obtain ⟨e3, _⟩ := updateTargetAmount_ok _ _ _ h3
        obtain ⟨e4, _⟩ := updateCurrentAmount_ok _ _ _ h4
        have hfin : g1 = { goal5 with IsCompleted := req.IsCompleted.getD goal5.IsCompleted } := by
          cases hic : req.IsCompleted with
          | none => rw [hic] at h; simp only [Except.ok.injEq] at h; subst h; simp
          | some b => rw [hic] at h; simp only [Except.ok.injEq] at h; subst h; simp
        have k3 : goal4.Name = req.Name.getD goal.Name
            ∧ goal4.Description
                = (if req.Description = none then goal.Description else req.Description)
            ∧ goal4.TargetDate = goal.TargetDate := by
          rw [e4, e3]
          cases req.Name <;> cases req.Description <;> exact ⟨rfl, rfl, rfl⟩
        obtain ⟨n3, d3, t3⟩ := k3
        unfold updateTargetDate at h5
        cases hd : req.TargetDate with
        | none =>
          rw [hd] at h5
          simp only [Except.ok.injEq] at h5
          subst h5
          rw [hfin]
          exact ⟨n3, d3, t3, by intro s hs; simp at hs⟩
        | some s =>
          rw [hd] at h5
          simp only at h5
          by_cases hs : s = ""
          · rw [if_pos hs] at h5
            simp only [Except.ok.injEq] at h5
            subst h5
            rw [hfin]
            refine ⟨n3, d3, by simp [hs], ?_⟩
            intro s1 hs1 hne
            simp only [Option.some.injEq] at hs1
            exact absurd (hs1 ▸ hs) hne
          · rw [if_neg hs] at h5
            cases hp : parseDate s with
            | none => rw [hp] at h5; simp at h5
            | some t =>
              rw [hp] at h5
              simp only [Except.ok.injEq] at h5
              subst h5
              rw [hfin]
              refine ⟨n3, d3, by simp [hs, hp], ?_⟩
              intro s1 hs1 _
              simp only [Option.some.injEq] at hs1
              subst hs1
              rw [hp]
              simp

/-- A request that fails validation: a target amount that is not positive, a
negative current amount, or a target date that is neither empty nor a date
`time.Parse` accepts.  The field updates of `UpdateGoal` then stop with a 400
answer, whatever the other fields are. -/
theorem applyUpdateGoal_invalid (req : UpdateGoalRequest) (goal : Goal)
    (h : (∃ t, req.TargetAmount = some t ∧ t ≤ 0)
      ∨ (∃ c, req.CurrentAmount = some c ∧ c < 0)
      ∨ (∃ s, req.TargetDate = some s ∧ s ≠ "" ∧ parseDate s = none)) :
    ∃ msg, applyUpdateGoal req goal = Except.error (badRequest msg) := by
  cases happ : applyUpdateGoal req goal with
  | ok g1 =>
    exfalso
    obtain ⟨_, _, _, _, _, hpos, _, hnonneg, _⟩ := applyUpdateGoal_ok req goal g1 happ
    obtain ⟨_, _, _, hdate⟩ := applyUpdateGoal_kept req goal g1 happ
    rcases h with ⟨t, ht, hle⟩ | ⟨c, hc, hlt⟩ | ⟨s, hs, hne, hp⟩
    · exact absurd (hpos t ht) (not_lt.mpr hle)
    · exact absurd (hnonneg c hc) (not_le.mpr hlt)
    · exact hdate s hs hne hp
  | error r =>
    unfold applyUpdateGoal at happ
    simp only at happ
    split at happ
    · rename_i r3 h3
      simp only [Except.error.injEq] at happ
      subst happ
      unfold updateTargetAmount at h3
      split at h3
      · simp at h3
      · split_ifs at h3
        simp only [Except.error.injEq] at h3
        exact ⟨_, by rw [← h3]⟩
    · split at happ
      · rename_i r4 h4
        simp only [Except.error.injEq] at happ
        subst happ
        unfold updateCurrentAmount at h4
        split at h4
        · simp at h4
        · split_ifs at h4
          simp only [Except.error.injEq] at h4
          exact ⟨_, by rw [← h4]⟩
      · split at happ
        · rename_i r5 h5
          simp only [Except.error.injEq] at happ
          subst happ
          unfold updateTargetDate at h5
          split at h5
          · simp at h5
          · split_ifs at h5
            split at h5
            · simp only [Except.error.injEq] at h5
              exact ⟨"Invalid target_date format. Use YYYY-MM-DD", by rw [← h5]; rfl⟩
            · simp at h5
        · split at happ <;> simp at happ

/-- A request that passes validation passes the field updates of
`UpdateGoal`. -/
theorem applyUpdateGoal_valid (req : UpdateGoalRequest) (goal : Goal)
    (hvalid : ¬ ((∃ t, req.TargetAmount = some t ∧ t ≤ 0)
      ∨ (∃ c, req.CurrentAmount = some c ∧ c < 0)
      ∨ (∃ s, req.TargetDate = some s ∧ s ≠ "" ∧ parseDate s = none))) :
    ∃ g1, applyUpdateGoal req goal = Except.ok g1 := by
  cases happ : applyUpdateGoal req goal with
  | ok g1 => exact ⟨g1, rfl⟩
  | error r =>
    exfalso
    apply hvalid
    unfold applyUpdateGoal at happ
    simp only at happ
    split at happ
    · rename_i r3 h3
      left
      unfold updateTargetAmount at h3
      cases ht : req.TargetAmount with
      | none => rw [ht] at h3; simp at h3
      | some t =>
        rw [ht] at h3
        simp only at h3
        by_cases hle : t ≤ 0
        · exact ⟨t, rfl, hle⟩
        · rw [if_neg hle] at h3
          simp at h3
    · split at happ
      · rename_i r4 h4
        right
        left
        unfold updateCurrentAmount at h4
        cases hc : req.CurrentAmount with
        | none => rw [hc] at h4; simp at h4
        | some c =>
          rw [hc] at h4
          simp only at h4
          by_cases hlt : c < 0
          · exact ⟨c, rfl, hlt⟩
          · rw [if_neg hlt] at h4
            simp at h4
      · split at happ
        · rename_i r5 h5
          right
          right
          unfold updateTargetDate at h5
          cases hd : req.TargetDate with
          | none => rw [hd] at h5; simp at h5
          | some s =>
            rw [hd] at h5
            simp only at h5
            by_cases hs : s = ""
            · rw [if_pos hs] at h5
              simp at h5
            · rw [if_neg hs] at h5
              cases hp : parseDate s with
              | none => exact ⟨s, rfl, hs, hp⟩
              | some t => rw [hp] at h5; simp at h5
        · split at happ <;> simp at happ

/-- C27: `UpdateGoal` changes only the fields present in the request.  For a
goal that `GetGoalByID` returns and the caller owns: a request that fails
validation (a target_amount <= 0, a current_amount < 0, or a target_date that
is neither empty nor a date in the form YYYY-MM-DD) is answered with 400, and
the database is left as the read left it, whatever the other fields of the
request are.  Every other request passes the field updates: the goal handed
to the repository `UpdateGoal` has the id, user_id and is_active of the
stored goal, and each of name, description, target_amount, current_amount,
target_date and is_completed that the request omits has its stored value;
when the answer is 200 that goal, stamped with the time of the update, is the
row stored under the id and the body of the answer. -/
theorem C27_UpdateGoal_frame (userID goalID : String) (req : UpdateGoalRequest) (db db1 : DB)
    (goal : Goal)
    (hread : PostgresRepositories.GetGoalByID goalID db = (Except.ok goal, db1))
    (hown : goal.UserID = userID) :
    (((∃ t, req.TargetAmount = some t ∧ t ≤ 0)
        ∨ (∃ c, req.CurrentAmount = some c ∧ c < 0)
        ∨ (∃ s, req.TargetDate = some s ∧ s ≠ "" ∧ parseDate s = none)) →
      ∃ msg, GoalsHandler.UpdateGoal userID goalID (Except.ok req) db
          = ({ status := 400, body := Body.error msg none }, db1)
        ∧ db1 = db.fault.2
        ∧ db1.goals = db.goals)
    ∧ (¬ ((∃ t, req.TargetAmount = some t ∧ t ≤ 0)
        ∨ (∃ c, req.CurrentAmount = some c ∧ c < 0)
        ∨ (∃ s, req.TargetDate = some s ∧ s ≠ "" ∧ parseDate s = none)) →
      ∃ g1, applyUpdateGoal req goal = Except.ok g1
        ∧ GoalsHandler.UpdateGoal userID goalID (Except.ok req) db
            = (match PostgresRepositories.UpdateGoal g1 db1 with
              | (Except.error e, db2) =>
                ({ status := StatusInternalServerError,
                   body := Body.error "Failed to update goal" (some e) }, db2)
              | (Except.ok goal2, db2) => ({ status := StatusOK, body := Body.goal goal2 }, db2))
        ∧ g1.ID = goal.ID ∧ g1.UserID = goal.UserID ∧ g1.IsActive = goal.IsActive
        ∧ (req.Name = none → g1.Name = goal.Name)
        ∧ (req.Description = none → g1.Description = goal.Description)
        ∧ (req.TargetAmount = none → g1.TargetAmount = goal.TargetAmount)
        ∧ (req.CurrentAmount = none → g1.CurrentAmount = goal.CurrentAmount)
        ∧ (req.TargetDate = none → g1.TargetDate = goal.TargetDate)
        ∧ (req.IsCompleted = none → g1.IsCompleted = goal.IsCompleted)
        ∧ (∀ resp db2, GoalsHandler.UpdateGoal userID goalID (Except.ok req) db = (resp, db2) →
            resp.status = StatusOK →
            db2.stored goalID = some { g1 with UpdatedAt := db.now }
              ∧ resp.body = Body.goal { g1 with UpdatedAt := db.now })) := by
  obtain ⟨hst, hdb1, _⟩ := GetGoalByID_ok goalID db db1 goal hread
  have hnot : ¬ goal.UserID ≠ userID := not_not.mpr hown
  constructor
  · intro hbad
    obtain ⟨msg, hmsg⟩ := applyUpdateGoal_invalid req goal hbad
    refine ⟨msg, ?_, hdb1, (GetGoalByID_frame goalID db db1 goal hread).1⟩
    unfold GoalsHandler.UpdateGoal
    simp only [hread, if_neg hnot, hmsg]
    rfl
  · intro hvalid
    obtain ⟨g1, happ⟩ := applyUpdateGoal_valid req goal hvalid
    obtain ⟨f1, f2, f3, _, f5, _, f7, _, f9⟩ := applyUpdateGoal_ok req goal g1 happ
    obtain ⟨k1, k2, k3, _⟩ := applyUpdateGoal_kept req goal g1 happ
    refine ⟨g1, happ, ?_, f1, f2, f3, ?_, ?_, ?_, ?_, ?_, ?_, ?_⟩
    · unfold GoalsHandler.UpdateGoal
      simp only [hread, if_neg hnot, happ]
    · intro h
      rw [k1, h]
      rfl
    · intro h
      rw [k2, if_pos h]
    · intro h
      rw [f5, h]
      rfl
    · intro h
      rw [f7, h]
      rfl
    · intro h
      rw [k3, h]
    · intro h
      rw [f9, h]
      rfl
    · intro resp db2 hrun hok
      obtain ⟨req1, goal1, g2, hreq, hst1, _, happ1, hnew, hbody⟩ :=
        UpdateGoal_ok userID goalID (Except.ok req) db db2 resp hrun hok
      simp only [Except.ok.injEq] at hreq
      subst hreq
      rw [hst] at hst1
      simp only [Option.some.injEq] at hst1
      subst hst1
      rw [happ] at happ1
      simp only [Except.ok.injEq] at happ1
      subst happ1
      exact ⟨hnew, hbody⟩

/-- Witness of C27: on the sample goal of user "u1", a request that renames
the goal and gives a target amount of 0 is answered with 400 and leaves the
database as it was, although the name was valid. -/
theorem C27_UpdateGoal_frame_witness :
    GoalsHandler.UpdateGoal "u1" "g1" (Except.ok renameWithBadTarget) sampleDB
      = ({ status := 400, body := Body.error "Target amount must be greater than 0" none },
          sampleDB) := by
  obtain ⟨msg, h, _, _⟩ :=
    (C27_UpdateGoal_frame "u1" "g1" renameWithBadTarget sampleDB sampleDB sampleGoal rfl rfl).1
      (Or.inl ⟨0, rfl, le_refl 0⟩)
  have hdirect : (GoalsHandler.UpdateGoal "u1" "g1" (Except.ok renameWithBadTarget) sampleDB).1.body
      = Body.error "Target amount must be greater than 0" none := by
    simp [GoalsHandler.UpdateGoal, PostgresRepositories.GetGoalByID, DB.fault, sampleDB,
      sampleGoal, applyUpdateGoal, renameWithBadTarget, updateTargetAmount, badRequest]
  rw [h] at hdirect ⊢
  simp only [Body.error.injEq, and_true] at hdirect
  rw [hdirect]

/-! ## The divisions of the budget report -/

/-- C29: the division for overall_percentage is not defined for a user
without active budgets.  The repository returns the empty list, the answer is
200 with no entries, and the denominator total_budgeted is 0: the percentage
is 0/0, which is NaN. -/
theorem C29_empty_budget_list_divides_by_zero :
    noBudgetsRepo.GetBudgetsByUserID "u1" = Except.ok []
      ∧ ∃ r, (ReportsHandler.GetBudgetPerformance noBudgetsRepo sampleClock "u1" january2024).1
          = { status := StatusOK, body := Body.budgetPerformance r }
        ∧ r.budget_performance = []
        ∧ r.overall_performance.total_budgeted = 0
        ∧ r.overall_performance.overall_percentage
            = (F64.div r.overall_performance.total_spent
                r.overall_performance.total_budgeted).mulPos 100
        ∧ r.overall_performance.overall_percentage = F64.nan := by
  have h := GetBudgetPerformance_const noBudgetsRepo sampleClock "u1" january2024 1 2024 [] []
    (parseMonthYear_january2024 sampleClock) rfl (fun _ => rfl)
  refine ⟨rfl, _, h, rfl, ?_, rfl, ?_⟩
  · simp [overallPerformance]
  · simp [overallPerformance, F64.div, F64.mulPos]

/-! ## Absolute progress updates -/

/-- Setting the amount of a goal to `a` again, after it was set to `a` and
stored with a new time of update, changes nothing. -/
theorem applyProgress_absolute_idem (a : ℚ) (goal : Goal) (t : Time) :
    applyProgress a (some true) { applyProgress a (some true) goal with UpdatedAt := t }
      = { applyProgress a (some true) goal with UpdatedAt := t } := by
  unfold applyProgress
  simp only [if_true]
  split_ifs <;> simp_all

/-- C30: an absolute progress update is idempotent.  When
`UpdateGoalProgress` with set_absolute = true and amount a is answered with
200 and then, on the table it left (at any later time), is answered with 200
again, the goal stored after the second update is the goal stored after the
first one with a new updated_at: current_amount (which is max(0, a)),
is_completed and every other field are the same. -/
theorem C30_absolute_progress_idempotent (userID goalID : String) (a : ℚ)
    (db db1 later db2 : DB) (resp1 resp2 : Response)
    (hrun1 : GoalsHandler.UpdateGoalProgress userID goalID
      (Except.ok { Amount := some a, SetAbsolute := some true }) db = (resp1, db1))
    (hok1 : resp1.status = StatusOK)
    (hlater : later.goals = db1.goals)
    (hrun2 : GoalsHandler.UpdateGoalProgress userID goalID
      (Except.ok { Amount := some a, SetAbsolute := some true }) later = (resp2, db2))
    (hok2 : resp2.status = StatusOK) :
    ∃ g1, db1.stored goalID = some g1
      ∧ db2.stored goalID = some { g1 with UpdatedAt := later.now }
      ∧ resp1.body = Body.goal g1
      ∧ resp2.body = Body.goal { g1 with UpdatedAt := later.now }
      ∧ g1.CurrentAmount = max 0 a := by
  obtain ⟨amount1, sa1, goal, hbind1, _, _, hnew1, hbody1⟩ :=
    UpdateGoalProgress_ok userID goalID _ db db1 resp1 hrun1 hok1
  simp only [bindProgressUpdate, Except.ok.injEq, Prod.mk.injEq] at hbind1
  obtain ⟨ha1, hsa1⟩ := hbind1
  subst ha1 hsa1
  obtain ⟨amount2, sa2, goal2, hbind2, hst2, _, hnew2, hbody2⟩ :=
    UpdateGoalProgress_ok userID goalID _ later db2 resp2 hrun2 hok2
  simp only [bindProgressUpdate, Except.ok.injEq, Prod.mk.injEq] at hbind2
  obtain ⟨ha2, hsa2⟩ := hbind2
  subst ha2 hsa2
  have hsame : later.stored goalID = db1.stored goalID := by
    unfold DB.stored
    rw [hlater]
  rw [hsame, hnew1] at hst2
  simp only [Option.some.injEq] at hst2
  subst hst2
  rw [applyProgress_absolute_idem] at hnew2 hbody2
  refine ⟨_, hnew1, hnew2, hbody1, hbody2, ?_⟩
  show (applyProgress a (some true) goal).CurrentAmount = max 0 a
  rw [applyProgress_amount, if_pos rfl]

/-- Witness of C30: the amount of the sample goal (500 of 1000) is set to
1200 twice, the second time on the table the first update left; both updates
are answered with 200 and the second one leaves the stored goal as the first
one left it. -/
theorem C30_absolute_progress_idempotent_witness :
    ∃ g1, (GoalsHandler.UpdateGoalProgress "u1" "g1"
          (Except.ok { Amount := some 1200, SetAbsolute := some true }) sampleDB).2.stored "g1"
        = some g1
      ∧ (GoalsHandler.UpdateGoalProgress "u1" "g1"
          (Except.ok { Amount := some 1200, SetAbsolute := some true })
          { sampleDB with
            goals := (GoalsHandler.UpdateGoalProgress "u1" "g1"
              (Except.ok { Amount := some 1200, SetAbsolute := some true }) sampleDB).2.goals
            now := 9 }).2.stored "g1"
        = some { g1 with UpdatedAt := 9 }
      ∧ g1.CurrentAmount = max 0 1200 := by
  have hok1 := UpdateGoalProgress_succeeds "u1" "g1" 1200 (some true) sampleDB sampleGoal
    rfl rfl rfl
  obtain ⟨amount, sa, goal, _, hst, hown, hnew, _⟩ :=
    UpdateGoalProgress_ok "u1" "g1"
      (Except.ok { Amount := some 1200, SetAbsolute := some true }) sampleDB
      (GoalsHandler.UpdateGoalProgress "u1" "g1"
        (Except.ok { Amount := some 1200, SetAbsolute := some true }) sampleDB).2
      (GoalsHandler.UpdateGoalProgress "u1" "g1"
        (Except.ok { Amount := some 1200, SetAbsolute := some true }) sampleDB).1 rfl hok1
  have hown1 : ({ applyProgress amount sa goal with UpdatedAt := sampleDB.now } : Goal).UserID
      = "u1" := by
    show (applyProgress amount sa goal).UserID = "u1"
    rw [(applyProgress_frame amount sa goal).2.1]
    exact hown
  have hok2 := UpdateGoalProgress_succeeds "u1" "g1" 1200 (some true)
    { sampleDB with
      goals := (GoalsHandler.UpdateGoalProgress "u1" "g1"
        (Except.ok { Amount := some 1200, SetAbsolute := some true }) sampleDB).2.goals
      now := 9 } _
    rfl hnew hown1
  obtain ⟨g1, h1, h2, _, _, h5⟩ :=
    C30_absolute_progress_idempotent "u1" "g1" 1200 sampleDB
      (GoalsHandler.UpdateGoalProgress "u1" "g1"
        (Except.ok { Amount := some 1200, SetAbsolute := some true }) sampleDB).2
      { sampleDB with
        goals := (GoalsHandler.UpdateGoalProgress "u1" "g1"
          (Except.ok { Amount := some 1200, SetAbsolute := some true }) sampleDB).2.goals
        now := 9 }
      (GoalsHandler.UpdateGoalProgress "u1" "g1"
        (Except.ok { Amount := some 1200, SetAbsolute := some true })
        { sampleDB with
          goals := (GoalsHandler.UpdateGoalProgress "u1" "g1"
            (Except.ok { Amount := some 1200, SetAbsolute := some true }) sampleDB).2.goals
          now := 9 }).2
      (GoalsHandler.UpdateGoalProgress "u1" "g1"
        (Except.ok { Amount := some 1200, SetAbsolute := some true }) sampleDB).1
      (GoalsHandler.UpdateGoalProgress "u1" "g1"
        (Except.ok { Amount := some 1200, SetAbsolute := some true })
        { sampleDB with
          goals := (GoalsHandler.UpdateGoalProgress "u1" "g1"
            (Except.ok { Amount := some 1200, SetAbsolute := some true }) sampleDB).2.goals
          now := 9 }).1
      rfl hok1 rfl rfl hok2
  exact ⟨g1, h1, h2, h5⟩


end PFM
